import Mathlib

/-!
# sample-grpc-server: user domain service

A shallow embedding of the user module of `gigi434/sample-grpc-server`
(`internal/modules/user`), and theorems about it.

Conventions of the embedding.

* A Go `string` is a Lean `String`: every string that reaches the service comes from a proto3
  `string` field and is valid UTF-8.  `len(s)` is the number of bytes of the UTF-8 encoding
  (`golen`), not the number of characters.
* A Go `error` is a value of `GoError`; `nil` is `none` in `Option GoError`.
* A Go `*entity.User` that may be `nil` is an `Option User`.
* Code outside the repository (the Unicode case tables, `bcrypt`, the storage behind the
  repository interface) is a parameter of the definitions that use it.
* A repository call made by the service is recorded, in order, in the `calls` log of `World`.
-/

namespace gostrings

/-- Number of bytes of the UTF-8 encoding of a rune. -/
def runeLen (c : Char) : Nat :=
  if c.toNat < 0x80 then 1
  else if c.toNat < 0x800 then 2
  else if c.toNat < 0x10000 then 3
  else 4

/-- Go `len(s)`: the length of the string in bytes. -/
def golen (s : String) : Nat :=
  (s.data.map runeLen).sum

/-- Go `unicode.IsSpace`: the Latin-1 spaces and the runes of the `White_Space` property. -/
def isSpace (c : Char) : Bool :=
  let n := c.toNat
  n == 0x09 || n == 0x0A || n == 0x0B || n == 0x0C || n == 0x0D || n == 0x20 ||
  n == 0x85 || n == 0xA0 || n == 0x1680 || (0x2000 ≤ n && n ≤ 0x200A) ||
  n == 0x2028 || n == 0x2029 || n == 0x202F || n == 0x205F || n == 0x3000

/-- Go `strings.TrimSpace`: drops the leading and the trailing white space. -/
def TrimSpace (s : String) : String :=
  ⟨((s.data.dropWhile isSpace).reverse.dropWhile isSpace).reverse⟩

/-- Go `unicode.ToLower` on one rune.  ASCII is handled as in the standard library; for the
other runes the library consults its case tables, which are the parameter `caseTable`. -/
def toLowerRune (caseTable : Char → Char) (c : Char) : Char :=
  if c.toNat ≤ 0x7F then
    if 0x41 ≤ c.toNat ∧ c.toNat ≤ 0x5A then Char.ofNat (c.toNat + 32) else c
  else caseTable c

/-- Go `strings.ToLower`. -/
def ToLower (caseTable : Char → Char) (s : String) : String :=
  ⟨s.data.map (toLowerRune caseTable)⟩

end gostrings

namespace goregexp

/-- The fragment of RE2 syntax used by the repository: character classes, concatenation,
alternation and repetition.  The patterns of the source are anchored with `^` and `$` (which,
without the `m` flag, is the end of the text), so matching is matching of the whole text. -/
inductive Regex where
  | fail : Regex
  | eps : Regex
  | cls : (Char → Bool) → Regex
  | seq : Regex → Regex → Regex
  | alt : Regex → Regex → Regex
  | star : Regex → Regex

namespace Regex

/-- One or more repetitions, the `+` operator. -/
def plus (r : Regex) : Regex := seq r (star r)

/-- At least two repetitions, the `{2,}` operator. -/
def atLeastTwo (r : Regex) : Regex := seq r (seq r (star r))

/-- Does the expression match the empty text. -/
def nullable : Regex → Bool
  | fail => false
  | eps => true
  | cls _ => false
  | seq r s => r.nullable && s.nullable
  | alt r s => r.nullable || s.nullable
  | star _ => true

/-- Brzozowski derivative: what remains to be matched after reading the rune `c`. -/
def deriv : Regex → Char → Regex
  | fail, _ => fail
  | eps, _ => fail
  | cls p, c => if p c then eps else fail
  | seq r s, c =>
    if r.nullable then alt (seq (deriv r c) s) (deriv s c) else seq (deriv r c) s
  | alt r s, c => alt (deriv r c) (deriv s c)
  | star r, c => seq (deriv r c) (star r)

/-- Go `(*Regexp).MatchString` for a pattern anchored at both ends. -/
def MatchString (r : Regex) (s : String) : Bool :=
  (s.data.foldl deriv r).nullable

end Regex

/-- Class `[a-z]`. -/
def lowerAZ (c : Char) : Bool := 0x61 ≤ c.toNat && c.toNat ≤ 0x7A

/-- Class `[A-Z]`. -/
def upperAZ (c : Char) : Bool := 0x41 ≤ c.toNat && c.toNat ≤ 0x5A

/-- Class `[0-9]`. -/
def digit (c : Char) : Bool := 0x30 ≤ c.toNat && c.toNat ≤ 0x39

/-- The texts an expression matches, by the usual rules of regular expressions.  This is the
meaning of a pattern; `Regex.MatchString` is the procedure that decides it. -/
inductive Regex.Matches : Regex → List Char → Prop where
  | eps : Regex.Matches Regex.eps []
  | cls (p : Char → Bool) (c : Char) : p c = true → Regex.Matches (Regex.cls p) [c]
  | seq (r s : Regex) (u v : List Char) :
      Regex.Matches r u → Regex.Matches s v → Regex.Matches (Regex.seq r s) (u ++ v)
  | altL (r s : Regex) (u : List Char) : Regex.Matches r u → Regex.Matches (Regex.alt r s) u
  | altR (r s : Regex) (u : List Char) : Regex.Matches s u → Regex.Matches (Regex.alt r s) u
  | starNil (r : Regex) : Regex.Matches (Regex.star r) []
  | starCons (r : Regex) (u v : List Char) :
      Regex.Matches r u → Regex.Matches (Regex.star r) v → Regex.Matches (Regex.star r) (u ++ v)

end goregexp

deriving instance DecidableEq for Except

/-- Sentinel errors of `entity/errors.go`: package-level `errors.New` values, compared by
identity. -/
inductive Sentinel where
  | ErrUserNotFound
  | ErrUserAlreadyExists
  | ErrInvalidEmail
  | ErrInvalidUsername
  | ErrPasswordTooShort
  | ErrInvalidCredentials
  | ErrInvalidUserID
  deriving DecidableEq, Repr

/-- Text of a sentinel error. -/
def Sentinel.text : Sentinel → String
  | ErrUserNotFound => "user not found"
  | ErrUserAlreadyExists => "user already exists"
  | ErrInvalidEmail => "invalid email address"
  | ErrInvalidUsername => "invalid username"
  | ErrPasswordTooShort => "password must be at least 8 characters"
  | ErrInvalidCredentials => "invalid credentials"
  | ErrInvalidUserID => "invalid user ID"

/-- A Go `error` value.
* `sentinel s`: one of the package-level errors of `entity`.
* `errorf msg`: a fresh value made by `fmt.Errorf` without `%w`.
* `wrap pre inner post`: a value made by `fmt.Errorf` with one `%w`; its text is
  `pre ++ inner.Error() ++ post` and `Unwrap` gives `inner`.
* `foreign pkg msg`: a value made by code outside the repository (`bcrypt`, `gorm`, ...). -/
inductive GoError where
  | sentinel : Sentinel → GoError
  | errorf : String → GoError
  | wrap : String → GoError → String → GoError
  | foreign : String → String → GoError
  deriving DecidableEq, Repr

namespace GoError

/-- The method `Error()`. -/
def Error : GoError → String
  | sentinel s => s.text
  | errorf msg => msg
  | wrap pre inner post => pre ++ inner.Error ++ post
  | foreign _ msg => msg

/-- Go `errors.Is(err, target)` for a sentinel target: walks the `Unwrap` chain and compares by
identity. -/
def Is : GoError → Sentinel → Bool
  | sentinel s, t => decide (s = t)
  | errorf _, _ => false
  | wrap _ inner _, t => inner.Is t
  | foreign _ _, _ => false

end GoError

/-- A value given to Go `panic`, as `recover` hands it over: the text the verb `%v` prints for
it.  The value is never `nil`: since Go 1.21 the runtime turns `panic(nil)` into a
`*runtime.PanicNilError`. -/
structure PanicValue where
  text : String
  deriving DecidableEq, Repr

/-- The panic of the runtime at the dereference of a `nil` pointer. -/
def nilDereference : PanicValue :=
  ⟨"runtime error: invalid memory address or nil pointer dereference"⟩

/-- How a Go call ends: it returns its results, or it panics with a value. -/
inductive Outcome (α : Type) where
  | returned : α → Outcome α
  | panicked : PanicValue → Outcome α
  deriving DecidableEq, Repr

namespace entity

open gostrings goregexp

/-- Go `uuid.UUID`, sixteen bytes read as a number; `uuid.Nil` is zero. -/
structure UUID where
  val : Nat
  deriving DecidableEq, Repr

/-- Go `gorm.DeletedAt`, a nullable time. -/
structure DeletedAt where
  Time : Nat
  Valid : Bool
  deriving DecidableEq, Repr

/-- Source `entity.User`; a `time.Time` is an instant counted as a number. -/
structure User where
  ID : UUID
  Email : String
  Username : String
  FirstName : String
  LastName : String
  Password : String
  IsActive : Bool
  IsAdmin : Bool
  CreatedAt : Nat
  UpdatedAt : Nat
  DeletedAt : DeletedAt
  deriving DecidableEq, Repr

/-- Source `entity.Email`. -/
structure Email where
  value : String
  deriving DecidableEq, Repr

/-- Source `Email.Value`. -/
def Email.Value (e : Email) : String := e.value

/-- Source `entity.Username`. -/
structure Username where
  value : String
  deriving DecidableEq, Repr

/-- Source `Username.Value`. -/
def Username.Value (u : Username) : String := u.value

/-- Source `entity.PersonName`. -/
structure PersonName where
  FirstName : String
  LastName : String
  deriving DecidableEq, Repr

/-- Source `PersonName.FullName`. -/
def PersonName.FullName (n : PersonName) : String :=
  if n.FirstName = "" then n.LastName
  else if n.LastName = "" then n.FirstName
  else n.FirstName ++ " " ++ n.LastName

/-- Class `[a-z0-9._%+\-]` of the local part. -/
def emailLocalClass (c : Char) : Bool :=
  lowerAZ c || digit c || c == '.' || c == '_' || c == '%' || c == '+' || c == '-'

/-- Class `[a-z0-9.\-]` of the domain. -/
def emailDomainClass (c : Char) : Bool :=
  lowerAZ c || digit c || c == '.' || c == '-'

/-- The pattern `^[a-z0-9._%+\-]+@[a-z0-9.\-]+\.[a-z]{2,}$`. -/
def emailRegex : Regex :=
  Regex.seq (Regex.plus (Regex.cls emailLocalClass))
    (Regex.seq (Regex.cls (fun c => c == '@'))
      (Regex.seq (Regex.plus (Regex.cls emailDomainClass))
        (Regex.seq (Regex.cls (fun c => c == '.'))
          (Regex.atLeastTwo (Regex.cls lowerAZ)))))

/-- Source `isValidEmail`. -/
def isValidEmail (email : String) : Bool :=
  if golen email > 255 then false
  else emailRegex.MatchString email

/-- Source `NewEmail`: lowercases, trims, validates. -/
def NewEmail (caseTable : Char → Char) (email : String) : Except GoError Email :=
  let email := TrimSpace (ToLower caseTable email)
  if !isValidEmail email then
    Except.error (GoError.wrap "" (GoError.sentinel Sentinel.ErrInvalidEmail) (": " ++ email))
  else
    Except.ok { value := email }

/-- The pattern `^[a-zA-Z][a-zA-Z0-9_]*$`. -/
def usernameRegex : Regex :=
  Regex.seq (Regex.cls (fun c => lowerAZ c || upperAZ c))
    (Regex.star (Regex.cls (fun c => lowerAZ c || upperAZ c || digit c || c == '_')))

/-- Source `validateUsername`. -/
def validateUsername (username : String) : Option GoError :=
  if golen username < 3 then
    some (GoError.wrap "" (GoError.sentinel Sentinel.ErrInvalidUsername)
      ": username must be at least 3 characters")
  else if golen username > 100 then
    some (GoError.wrap "" (GoError.sentinel Sentinel.ErrInvalidUsername)
      ": username must not exceed 100 characters")
  else if !usernameRegex.MatchString username then
    some (GoError.wrap "" (GoError.sentinel Sentinel.ErrInvalidUsername)
      ": username must start with a letter and contain only letters, numbers, and underscores")
  else
    none

/-- Source `NewUsername`. -/
def NewUsername (username : String) : Except GoError Username :=
  let username := TrimSpace username
  match validateUsername username with
  | some err => Except.error err
  | none => Except.ok { value := username }

/-- Source `NewPersonName`. -/
def NewPersonName (firstName lastName : String) : Except GoError PersonName :=
  let firstName := TrimSpace firstName
  let lastName := TrimSpace lastName
  if firstName = "" ∧ lastName = "" then
    Except.error (GoError.errorf "at least one name must be provided")
  else if golen firstName > 100 ∨ golen lastName > 100 then
    Except.error (GoError.errorf "name too long")
  else
    Except.ok { FirstName := firstName, LastName := lastName }

/-- Source `entity.UserStatus`, with its three constants. -/
inductive UserStatus where
  | UserStatusActive
  | UserStatusInactive
  | UserStatusSuspended
  deriving DecidableEq, Repr

/-- The string behind a `UserStatus` constant. -/
def UserStatus.toString : UserStatus → String
  | UserStatusActive => "active"
  | UserStatusInactive => "inactive"
  | UserStatusSuspended => "suspended"

/-- Source `User.GetStatus`. -/
def User.GetStatus (u : User) : UserStatus :=
  if !u.IsActive then UserStatus.UserStatusInactive
  else if u.DeletedAt.Valid then UserStatus.UserStatusSuspended
  else UserStatus.UserStatusActive

/-- Source `User.GetFullName`. -/
def User.GetFullName (u : User) : String :=
  if u.FirstName = "" ∧ u.LastName = "" then u.Username
  else u.FirstName ++ " " ++ u.LastName

/-- The characters the spec allows in the local part of an email, `[a-z0-9._%+-]`. -/
def specLocalChars : List Char := "abcdefghijklmnopqrstuvwxyz0123456789._%+-".data

/-- The characters the spec allows in the domain of an email, `[a-z0-9.-]`. -/
def specDomainChars : List Char := "abcdefghijklmnopqrstuvwxyz0123456789.-".data

/-- The letters `a-z`. -/
def specLowerLetters : List Char := "abcdefghijklmnopqrstuvwxyz".data

/-- The shape `local@domain.tld` in the words of the spec: a non-empty local part over
`[a-z0-9._%+-]`, an `@`, a non-empty domain over `[a-z0-9.-]`, a dot, and a top-level domain of
at least two letters `a-z`. -/
def EmailShape (t : String) : Prop :=
  ∃ loc dom tld : List Char,
    t.data = loc ++ '@' :: (dom ++ '.' :: tld) ∧
    loc ≠ [] ∧ (∀ c ∈ loc, c ∈ specLocalChars) ∧
    dom ≠ [] ∧ (∀ c ∈ dom, c ∈ specDomainChars) ∧
    2 ≤ tld.length ∧ (∀ c ∈ tld, c ∈ specLowerLetters)

/-- The letters `A-Z` and `a-z`. -/
def specLetters : List Char :=
  "ABCDEFGHIJKLMNOPQRSTUVWXYZabcdefghijklmnopqrstuvwxyz".data

/-- The characters the spec allows in a username, `[A-Za-z0-9_]`. -/
def specUsernameChars : List Char :=
  "ABCDEFGHIJKLMNOPQRSTUVWXYZabcdefghijklmnopqrstuvwxyz0123456789_".data

/-- The conditions under which the spec lets `NewUsername` fail, for the trimmed input `t`:
fewer than 3 or more than 100 characters, a first character that is not a letter, or a
character outside `[A-Za-z0-9_]`. -/
def UsernameRejected (t : String) : Prop :=
  t.length < 3 ∨ t.length > 100 ∨ (∀ c, t.data.head? = some c → c ∉ specLetters) ∨
    ∃ c ∈ t.data, c ∉ specUsernameChars

end entity

namespace repository

open entity

/-- Source `repository.UserRepository`, the interface the service talks to.  The storage behind
it is a state of type `σ`; every method takes the state and returns its Go results together
with the next state.  A `(*entity.User, error)` result is a pair of options, since the
interface allows every combination of `nil`.  `Create` receives a pointer, so it also returns
the entity as the storage left it. -/
structure UserRepository (σ : Type) where
  Create : User → σ → (Option GoError × User) × σ
  GetByID : UUID → σ → (Option User × Option GoError) × σ
  GetByEmail : String → σ → (Option User × Option GoError) × σ
  GetByUsername : String → σ → (Option User × Option GoError) × σ
  Update : User → σ → Option GoError × σ
  Delete : UUID → σ → Option GoError × σ
  List : Int → Int → σ → (List User × Option GoError) × σ
  Count : σ → (Int × Option GoError) × σ
  Exists : UUID → σ → (Bool × Option GoError) × σ
  ExistsByEmail : String → σ → (Bool × Option GoError) × σ
  ExistsByUsername : String → σ → (Bool × Option GoError) × σ

/-- Go `[]*entity.User`. -/
abbrev UserSlice := List User

/-- Source `repository.UserFilter`; a `nil` pointer field is `none`. -/
structure UserFilter where
  Email : Option String
  Username : Option String
  IsActive : Option Bool
  IsAdmin : Option Bool
  deriving DecidableEq, Repr

/-- Source `repository.UserSortOptions`. -/
structure UserSortOptions where
  Field : String
  Order : String
  deriving DecidableEq, Repr

/-- Source `repository.ListOptions`. -/
structure ListOptions where
  Offset : Int
  Limit : Int
  Filter : Option UserFilter
  Sort' : Option UserSortOptions
  deriving DecidableEq, Repr

/-- Source `repository.UserRepositoryWithFilters`: the repository interface extended with
filtered listing and counting. -/
structure UserRepositoryWithFilters (σ : Type) extends UserRepository σ where
  ListWithOptions : ListOptions → σ → (UserSlice × Option GoError) × σ
  CountWithFilter : Option UserFilter → σ → (Int × Option GoError) × σ

/-- The dynamic type of a value of the interface `repository.UserRepository`: it implements the
extended interface `UserRepositoryWithFilters` or it does not.  The type assertion
`uc.userRepo.(repository.UserRepositoryWithFilters)` of the use cases reads this. -/
inductive RepoHandle (σ : Type) where
  | basic : UserRepository σ → RepoHandle σ
  | withFilters : UserRepositoryWithFilters σ → RepoHandle σ

/-- The methods of `UserRepository` of a repository value. -/
def RepoHandle.base {σ : Type} : RepoHandle σ → UserRepository σ
  | RepoHandle.basic r => r
  | RepoHandle.withFilters r => r.toUserRepository

/-- One call of a repository method, with its arguments. -/
inductive RepoCall where
  | Create : User → RepoCall
  | GetByID : UUID → RepoCall
  | GetByEmail : String → RepoCall
  | GetByUsername : String → RepoCall
  | Update : User → RepoCall
  | Delete : UUID → RepoCall
  | List : Int → Int → RepoCall
  | Count : RepoCall
  | Exists : UUID → RepoCall
  | ExistsByEmail : String → RepoCall
  | ExistsByUsername : String → RepoCall
  | ListWithOptions : ListOptions → RepoCall
  | CountWithFilter : Option UserFilter → RepoCall
  deriving DecidableEq, Repr

/-- Is the call a call of `Create`. -/
def RepoCall.isCreate : RepoCall → Bool
  | RepoCall.Create _ => true
  | _ => false

/-- Is the call a call of `Update`. -/
def RepoCall.isUpdate : RepoCall → Bool
  | RepoCall.Update _ => true
  | _ => false

/-- Is the call a call of `Delete`. -/
def RepoCall.isDelete : RepoCall → Bool
  | RepoCall.Delete _ => true
  | _ => false

/-- The storage state together with the log of the repository calls made so far, oldest
first. -/
structure World (σ : Type) where
  db : σ
  calls : List RepoCall
  deriving DecidableEq

namespace World

variable {σ : Type}

/-- Call `Create` and log it. -/
def Create (w : World σ) (r : UserRepository σ) (user : User) :
    (Option GoError × User) × World σ :=
  ((r.Create user w.db).1, ⟨(r.Create user w.db).2, w.calls ++ [RepoCall.Create user]⟩)

/-- Call `GetByID` and log it. -/
def GetByID (w : World σ) (r : UserRepository σ) (id : UUID) :
    (Option User × Option GoError) × World σ :=
  ((r.GetByID id w.db).1, ⟨(r.GetByID id w.db).2, w.calls ++ [RepoCall.GetByID id]⟩)

/-- Call `GetByEmail` and log it. -/
def GetByEmail (w : World σ) (r : UserRepository σ) (email : String) :
    (Option User × Option GoError) × World σ :=
  ((r.GetByEmail email w.db).1,
    ⟨(r.GetByEmail email w.db).2, w.calls ++ [RepoCall.GetByEmail email]⟩)

/-- Call `GetByUsername` and log it. -/
def GetByUsername (w : World σ) (r : UserRepository σ) (username : String) :
    (Option User × Option GoError) × World σ :=
  ((r.GetByUsername username w.db).1,
    ⟨(r.GetByUsername username w.db).2, w.calls ++ [RepoCall.GetByUsername username]⟩)

/-- Call `Update` and log it. -/
def Update (w : World σ) (r : UserRepository σ) (user : User) : Option GoError × World σ :=
  ((r.Update user w.db).1, ⟨(r.Update user w.db).2, w.calls ++ [RepoCall.Update user]⟩)

/-- Call `ExistsByEmail` and log it. -/
def ExistsByEmail (w : World σ) (r : UserRepository σ) (email : String) :
    (Bool × Option GoError) × World σ :=
  ((r.ExistsByEmail email w.db).1,
    ⟨(r.ExistsByEmail email w.db).2, w.calls ++ [RepoCall.ExistsByEmail email]⟩)

/-- Call `ExistsByUsername` and log it. -/
def ExistsByUsername (w : World σ) (r : UserRepository σ) (username : String) :
    (Bool × Option GoError) × World σ :=
  ((r.ExistsByUsername username w.db).1,
    ⟨(r.ExistsByUsername username w.db).2, w.calls ++ [RepoCall.ExistsByUsername username]⟩)

/-- Call `List` and log it. -/
def List (w : World σ) (r : UserRepository σ) (offset limit : Int) :
    (UserSlice × Option GoError) × World σ :=
  ((r.List offset limit w.db).1,
    ⟨(r.List offset limit w.db).2, w.calls ++ [RepoCall.List offset limit]⟩)

/-- Call `Count` and log it. -/
def Count (w : World σ) (r : UserRepository σ) : (Int × Option GoError) × World σ :=
  ((r.Count w.db).1, ⟨(r.Count w.db).2, w.calls ++ [RepoCall.Count]⟩)

/-- Call `ListWithOptions` and log it. -/
def ListWithOptions (w : World σ) (r : UserRepositoryWithFilters σ) (opts : ListOptions) :
    (UserSlice × Option GoError) × World σ :=
  ((r.ListWithOptions opts w.db).1,
    ⟨(r.ListWithOptions opts w.db).2, w.calls ++ [RepoCall.ListWithOptions opts]⟩)

/-- Call `CountWithFilter` and log it. -/
def CountWithFilter (w : World σ) (r : UserRepositoryWithFilters σ)
    (filter : Option UserFilter) : (Int × Option GoError) × World σ :=
  ((r.CountWithFilter filter w.db).1,
    ⟨(r.CountWithFilter filter w.db).2, w.calls ++ [RepoCall.CountWithFilter filter]⟩)

/-- Call `Exists` and log it. -/
def Exists (w : World σ) (r : UserRepository σ) (id : UUID) :
    (Bool × Option GoError) × World σ :=
  ((r.Exists id w.db).1, ⟨(r.Exists id w.db).2, w.calls ++ [RepoCall.Exists id]⟩)

/-- Call `Delete` and log it. -/
def Delete (w : World σ) (r : UserRepository σ) (id : UUID) : Option GoError × World σ :=
  ((r.Delete id w.db).1, ⟨(r.Delete id w.db).2, w.calls ++ [RepoCall.Delete id]⟩)

end World

end repository

namespace service

open entity repository gostrings

/-- The two functions of `golang.org/x/crypto/bcrypt` that the service calls.  The package is
not part of the repository, so it is a parameter.  `GenerateFromPassword` draws a random salt:
`rnd` stands for the random bytes it reads.  Its failure carries the text of the error; the
error values of `bcrypt` are its own and never one of the sentinels of `entity`.
`CompareHashAndPassword hash password` is `none` when the password is accepted. -/
structure Bcrypt where
  GenerateFromPassword : (rnd : Nat) → (password : String) → (cost : Nat) → Except String String
  CompareHashAndPassword : (hashedPassword : String) → (password : String) → Option String

/-- Go `bcrypt.DefaultCost`. -/
def bcryptDefaultCost : Nat := 10

/-- The code outside the repository that the service depends on. -/
structure Lib where
  caseTable : Char → Char
  bcrypt : Bcrypt

/-- Source `UserService.HashPassword`. -/
def HashPassword (lib : Lib) (rnd : Nat) (password : String) : Except GoError String :=
  if golen password < 8 then
    Except.error (GoError.sentinel Sentinel.ErrPasswordTooShort)
  else
    match lib.bcrypt.GenerateFromPassword rnd password bcryptDefaultCost with
    | Except.error msg => Except.error (GoError.foreign "bcrypt" msg)
    | Except.ok hashedBytes => Except.ok hashedBytes

/-- Source `UserService.VerifyPassword`. -/
def VerifyPassword (lib : Lib) (hashedPassword plainPassword : String) : Option GoError :=
  match lib.bcrypt.CompareHashAndPassword hashedPassword plainPassword with
  | some msg => some (GoError.foreign "bcrypt" msg)
  | none => none

/-- Result of `CreateUser`: the returned error, the entity behind the pointer argument after
the call, and the world after the call. -/
structure CreateUserResult (σ : Type) where
  err : Option GoError
  user : User
  world : World σ

variable {σ : Type}

/-- Source `UserService.CreateUser`. -/
def CreateUser (lib : Lib) (userRepo : UserRepository σ) (rnd : Nat) (user : User)
    (plainPassword : String) (w : World σ) : CreateUserResult σ :=
  -- Validate email
  match NewEmail lib.caseTable user.Email with
  | Except.error err => ⟨some err, user, w⟩
  | Except.ok email =>
  let user := { user with Email := email.Value }
  -- Validate username
  match NewUsername user.Username with
  | Except.error err => ⟨some err, user, w⟩
  | Except.ok username =>
  let user := { user with Username := username.Value }
  -- Validate name
  match NewPersonName user.FirstName user.LastName with
  | Except.error err => ⟨some err, user, w⟩
  | Except.ok name =>
  let user := { user with FirstName := name.FirstName, LastName := name.LastName }
  -- Hash password
  match HashPassword lib rnd plainPassword with
  | Except.error err => ⟨some (GoError.wrap "failed to hash password: " err ""), user, w⟩
  | Except.ok hashedPassword =>
  let user := { user with Password := hashedPassword }
  -- Check if user already exists
  match w.ExistsByEmail userRepo user.Email with
  | ((_, some err), w) =>
    ⟨some (GoError.wrap "failed to check email existence: " err ""), user, w⟩
  | ((emailExists, none), w) =>
  if emailExists then
    ⟨some (GoError.wrap "" (GoError.sentinel Sentinel.ErrUserAlreadyExists)
      ": email already in use"), user, w⟩
  else
  match w.ExistsByUsername userRepo user.Username with
  | ((_, some err), w) =>
    ⟨some (GoError.wrap "failed to check username existence: " err ""), user, w⟩
  | ((usernameExists, none), w) =>
  if usernameExists then
    ⟨some (GoError.wrap "" (GoError.sentinel Sentinel.ErrUserAlreadyExists)
      ": username already in use"), user, w⟩
  else
  -- Create user
  match w.Create userRepo user with
  | ((some err, user), w) => ⟨some (GoError.wrap "failed to create user: " err ""), user, w⟩
  | ((none, user), w) => ⟨none, user, w⟩

/-- The block `if updates.Email != "" && updates.Email != existingUser.Email { ... }` of
`UpdateUser`: an error to return at once, or the entity to go on with. -/
def mergeEmail (lib : Lib) (userRepo : UserRepository σ) (updates existingUser : User)
    (w : World σ) : Except GoError User × World σ :=
  if updates.Email ≠ "" ∧ updates.Email ≠ existingUser.Email then
    match NewEmail lib.caseTable updates.Email with
    | Except.error err => (Except.error err, w)
    | Except.ok email =>
    -- Check if new email is already in use
    match w.ExistsByEmail userRepo email.Value with
    | ((_, some err), w) =>
      (Except.error (GoError.wrap "failed to check email existence: " err ""), w)
    | ((emailExists, none), w) =>
    if emailExists then
      (Except.error (GoError.wrap "" (GoError.sentinel Sentinel.ErrUserAlreadyExists)
        ": email already in use"), w)
    else
      (Except.ok { existingUser with Email := email.Value }, w)
  else
    (Except.ok existingUser, w)

/-- The block `if updates.Username != "" && updates.Username != existingUser.Username
{ ... }` of `UpdateUser`. -/
def mergeUsername (userRepo : UserRepository σ) (updates existingUser : User)
    (w : World σ) : Except GoError User × World σ :=
  if updates.Username ≠ "" ∧ updates.Username ≠ existingUser.Username then
    match NewUsername updates.Username with
    | Except.error err => (Except.error err, w)
    | Except.ok username =>
    -- Check if new username is already in use
    match w.ExistsByUsername userRepo username.Value with
    | ((_, some err), w) =>
      (Except.error (GoError.wrap "failed to check username existence: " err ""), w)
    | ((usernameExists, none), w) =>
    if usernameExists then
      (Except.error (GoError.wrap "" (GoError.sentinel Sentinel.ErrUserAlreadyExists)
        ": username already in use"), w)
    else
      (Except.ok { existingUser with Username := username.Value }, w)
  else
    (Except.ok existingUser, w)

/-- The two blocks `if updates.FirstName != "" { ... }` and `if updates.LastName != ""
{ ... }` of `UpdateUser`. -/
def mergeNames (updates existingUser : User) : User :=
  let existingUser :=
    if updates.FirstName ≠ "" then { existingUser with FirstName := updates.FirstName }
    else existingUser
  if updates.LastName ≠ "" then { existingUser with LastName := updates.LastName }
  else existingUser

/-- Source `UserService.UpdateUser`. -/
def UpdateUser (lib : Lib) (userRepo : UserRepository σ) (userID : UUID) (updates : User)
    (w : World σ) : Option GoError × World σ :=
  -- Get existing user
  match w.GetByID userRepo userID with
  | ((_, some err), w) => (some (GoError.wrap "failed to get user: " err ""), w)
  | ((none, none), w) => (some (GoError.sentinel Sentinel.ErrUserNotFound), w)
  | ((some existingUser, none), w) =>
  -- Update fields if provided
  match mergeEmail lib userRepo updates existingUser w with
  | (Except.error err, w) => (some err, w)
  | (Except.ok existingUser, w) =>
  match mergeUsername userRepo updates existingUser w with
  | (Except.error err, w) => (some err, w)
  | (Except.ok existingUser, w) =>
  -- Update user
  match w.Update userRepo (mergeNames updates existingUser) with
  | (some err, w) => (some (GoError.wrap "failed to update user: " err ""), w)
  | (none, w) => (none, w)

/-- The block `if _, emailErr := entity.NewEmail(identifier); emailErr == nil { ... }` of
`Authenticate`, starting from `user = nil` and `err = nil`. -/
def findByEmail (lib : Lib) (userRepo : UserRepository σ) (identifier : String)
    (w : World σ) : (Option User × Option GoError) × World σ :=
  match NewEmail lib.caseTable identifier with
  | Except.ok _ => w.GetByEmail userRepo identifier
  | Except.error _ => ((none, none), w)

/-- The block `if user == nil { user, err = s.userRepo.GetByUsername(ctx, identifier) }` of
`Authenticate`. -/
def findByUsername (userRepo : UserRepository σ) (identifier : String)
    (found : (Option User × Option GoError) × World σ) :
    (Option User × Option GoError) × World σ :=
  match found with
  | ((none, _), w) => w.GetByUsername userRepo identifier
  | ((some user, err), w) => ((some user, err), w)

/-- Source `UserService.Authenticate`. -/
def Authenticate (lib : Lib) (userRepo : UserRepository σ) (identifier password : String)
    (w : World σ) : (Option User × Option GoError) × World σ :=
  match findByUsername userRepo identifier (findByEmail lib userRepo identifier w) with
  | ((_, some err), w) => ((none, some (GoError.wrap "failed to find user: " err "")), w)
  | ((none, none), w) => ((none, some (GoError.sentinel Sentinel.ErrInvalidCredentials)), w)
  | ((some user, none), w) =>
  -- Verify password
  match VerifyPassword lib user.Password password with
  | some _ => ((none, some (GoError.sentinel Sentinel.ErrInvalidCredentials)), w)
  | none =>
  -- Check if user is active
  if !user.IsActive then
    ((none, some (GoError.errorf "user account is not active")), w)
  else
    ((some user, none), w)

/-- Source `UserService.ChangePassword`. -/
def ChangePassword (lib : Lib) (userRepo : UserRepository σ) (rnd : Nat) (userID : UUID)
    (oldPassword newPassword : String) (w : World σ) : Option GoError × World σ :=
  -- Get user
  match w.GetByID userRepo userID with
  | ((_, some err), w) => (some (GoError.wrap "failed to get user: " err ""), w)
  | ((none, none), w) => (some (GoError.sentinel Sentinel.ErrUserNotFound), w)
  | ((some user, none), w) =>
  -- Verify old password
  match VerifyPassword lib user.Password oldPassword with
  | some _ => (some (GoError.sentinel Sentinel.ErrInvalidCredentials), w)
  | none =>
  -- Hash new password
  match HashPassword lib rnd newPassword with
  | Except.error err => (some (GoError.wrap "failed to hash password: " err ""), w)
  | Except.ok hashedPassword =>
  -- Update password
  match w.Update userRepo { user with Password := hashedPassword } with
  | (some err, w) => (some (GoError.wrap "failed to update password: " err ""), w)
  | (none, w) => (none, w)

/-- Source `service.UserService`: the service holds the repository it works on. -/
structure UserService (σ : Type) where
  userRepo : UserRepository σ

end service

namespace gonum

/-- The value of a Go `int` (64 bits) after an arithmetic operation whose exact result is `x`:
the result wraps around modulo `2^64`. -/
def wrapInt64 (x : Int) : Int :=
  (x + 2 ^ 63) % 2 ^ 64 - 2 ^ 63

/-- Go `a - b` on `int`. -/
def subInt (a b : Int) : Int := wrapInt64 (a - b)

/-- Go `a * b` on `int`. -/
def mulInt (a b : Int) : Int := wrapInt64 (a * b)

/-- Binary logarithm by halving, at most `fuel` times. -/
def log2Aux : Nat → Nat → Nat
  | 0, _ => 0
  | fuel + 1, n => if n < 2 then 0 else log2Aux fuel (n / 2) + 1

/-- The binary logarithm `⌊log₂ n⌋` of a positive number (and 0 for 0). -/
def log2Floor (n : Nat) : Nat := log2Aux n n

/-- The nearest `float64` to the positive quotient `N / D`, ties to even, as the fraction
`(numerator, denominator)`.  `b - K` is the binary exponent `⌊log₂ (N / D)⌋`; the quotient is
scaled by `2 ^ (52 - (b - K))` into `[2^52, 2^53)`, rounded to an integer mantissa `m`, and
scaled back.  For quotients of 64-bit integers the exponent stays in the range of normal
numbers, so neither overflow nor a subnormal occurs. -/
def roundNearestEven (N D : Nat) : Nat × Nat :=
  if N = 0 then (0, 1)
  else
    let K := log2Floor D + 1
    let b := log2Floor (N * 2 ^ K / D)
    let a := 52 + K
    let N' := N * 2 ^ (a - b)
    let D' := D * 2 ^ (b - a)
    let m0 := N' / D'
    let r := N' % D'
    let m := if 2 * r < D' then m0
             else if D' < 2 * r then m0 + 1
             else if m0 % 2 = 0 then m0 else m0 + 1
    (m * 2 ^ (b - a), 2 ^ (a - b))

/-- A finite `float64`: the sign and the magnitude as a fraction. -/
structure Float64 where
  neg : Bool
  num : Nat
  den : Nat
  deriving DecidableEq, Repr

/-- Go `float64(x)` for an integer `x`. -/
def Float64.ofInt (x : Int) : Float64 :=
  ⟨decide (x < 0), (roundNearestEven x.natAbs 1).1, (roundNearestEven x.natAbs 1).2⟩

/-- Go `x / y` on `float64`, for a divisor that is not zero. -/
def Float64.div (x y : Float64) : Float64 :=
  ⟨xor x.neg y.neg, (roundNearestEven (x.num * y.den) (x.den * y.num)).1,
    (roundNearestEven (x.num * y.den) (x.den * y.num)).2⟩

/-- Go `math.Ceil`, as the integer it yields. -/
def Float64.ceil (x : Float64) : Int :=
  if x.neg then -((x.num / x.den : Nat) : Int)
  else (((x.num + x.den - 1) / x.den : Nat) : Int)

/-- Go `int(f)` for a `float64` holding the integer `v`: the value when it fits 64 bits, and
the "integer indefinite" value `-2^63` of amd64 when it does not. -/
def intOfFloat (v : Int) : Int :=
  if -2 ^ 63 ≤ v ∧ v < 2 ^ 63 then v else -2 ^ 63

/-- The expression `int(math.Ceil(float64(totalCount) / float64(pageSize)))`. -/
def ceilDivFloat (totalCount pageSize : Int) : Int :=
  intOfFloat (Float64.ceil (Float64.div (Float64.ofInt totalCount) (Float64.ofInt pageSize)))

/-- The value of a Go `int32` after a conversion whose exact result is `x`: the result wraps
around modulo `2^32`. -/
def wrapInt32 (x : Int) : Int :=
  (x + 2 ^ 31) % 2 ^ 32 - 2 ^ 31

end gonum

namespace dto

open entity

/-- Source `dto.UserDTO`; the `*time.Time` field `DeletedAt` is an option. -/
structure UserDTO where
  ID : UUID
  Email : String
  Username : String
  FirstName : String
  LastName : String
  FullName : String
  IsActive : Bool
  IsAdmin : Bool
  Status : String
  CreatedAt : Nat
  UpdatedAt : Nat
  DeletedAt : Option Nat
  deriving DecidableEq, Repr

/-- Source `dto.FromEntity`. -/
def FromEntity (user : User) : UserDTO :=
  { ID := user.ID
    Email := user.Email
    Username := user.Username
    FirstName := user.FirstName
    LastName := user.LastName
    FullName := user.GetFullName
    IsActive := user.IsActive
    IsAdmin := user.IsAdmin
    Status := user.GetStatus.toString
    CreatedAt := user.CreatedAt
    UpdatedAt := user.UpdatedAt
    DeletedAt := if user.DeletedAt.Valid then some user.DeletedAt.Time else none }

/-- Source `dto.ListUsersDTO`. -/
structure ListUsersDTO where
  Users : List UserDTO
  Page : Int
  PageSize : Int
  TotalItems : Int
  TotalPages : Int
  deriving DecidableEq, Repr

/-- Source `dto.FilterDTO`. -/
structure FilterDTO where
  Email : Option String
  Username : Option String
  IsActive : Option Bool
  IsAdmin : Option Bool
  deriving DecidableEq, Repr

/-- Source `dto.CreateUserDTO`. -/
structure CreateUserDTO where
  Email : String
  Username : String
  Password : String
  FirstName : String
  LastName : String
  IsActive : Bool
  IsAdmin : Bool
  deriving DecidableEq, Repr

/-- Source `CreateUserDTO.ToEntity`; the fields the literal leaves out have their zero value. -/
def CreateUserDTO.ToEntity (dto : CreateUserDTO) : User :=
  { ID := ⟨0⟩
    Email := dto.Email
    Username := dto.Username
    FirstName := dto.FirstName
    LastName := dto.LastName
    Password := ""
    IsActive := dto.IsActive
    IsAdmin := dto.IsAdmin
    CreatedAt := 0
    UpdatedAt := 0
    DeletedAt := ⟨0, false⟩ }

/-- Source `dto.UpdateUserDTO`; a `nil` pointer field is `none`. -/
structure UpdateUserDTO where
  ID : UUID
  Email : Option String
  Username : Option String
  FirstName : Option String
  LastName : Option String
  IsActive : Option Bool
  IsAdmin : Option Bool
  deriving DecidableEq, Repr

/-- Source `dto.SearchUsersDTO`. -/
structure SearchUsersDTO where
  Query : String
  Page : Int
  PageSize : Int
  Filter : Option FilterDTO
  deriving DecidableEq, Repr

/-- Source `dto.ChangePasswordDTO`. -/
structure ChangePasswordDTO where
  UserID : UUID
  OldPassword : String
  NewPassword : String
  deriving DecidableEq, Repr

/-- Source `dto.AuthenticateDTO`. -/
structure AuthenticateDTO where
  Identifier : String
  Password : String
  deriving DecidableEq, Repr

end dto

namespace usecase

open entity repository dto gonum

variable {σ : Type}

/-- Source `UserUseCase.ListUsers`. -/
def ListUsers (userRepo : RepoHandle σ) (page pageSize : Int) (filter : Option FilterDTO)
    (w : World σ) : (Option ListUsersDTO × Option GoError) × World σ :=
  -- Calculate offset
  let page := if page < 1 then 1 else page
  let pageSize := if pageSize < 1 then 10 else pageSize
  let offset := mulInt (subInt page 1) pageSize
  -- Create repository filter
  let repoFilter : Option UserFilter :=
    match filter with
    | some filter =>
      some { Email := filter.Email, Username := filter.Username,
             IsActive := filter.IsActive, IsAdmin := filter.IsAdmin }
    | none => none
  -- Check if repository supports advanced filtering
  match userRepo with
  | RepoHandle.withFilters advRepo =>
    -- Use advanced filtering
    let opts : ListOptions :=
      { Offset := offset, Limit := pageSize, Filter := repoFilter,
        Sort' := some { Field := "created_at", Order := "desc" } }
    match w.ListWithOptions advRepo opts with
    | ((_, some err), w) => ((none, some (GoError.wrap "failed to list users: " err "")), w)
    | ((users, none), w) =>
    -- Get total count
    match w.CountWithFilter advRepo repoFilter with
    | ((_, some err), w) => ((none, some (GoError.wrap "failed to count users: " err "")), w)
    | ((totalCount, none), w) =>
      ((some { Users := users.map FromEntity, Page := page, PageSize := pageSize,
               TotalItems := totalCount, TotalPages := ceilDivFloat totalCount pageSize },
        none), w)
  | RepoHandle.basic basicRepo =>
    -- Fallback to basic listing
    match w.List basicRepo offset pageSize with
    | ((_, some err), w) => ((none, some (GoError.wrap "failed to list users: " err "")), w)
    | ((users, none), w) =>
    -- Get total count
    match w.Count basicRepo with
    | ((_, some err), w) => ((none, some (GoError.wrap "failed to count users: " err "")), w)
    | ((totalCount, none), w) =>
      ((some { Users := users.map FromEntity, Page := page, PageSize := pageSize,
               TotalItems := totalCount, TotalPages := ceilDivFloat totalCount pageSize },
        none), w)

/-- The function `uuid.Parse` of `github.com/google/uuid`, which is not part of the repository
and so is a parameter: the UUID, or the text of the error. -/
abbrev UUIDParser := String → Except String UUID

/-- Go `map[string]*dto.UserDTO`, as its entries, one per key, the latest first. -/
abbrev UserMap := List (String × UserDTO)

/-- Go `m[k] = v`. -/
def UserMap.set (m : UserMap) (k : String) (v : UserDTO) : UserMap :=
  (k, v) :: m.filter (fun e => decide (e.1 ≠ k))

/-- Go `m[k]`, with `none` for a missing key. -/
def UserMap.get (m : UserMap) (k : String) : Option UserDTO :=
  (m.find? (fun e => decide (e.1 = k))).map (fun e => e.2)

/-- The variables of the loop of `BatchGetUsers`, with the world. -/
structure BatchState (σ : Type) where
  users : UserMap
  notFound : List String
  world : World σ

/-- The body of the loop `for _, id := range ids { ... }` of `BatchGetUsers`. -/
def batchGetStep (uuidParse : UUIDParser) (userRepo : RepoHandle σ) (st : BatchState σ)
    (id : String) : BatchState σ :=
  -- Parse UUID
  match uuidParse id with
  | Except.error _ => { st with notFound := st.notFound ++ [id] }
  | Except.ok userID =>
  -- Get user from repository
  match st.world.GetByID userRepo.base userID with
  | ((_, some _), w) => { st with notFound := st.notFound ++ [id], world := w }
  | ((none, none), w) => { st with notFound := st.notFound ++ [id], world := w }
  | ((some user, none), w) =>
    -- Convert entity to DTO
    { users := st.users.set id (FromEntity user), notFound := st.notFound, world := w }

/-- Source `UserUseCase.BatchGetUsers`. -/
def BatchGetUsers (uuidParse : UUIDParser) (userRepo : RepoHandle σ) (ids : List String)
    (w : World σ) : (UserMap × List String × Option GoError) × World σ :=
  ((
    (ids.foldl (batchGetStep uuidParse userRepo) ⟨[], [], w⟩).users,
    (ids.foldl (batchGetStep uuidParse userRepo) ⟨[], [], w⟩).notFound,
    none),
   (ids.foldl (batchGetStep uuidParse userRepo) ⟨[], [], w⟩).world)

/-- What one id resolves to over the storage `db`, in the words of the spec: the DTO of the
user when the id parses as a UUID and its lookup gives a user and no error, and nothing
otherwise. -/
def resolveID (uuidParse : UUIDParser) (userRepo : RepoHandle σ) (db : σ) (id : String) :
    Option UserDTO :=
  match uuidParse id with
  | Except.error _ => none
  | Except.ok userID =>
    match (userRepo.base.GetByID userID db).1 with
    | (some user, none) => some (FromEntity user)
    | _ => none

/-- Source `usecase.UserUseCase`. -/
structure UserUseCase (σ : Type) where
  userRepo : RepoHandle σ
  userService : service.UserService σ

/-- Source `UserUseCase.CreateUser`. -/
def CreateUser (lib : service.Lib) (uc : UserUseCase σ) (rnd : Nat)
    (createDTO : CreateUserDTO) (w : World σ) :
    (Option UserDTO × Option GoError) × World σ :=
  -- Convert DTO to entity
  let user := createDTO.ToEntity
  -- Create user using domain service (handles validation and password hashing)
  match service.CreateUser lib uc.userService.userRepo rnd user createDTO.Password w with
  | ⟨some err, _, w⟩ => ((none, some (GoError.wrap "failed to create user: " err "")), w)
  | ⟨none, user, w⟩ =>
    -- Convert entity to DTO
    ((some (FromEntity user), none), w)

/-- The entity `updates` that `UserUseCase.UpdateUser` builds from the DTO, starting from
`&entity.User{}`. -/
def updatesOf (updateDTO : UpdateUserDTO) : User :=
  { ID := ⟨0⟩
    Email := match updateDTO.Email with | some v => v | none => ""
    Username := match updateDTO.Username with | some v => v | none => ""
    FirstName := match updateDTO.FirstName with | some v => v | none => ""
    LastName := match updateDTO.LastName with | some v => v | none => ""
    Password := ""
    IsActive := match updateDTO.IsActive with | some v => v | none => false
    IsAdmin := match updateDTO.IsAdmin with | some v => v | none => false
    CreatedAt := 0
    UpdatedAt := 0
    DeletedAt := ⟨0, false⟩ }

/-- Source `UserUseCase.UpdateUser`.  `dto.FromEntity` dereferences its argument, so a `nil`
entity without an error from `GetByID` ends in a panic. -/
def UpdateUser (lib : service.Lib) (uc : UserUseCase σ) (updateDTO : UpdateUserDTO)
    (w : World σ) : Outcome (Option UserDTO × Option GoError) × World σ :=
  -- Create an entity with update fields
  let updates := updatesOf updateDTO
  -- Update user using domain service (handles validation)
  match service.UpdateUser lib uc.userService.userRepo updateDTO.ID updates w with
  | (some err, w) =>
    (Outcome.returned (none, some (GoError.wrap "failed to update user: " err "")), w)
  | (none, w) =>
  -- Get updated user
  match w.GetByID uc.userRepo.base updateDTO.ID with
  | ((_, some err), w) =>
    (Outcome.returned (none, some (GoError.wrap "failed to get updated user: " err "")), w)
  | ((none, none), w) => (Outcome.panicked nilDereference, w)
  | ((some user, none), w) =>
    -- Convert entity to DTO
    (Outcome.returned (some (FromEntity user), none), w)

set_option linter.unusedVariables false in
/-- Source `UserUseCase.DeleteUser`. -/
def DeleteUser (uuidParse : UUIDParser) (uc : UserUseCase σ) (id : String)
    (hardDelete : Bool) (w : World σ) : Option GoError × World σ :=
  -- Parse UUID
  match uuidParse id with
  | Except.error msg =>
    (some (GoError.wrap "invalid user ID: " (GoError.foreign "uuid" msg) ""), w)
  | Except.ok userID =>
  -- Check if user exists
  match w.Exists uc.userRepo.base userID with
  | ((_, some err), w) =>
    (some (GoError.wrap "failed to check user existence: " err ""), w)
  | ((userExists, none), w) =>
  if !userExists then
    (some (GoError.sentinel Sentinel.ErrUserNotFound), w)
  else
  -- Delete user
  match w.Delete uc.userRepo.base userID with
  | (some err, w) => (some (GoError.wrap "failed to delete user: " err ""), w)
  | (none, w) => (none, w)

/-- Source `UserUseCase.SearchUsers`.  The filter of the DTO is a pointer, so the assignment
to `filter.Email` also changes the filter the caller passed; the model keeps the value that
reaches `ListUsers`. -/
def SearchUsers (uc : UserUseCase σ) (searchDTO : SearchUsersDTO) (w : World σ) :
    (Option ListUsersDTO × Option GoError) × World σ :=
  -- Create filter based on search query
  let filter : FilterDTO :=
    match searchDTO.Filter with
    | some filter => filter
    | none => { Email := none, Username := none, IsActive := none, IsAdmin := none }
  -- Add search query to filter (search in email and username)
  let filter : FilterDTO :=
    if searchDTO.Query ≠ "" then { filter with Email := some searchDTO.Query } else filter
  ListUsers uc.userRepo searchDTO.Page searchDTO.PageSize (some filter) w

/-- Source `UserUseCase.ChangePassword`. -/
def ChangePassword (lib : service.Lib) (uc : UserUseCase σ) (rnd : Nat)
    (changeDTO : ChangePasswordDTO) (w : World σ) : Option GoError × World σ :=
  -- Use domain service to change password
  match service.ChangePassword lib uc.userService.userRepo rnd changeDTO.UserID
      changeDTO.OldPassword changeDTO.NewPassword w with
  | (some err, w) => (some (GoError.wrap "failed to change password: " err ""), w)
  | (none, w) => (none, w)

/-- Source `UserUseCase.AuthenticateUser`.  `dto.FromEntity` dereferences its argument, so a
`nil` entity without an error from the service ends in a panic. -/
def AuthenticateUser (lib : service.Lib) (uc : UserUseCase σ) (authDTO : AuthenticateDTO)
    (w : World σ) : Outcome (Option UserDTO × Option GoError) × World σ :=
  -- Use domain service to authenticate
  match service.Authenticate lib uc.userService.userRepo authDTO.Identifier
      authDTO.Password w with
  | ((_, some err), w) =>
    (Outcome.returned (none, some (GoError.wrap "authentication failed: " err "")), w)
  | ((none, none), w) => (Outcome.panicked nilDereference, w)
  | ((some user, none), w) =>
    -- Convert entity to DTO
    (Outcome.returned (some (FromEntity user), none), w)

end usecase

/-! ## Generated messages

The package `pkg/generated/v1/user` (imported as `pb`) and `pkg/generated/common` are generated
from the protocol definitions and are not among the sources.  The messages below have the fields
that the mapper and the handlers read and write; a pointer field is an option, an `int32` is an
integer, and a `*timestamppb.Timestamp` is the instant it holds. -/

namespace pb

/-- Generated enumeration `pb.UserStatus`, with the constants the mapper uses. -/
inductive UserStatus where
  | USER_STATUS_UNSPECIFIED
  | USER_STATUS_ACTIVE
  | USER_STATUS_INACTIVE
  | USER_STATUS_SUSPENDED
  deriving DecidableEq, Repr

/-- Generated message `pb.User`, as `mapper.UserToProto` fills it. -/
structure User where
  Id : String
  Email : String
  Username : String
  FirstName : String
  LastName : String
  FullName : String
  IsActive : Bool
  IsAdmin : Bool
  Status : UserStatus
  CreatedAt : Option Nat
  UpdatedAt : Option Nat
  DeletedAt : Option Nat
  deriving DecidableEq, Repr

/-- Go `fieldmaskpb.FieldMask`. -/
structure FieldMask where
  Paths : List String
  deriving DecidableEq, Repr

/-- Generated message `pb.CreateUserRequest`. -/
structure CreateUserRequest where
  Email : String
  Username : String
  Password : String
  FirstName : String
  LastName : String
  IsActive : Option Bool
  IsAdmin : Option Bool
  deriving DecidableEq, Repr

/-- Generated message `pb.CreateUserResponse`. -/
structure CreateUserResponse where
  User : Option User
  deriving DecidableEq, Repr

/-- Generated message `pb.UpdateUserRequest`. -/
structure UpdateUserRequest where
  Id : String
  Email : Option String
  Username : Option String
  FirstName : Option String
  LastName : Option String
  IsActive : Option Bool
  IsAdmin : Option Bool
  UpdateMask : Option FieldMask
  deriving DecidableEq, Repr

/-- Generated message `pb.UpdateUserResponse`. -/
structure UpdateUserResponse where
  User : Option User
  deriving DecidableEq, Repr

/-- Generated message `pb.DeleteUserRequest`. -/
structure DeleteUserRequest where
  Id : String
  HardDelete : Bool
  deriving DecidableEq, Repr

/-- Generated message `pb.DeleteUserResponse`. -/
structure DeleteUserResponse where
  Success : Bool
  Message : String
  deriving DecidableEq, Repr

/-- Generated message `pb.ChangePasswordRequest`. -/
structure ChangePasswordRequest where
  UserId : String
  OldPassword : String
  NewPassword : String
  deriving DecidableEq, Repr

/-- Generated message `pb.ChangePasswordResponse`. -/
structure ChangePasswordResponse where
  Success : Bool
  Message : String
  deriving DecidableEq, Repr

/-- Generated message `pb.AuthenticateUserRequest`. -/
structure AuthenticateUserRequest where
  Identifier : String
  Password : String
  deriving DecidableEq, Repr

/-- Generated message `pb.AuthenticateUserResponse`, with the three fields the handler sets;
the handler sets no other field, so whatever else the message has keeps its zero value. -/
structure AuthenticateUserResponse where
  User : Option User
  Success : Bool
  Message : String
  deriving DecidableEq, Repr

/-- Generated message `commonpb.PaginationRequest`. -/
structure PaginationRequest where
  Page : Int
  PageSize : Int
  deriving DecidableEq, Repr

/-- Generated message `commonpb.PaginationResponse`. -/
structure PaginationResponse where
  Page : Int
  PageSize : Int
  TotalItems : Int
  TotalPages : Int
  HasNext : Bool
  HasPrevious : Bool
  deriving DecidableEq, Repr

/-- Generated message `pb.ListUsersFilter`. -/
structure ListUsersFilter where
  Email : Option String
  Username : Option String
  IsActive : Option Bool
  IsAdmin : Option Bool
  deriving DecidableEq, Repr

/-- Generated message `pb.ListUsersRequest`. -/
structure ListUsersRequest where
  Pagination : Option PaginationRequest
  Filter : Option ListUsersFilter
  deriving DecidableEq, Repr

/-- Generated message `pb.ListUsersResponse`. -/
structure ListUsersResponse where
  Users : List (Option User)
  Pagination : Option PaginationResponse
  deriving DecidableEq, Repr

end pb

namespace mapper

open entity dto

/-- Source `mapper.UserToProto`.  `uuidString` is the method `UUID.String` of
`github.com/google/uuid`, which is not part of the repository. -/
def UserToProto (uuidString : UUID → String) (user : Option User) : Option pb.User :=
  match user with
  | none => none
  | some user =>
    some
      { Id := uuidString user.ID
        Email := user.Email
        Username := user.Username
        FirstName := user.FirstName
        LastName := user.LastName
        FullName := user.GetFullName
        IsActive := user.IsActive
        IsAdmin := user.IsAdmin
        CreatedAt := some user.CreatedAt
        UpdatedAt := some user.UpdatedAt
        -- Set status
        Status :=
          match user.GetStatus with
          | UserStatus.UserStatusActive => pb.UserStatus.USER_STATUS_ACTIVE
          | UserStatus.UserStatusInactive => pb.UserStatus.USER_STATUS_INACTIVE
          | UserStatus.UserStatusSuspended => pb.UserStatus.USER_STATUS_SUSPENDED
        -- Set deleted_at if soft deleted
        DeletedAt := if user.DeletedAt.Valid then some user.DeletedAt.Time else none }

/-- Source `mapper.UserDTOToProto`. -/
def UserDTOToProto (uuidString : UUID → String) (dto : Option UserDTO) : Option pb.User :=
  match dto with
  | none => none
  | some dto =>
    some
      { Id := uuidString dto.ID
        Email := dto.Email
        Username := dto.Username
        FirstName := dto.FirstName
        LastName := dto.LastName
        FullName := dto.FullName
        IsActive := dto.IsActive
        IsAdmin := dto.IsAdmin
        CreatedAt := some dto.CreatedAt
        UpdatedAt := some dto.UpdatedAt
        -- Set status
        Status :=
          if dto.Status = "active" then pb.UserStatus.USER_STATUS_ACTIVE
          else if dto.Status = "inactive" then pb.UserStatus.USER_STATUS_INACTIVE
          else if dto.Status = "suspended" then pb.UserStatus.USER_STATUS_SUSPENDED
          else pb.UserStatus.USER_STATUS_UNSPECIFIED
        -- Set deleted_at if present
        DeletedAt := dto.DeletedAt }

/-- Source `mapper.CreateUserRequestToDTO`. -/
def CreateUserRequestToDTO (req : Option pb.CreateUserRequest) : Option CreateUserDTO :=
  match req with
  | none => none
  | some req =>
    some
      { Email := req.Email
        Username := req.Username
        Password := req.Password
        FirstName := req.FirstName
        LastName := req.LastName
        -- Override defaults if provided
        IsActive := match req.IsActive with | some v => v | none => true
        IsAdmin := match req.IsAdmin with | some v => v | none => false }

/-- The body of the loop `for _, path := range req.UpdateMask.Paths { switch path { ... } }`
of `UpdateUserRequestToDTO`. -/
def applyPath (req : pb.UpdateUserRequest) (dto : UpdateUserDTO) (path : String) :
    UpdateUserDTO :=
  if path = "email" then
    match req.Email with
    | some v => { dto with Email := some v }
    | none => dto
  else if path = "username" then
    match req.Username with
    | some v => { dto with Username := some v }
    | none => dto
  else if path = "first_name" then
    match req.FirstName with
    | some v => { dto with FirstName := some v }
    | none => dto
  else if path = "last_name" then
    match req.LastName with
    | some v => { dto with LastName := some v }
    | none => dto
  else if path = "is_active" then
    match req.IsActive with
    | some v => { dto with IsActive := some v }
    | none => dto
  else if path = "is_admin" then
    match req.IsAdmin with
    | some v => { dto with IsAdmin := some v }
    | none => dto
  else dto

/-- Source `mapper.UpdateUserRequestToDTO`. -/
def UpdateUserRequestToDTO (uuidParse : usecase.UUIDParser)
    (req : Option pb.UpdateUserRequest) : Option UpdateUserDTO × Option GoError :=
  match req with
  | none => (none, none)
  | some req =>
  match uuidParse req.Id with
  | Except.error msg => (none, some (GoError.foreign "uuid" msg))
  | Except.ok id =>
  let dto : UpdateUserDTO :=
    { ID := id, Email := none, Username := none, FirstName := none, LastName := none,
      IsActive := none, IsAdmin := none }
  -- Check field mask to determine which fields to update
  match req.UpdateMask with
  | some mask => (some (mask.Paths.foldl (applyPath req) dto), none)
  | none =>
    -- If no field mask, update all provided fields
    (some { dto with Email := req.Email, Username := req.Username,
                     FirstName := req.FirstName, LastName := req.LastName,
                     IsActive := req.IsActive, IsAdmin := req.IsAdmin }, none)

/-- Source `mapper.ListUsersFilterToDTO`. -/
def ListUsersFilterToDTO (filter : Option pb.ListUsersFilter) : Option FilterDTO :=
  match filter with
  | none => none
  | some filter =>
    some { Email := filter.Email, Username := filter.Username,
           IsActive := filter.IsActive, IsAdmin := filter.IsAdmin }

end mapper

namespace codes

/-- Go `codes.Code` of `google.golang.org/grpc/codes`. -/
inductive Code where
  | OK
  | Canceled
  | Unknown
  | InvalidArgument
  | DeadlineExceeded
  | NotFound
  | AlreadyExists
  | PermissionDenied
  | ResourceExhausted
  | FailedPrecondition
  | Aborted
  | OutOfRange
  | Unimplemented
  | Internal
  | Unavailable
  | DataLoss
  | Unauthenticated
  deriving DecidableEq, Repr

end codes

/-- A Go `error` as a handler or an interceptor of the server returns it: a status made by
`status.Error` or `status.Errorf`, with its code and its message, or any other error value. -/
inductive RPCError where
  | status : codes.Code → String → RPCError
  | plain : GoError → RPCError
  deriving DecidableEq, Repr

/-- What a handler or an interceptor hands back: it returns a response and an error, either
of which may be `nil`, or it panics. -/
abbrev Reply (α : Type) := Outcome (Option α × Option RPCError)

namespace usergrpc

open entity repository dto gonum

variable {σ : Type}

/-- Source `grpc.UserServiceServer`. -/
structure UserServiceServer (σ : Type) where
  userUseCase : usecase.UserUseCase σ

/-- The code outside the repository that the handlers depend on: the case table and `bcrypt`
for the service, and `uuid.Parse` and `UUID.String` of `github.com/google/uuid`. -/
structure External where
  lib : service.Lib
  uuidParse : usecase.UUIDParser
  uuidString : UUID → String

/-- Source `UserServiceServer.CreateUser`. -/
def CreateUser (ext : External) (s : UserServiceServer σ) (rnd : Nat)
    (req : pb.CreateUserRequest) (w : World σ) : Reply pb.CreateUserResponse × World σ :=
  -- Validate request
  if req.Email = "" then
    (Outcome.returned (none,
      some (RPCError.status codes.Code.InvalidArgument "email is required")), w)
  else if req.Username = "" then
    (Outcome.returned (none,
      some (RPCError.status codes.Code.InvalidArgument "username is required")), w)
  else if req.Password = "" then
    (Outcome.returned (none,
      some (RPCError.status codes.Code.InvalidArgument "password is required")), w)
  else
  -- Convert request to DTO
  match mapper.CreateUserRequestToDTO (some req) with
  | none => (Outcome.panicked nilDereference, w)
  | some createDTO =>
  -- Create user
  match usecase.CreateUser ext.lib s.userUseCase rnd createDTO w with
  | ((_, some err), w) =>
    (Outcome.returned (none, some (RPCError.status codes.Code.Internal err.Error)), w)
  | ((userDTO, none), w) =>
    -- Convert DTO to proto
    (Outcome.returned (some { User := mapper.UserDTOToProto ext.uuidString userDTO }, none), w)

/-- The variables `page` and `pageSize` of `UserServiceServer.ListUsers` after the block
`if req.Pagination != nil { ... }`. -/
def pagination (p : Option pb.PaginationRequest) : Int × Int :=
  match p with
  | none => (1, 10)
  | some p =>
    let page := if p.Page > 0 then p.Page else 1
    let pageSize := if p.PageSize > 0 then p.PageSize else 10
    -- Limit page size to prevent abuse
    let pageSize := if pageSize > 100 then 100 else pageSize
    (page, pageSize)

/-- Source `UserServiceServer.ListUsers`. -/
def ListUsers (ext : External) (s : UserServiceServer σ) (req : pb.ListUsersRequest)
    (w : World σ) : Reply pb.ListUsersResponse × World σ :=
  -- Default pagination
  let page := (pagination req.Pagination).1
  let pageSize := (pagination req.Pagination).2
  -- Convert filter
  let filter : Option FilterDTO :=
    match req.Filter with
    | some f => mapper.ListUsersFilterToDTO (some f)
    | none => none
  -- List users
  match usecase.ListUsers s.userUseCase.userRepo page pageSize filter w with
  | ((_, some err), w) =>
    (Outcome.returned (none, some (RPCError.status codes.Code.Internal err.Error)), w)
  | ((none, none), w) => (Outcome.panicked nilDereference, w)
  | ((some listDTO, none), w) =>
    -- Convert DTOs to proto
    let users := listDTO.Users.map (fun userDTO =>
      mapper.UserDTOToProto ext.uuidString (some userDTO))
    -- Create pagination response
    let hasNext := decide (listDTO.Page < listDTO.TotalPages)
    let hasPrevious := decide (listDTO.Page > 1)
    (Outcome.returned (some
      { Users := users
        Pagination := some
          { Page := wrapInt32 listDTO.Page
            PageSize := wrapInt32 listDTO.PageSize
            TotalItems := wrapInt32 listDTO.TotalItems
            TotalPages := wrapInt32 listDTO.TotalPages
            HasNext := hasNext
            HasPrevious := hasPrevious } }, none), w)

/-- Source `UserServiceServer.UpdateUser`. -/
def UpdateUser (ext : External) (s : UserServiceServer σ) (req : pb.UpdateUserRequest)
    (w : World σ) : Reply pb.UpdateUserResponse × World σ :=
  -- Validate request
  if req.Id = "" then
    (Outcome.returned (none,
      some (RPCError.status codes.Code.InvalidArgument "id is required")), w)
  else
  -- Convert request to DTO
  match mapper.UpdateUserRequestToDTO ext.uuidParse (some req) with
  | (_, some err) =>
    (Outcome.returned (none, some (RPCError.status codes.Code.InvalidArgument err.Error)), w)
  | (none, none) => (Outcome.panicked nilDereference, w)
  | (some updateDTO, none) =>
  -- Update user
  match usecase.UpdateUser ext.lib s.userUseCase updateDTO w with
  | (Outcome.panicked v, w) => (Outcome.panicked v, w)
  | (Outcome.returned (_, some err), w) =>
    (Outcome.returned (none, some (RPCError.status codes.Code.Internal err.Error)), w)
  | (Outcome.returned (userDTO, none), w) =>
    -- Convert DTO to proto
    (Outcome.returned (some { User := mapper.UserDTOToProto ext.uuidString userDTO }, none), w)

/-- Source `UserServiceServer.DeleteUser`. -/
def DeleteUser (ext : External) (s : UserServiceServer σ) (req : pb.DeleteUserRequest)
    (w : World σ) : Reply pb.DeleteUserResponse × World σ :=
  -- Validate request
  if req.Id = "" then
    (Outcome.returned (none,
      some (RPCError.status codes.Code.InvalidArgument "id is required")), w)
  else
  -- Delete user
  match usecase.DeleteUser ext.uuidParse s.userUseCase req.Id req.HardDelete w with
  | (some err, w) =>
    (Outcome.returned (none, some (RPCError.status codes.Code.Internal err.Error)), w)
  | (none, w) =>
    (Outcome.returned (some { Success := true, Message := "User deleted successfully" },
      none), w)

/-- Source `UserServiceServer.ChangePassword`. -/
def ChangePassword (ext : External) (s : UserServiceServer σ) (rnd : Nat)
    (req : pb.ChangePasswordRequest) (w : World σ) :
    Reply pb.ChangePasswordResponse × World σ :=
  -- Validate request
  if req.UserId = "" then
    (Outcome.returned (none,
      some (RPCError.status codes.Code.InvalidArgument "user_id is required")), w)
  else if req.OldPassword = "" then
    (Outcome.returned (none,
      some (RPCError.status codes.Code.InvalidArgument "old_password is required")), w)
  else if req.NewPassword = "" then
    (Outcome.returned (none,
      some (RPCError.status codes.Code.InvalidArgument "new_password is required")), w)
  else
  -- Parse user ID
  match ext.uuidParse req.UserId with
  | Except.error _ =>
    (Outcome.returned (none,
      some (RPCError.status codes.Code.InvalidArgument "invalid user_id")), w)
  | Except.ok userID =>
  -- Create DTO
  let changeDTO : ChangePasswordDTO :=
    { UserID := userID, OldPassword := req.OldPassword, NewPassword := req.NewPassword }
  -- Change password
  match usecase.ChangePassword ext.lib s.userUseCase rnd changeDTO w with
  | (some err, w) =>
    (Outcome.returned (none, some (RPCError.status codes.Code.Internal err.Error)), w)
  | (none, w) =>
    (Outcome.returned (some { Success := true, Message := "Password changed successfully" },
      none), w)

/-- Source `UserServiceServer.AuthenticateUser`. -/
def AuthenticateUser (ext : External) (s : UserServiceServer σ)
    (req : pb.AuthenticateUserRequest) (w : World σ) :
    Reply pb.AuthenticateUserResponse × World σ :=
  -- Validate request
  if req.Identifier = "" then
    (Outcome.returned (none,
      some (RPCError.status codes.Code.InvalidArgument "identifier is required")), w)
  else if req.Password = "" then
    (Outcome.returned (none,
      some (RPCError.status codes.Code.InvalidArgument "password is required")), w)
  else
  -- Create DTO
  let authDTO : AuthenticateDTO :=
    { Identifier := req.Identifier, Password := req.Password }
  -- Authenticate user
  match usecase.AuthenticateUser ext.lib s.userUseCase authDTO w with
  | (Outcome.panicked v, w) => (Outcome.panicked v, w)
  | (Outcome.returned (_, some _), w) =>
    (Outcome.returned (some { User := none, Success := false,
                              Message := "Invalid credentials" }, none), w)
  | (Outcome.returned (userDTO, none), w) =>
    -- Convert DTO to proto
    (Outcome.returned (some { User := mapper.UserDTOToProto ext.uuidString userDTO,
                              Success := true,
                              Message := "Authentication successful" }, none), w)

end usergrpc

namespace server

/-- Go `metadata.MD`, a `map[string][]string`, as its entries, one per key.  The keys of the
metadata of an incoming call are in lower case. -/
abbrev MD := List (String × List String)

/-- Go `MD.Get` for a key in lower case: the values under the key, and none for a missing
key. -/
def MD.Get (md : MD) (k : String) : List String :=
  match md.find? (fun e => decide (e.1 = k)) with
  | some e => e.2
  | none => []

/-- Go `context.Context` as the interceptors read it: the metadata of the incoming call, when
the context carries any (`metadata.FromIncomingContext`). -/
structure Context where
  incomingMD : Option MD
  deriving DecidableEq, Repr

/-- Go `grpc.UnaryServerInfo`. -/
structure UnaryServerInfo where
  FullMethod : String
  deriving DecidableEq, Repr

/-- The request value of type `interface{}` given to an interceptor: the value, and the method
`Validate() error` of its dynamic type when that type has one. -/
structure Request (α : Type) where
  value : α
  Validate : Option (α → Option GoError)

/-- Go `grpc.UnaryHandler`; `τ` is the state behind the handler. -/
abbrev UnaryHandler (τ α β : Type) := Context → Request α → τ → Reply β × τ

/-- The state an interceptor runs in: the state behind the handler, the values the handler has
been invoked with, oldest first, and the lines written by `log.Printf`. -/
structure Run (τ α : Type) where
  app : τ
  invoked : List α
  logged : List String
  deriving DecidableEq

variable {τ α β : Type}

/-- The call `handler(ctx, req)`, recorded. -/
def Run.invoke (r : Run τ α) (handler : UnaryHandler τ α β) (ctx : Context)
    (req : Request α) : Reply β × Run τ α :=
  ((handler ctx req r.app).1,
    { r with app := (handler ctx req r.app).2, invoked := r.invoked ++ [req.value] })

/-- Source `RecoveryInterceptor`: the function it returns.  The results are named, so after a
recovered panic the function returns the `resp` it had, which is `nil`, and the `err` the
deferred function has set. -/
def RecoveryInterceptor (ctx : Context) (req : Request α) (info : UnaryServerInfo)
    (handler : UnaryHandler τ α β) (r : Run τ α) : Reply β × Run τ α :=
  match r.invoke handler ctx req with
  | (Outcome.returned res, r) => (Outcome.returned res, r)
  | (Outcome.panicked v, r) =>
    (Outcome.returned (none,
        some (RPCError.status codes.Code.Internal "internal server error")),
      { r with logged := r.logged ++
          ["[PANIC] Method: " ++ info.FullMethod ++ ", Panic: " ++ v.text] })

set_option linter.unusedVariables false in
/-- Source `ValidationInterceptor`: the function it returns. -/
def ValidationInterceptor (ctx : Context) (req : Request α) (info : UnaryServerInfo)
    (handler : UnaryHandler τ α β) (r : Run τ α) : Reply β × Run τ α :=
  match req.Validate with
  | some validate =>
    match validate req.value with
    | some err =>
      (Outcome.returned (none, some (RPCError.status codes.Code.InvalidArgument
        ("validation failed: " ++ err.Error))), r)
    | none => r.invoke handler ctx req
  | none => r.invoke handler ctx req

/-- The map `publicMethods` of `AuthInterceptor`, as its keys; every key maps to `true`. -/
def publicMethods : List String :=
  ["/user.v1.UserService/AuthenticateUser",
   "/user.v1.UserService/CreateUser",
   "/health.v1.HealthService/Check"]

/-- Source `AuthInterceptor`: the function it returns. -/
def AuthInterceptor (ctx : Context) (req : Request α) (info : UnaryServerInfo)
    (handler : UnaryHandler τ α β) (r : Run τ α) : Reply β × Run τ α :=
  -- Skip authentication for public methods
  if info.FullMethod ∈ publicMethods then
    r.invoke handler ctx req
  else
  -- Get metadata
  match ctx.incomingMD with
  | none =>
    (Outcome.returned (none,
      some (RPCError.status codes.Code.Unauthenticated "metadata not found")), r)
  | some md =>
  -- Check for authorization header
  let authHeader := md.Get "authorization"
  if authHeader.length = 0 then
    (Outcome.returned (none,
      some (RPCError.status codes.Code.Unauthenticated "authorization header not found")), r)
  else
    r.invoke handler ctx req

end server

namespace persistence

open entity repository

/-- Replace the first stored user whose ID is that of `user`. -/
def replaceByID (user : User) : List User → List User
  | [] => []
  | u :: rest => if u.ID = user.ID then user :: rest else u :: replaceByID user rest

/-- An in-memory repository.  The storage is the list of the stored users; the results follow
the conventions of `persistence/user_repository_impl.go` (an absent user is a `nil` entity
together with `ErrUserNotFound`; the existence queries report whether a stored user has the
value), with the SQL queries replaced by list operations: `Create` adds the entity, `Update`
replaces the stored entity with the same ID, `Delete` removes it. -/
def inMemoryRepository : UserRepository (List User) where
  Create user db := ((none, user), db ++ [user])
  GetByID id db :=
    match db.find? (fun u => decide (u.ID = id)) with
    | some u => ((some u, none), db)
    | none => ((none, some (GoError.sentinel Sentinel.ErrUserNotFound)), db)
  GetByEmail email db :=
    match db.find? (fun u => decide (u.Email = email)) with
    | some u => ((some u, none), db)
    | none => ((none, some (GoError.sentinel Sentinel.ErrUserNotFound)), db)
  GetByUsername username db :=
    match db.find? (fun u => decide (u.Username = username)) with
    | some u => ((some u, none), db)
    | none => ((none, some (GoError.sentinel Sentinel.ErrUserNotFound)), db)
  Update user db := (none, replaceByID user db)
  Delete id db :=
    if db.any (fun u => decide (u.ID = id)) then
      (none, db.filter (fun u => !decide (u.ID = id)))
    else (some (GoError.sentinel Sentinel.ErrUserNotFound), db)
  List offset limit db := (((db.drop offset.toNat).take limit.toNat, none), db)
  Count db := ((db.length, none), db)
  Exists id db := ((db.any (fun u => decide (u.ID = id)), none), db)
  ExistsByEmail email db := ((db.any (fun u => decide (u.Email = email)), none), db)
  ExistsByUsername username db := ((db.any (fun u => decide (u.Username = username)), none), db)

/-- No two stored users share an email and no two share a username. -/
def UniqueEmailsAndUsernames (db : List User) : Prop :=
  (db.map (fun u => u.Email)).Nodup ∧ (db.map (fun u => u.Username)).Nodup

instance (db : List User) : Decidable (UniqueEmailsAndUsernames db) := by
  unfold UniqueEmailsAndUsernames
  infer_instance

end persistence

namespace fixtures

open entity repository service gostrings

/-- A stand-in for `bcrypt` to run the service on concrete inputs.  It is not a hash: the
"hash" is the password behind a marker.  Like `bcrypt.GenerateFromPassword` it refuses a
password longer than 72 bytes. -/
def standInBcrypt : Bcrypt where
  GenerateFromPassword _ password _ :=
    if golen password > 72 then Except.error "bcrypt: password length exceeds 72 bytes"
    else Except.ok ("$2a$10$" ++ password)
  CompareHashAndPassword hashedPassword password :=
    if hashedPassword = "$2a$10$" ++ password then none
    else some "crypto/bcrypt: hashedPassword is not the hash of the given password"

/-- The library of the concrete runs: ASCII-only case folding and the stand-in for `bcrypt`. -/
def standInLib : Lib where
  caseTable := id
  bcrypt := standInBcrypt

/-- A stored user. -/
def alice : User where
  ID := ⟨1⟩
  Email := "alice@example.com"
  Username := "alice"
  FirstName := "Alice"
  LastName := "Liddell"
  Password := "$2a$10$wonderland"
  IsActive := true
  IsAdmin := false
  CreatedAt := 100
  UpdatedAt := 100
  DeletedAt := ⟨0, false⟩

/-- A second stored user, not active. -/
def bob : User where
  ID := ⟨2⟩
  Email := "bob@example.com"
  Username := "bob"
  FirstName := "Bob"
  LastName := ""
  Password := "$2a$10$builder99"
  IsActive := false
  IsAdmin := false
  CreatedAt := 200
  UpdatedAt := 200
  DeletedAt := ⟨0, false⟩

/-- A new user as a caller submits it, before normalisation. -/
def carol : User where
  ID := ⟨0⟩
  Email := " Carol@Example.com "
  Username := " carol_c "
  FirstName := " Carol "
  LastName := ""
  Password := ""
  IsActive := true
  IsAdmin := false
  CreatedAt := 0
  UpdatedAt := 0
  DeletedAt := ⟨0, false⟩

/-- The in-memory repository with a storage that refuses every write of `Update`, reporting
the failure as `persistence/user_repository_impl.go` does. -/
def readOnlyRepository : UserRepository (List User) :=
  { persistence.inMemoryRepository with
    Update := fun _ db =>
      (some (GoError.wrap "failed to update user: "
        (GoError.foreign "gorm" "driver: bad connection") ""), db) }

/-- The in-memory repository in front of a table of `n` rows: `Count` reports `n`. -/
def countingRepository (n : Int) : UserRepository (List User) :=
  { persistence.inMemoryRepository with Count := fun db => ((n, none), db) }

/-- The value of a hexadecimal digit. -/
def hexDigit (c : Char) : Option Nat :=
  if 0x30 ≤ c.toNat ∧ c.toNat ≤ 0x39 then some (c.toNat - 0x30)
  else if 0x61 ≤ c.toNat ∧ c.toNat ≤ 0x66 then some (c.toNat - 0x61 + 10)
  else if 0x41 ≤ c.toNat ∧ c.toNat ≤ 0x46 then some (c.toNat - 0x41 + 10)
  else none

/-- The number written by hexadecimal digits, most significant first. -/
def hexNumber (cs : List Char) : Option Nat :=
  cs.foldl (fun acc c =>
    match acc, hexDigit c with
    | some n, some d => some (16 * n + d)
    | _, _ => none) (some 0)

/-- A stand-in for `uuid.Parse` to run the use cases on concrete inputs: it reads the form
`xxxxxxxx-xxxx-xxxx-xxxx-xxxxxxxxxxxx` of 36 characters and refuses everything else. -/
def standInParseUUID : usecase.UUIDParser := fun s =>
  if s.data.length ≠ 36 then Except.error "invalid UUID length"
  else if s.data.get? 8 ≠ some '-' ∨ s.data.get? 13 ≠ some '-' ∨ s.data.get? 18 ≠ some '-' ∨
      s.data.get? 23 ≠ some '-' then Except.error "invalid UUID format"
  else
    match hexNumber (s.data.filter (fun c => c != '-')) with
    | some n => if (s.data.filter (fun c => c != '-')).length = 32 then Except.ok ⟨n⟩
                else Except.error "invalid UUID format"
    | none => Except.error "invalid UUID format"

/-- The repository of `persistence/user_repository_impl.go` when the database cannot be
reached: every method fails as the adapter does after a failing `getDB`, with the text of the
error of the database layer inside. -/
def offlineRepository (text : String) : UserRepository (List User) where
  Create user db := ((some (GoError.wrap "failed to get database connection: "
    (GoError.foreign "gorm" text) ""), user), db)
  GetByID _ db := ((none, some (GoError.wrap "failed to get database connection: "
    (GoError.foreign "gorm" text) "")), db)
  GetByEmail _ db := ((none, some (GoError.wrap "failed to get database connection: "
    (GoError.foreign "gorm" text) "")), db)
  GetByUsername _ db := ((none, some (GoError.wrap "failed to get database connection: "
    (GoError.foreign "gorm" text) "")), db)
  Update _ db := (some (GoError.wrap "failed to get database connection: "
    (GoError.foreign "gorm" text) ""), db)
  Delete _ db := (some (GoError.wrap "failed to get database connection: "
    (GoError.foreign "gorm" text) ""), db)
  List _ _ db := (([], some (GoError.wrap "failed to get database connection: "
    (GoError.foreign "gorm" text) "")), db)
  Count db := ((0, some (GoError.wrap "failed to get database connection: "
    (GoError.foreign "gorm" text) "")), db)
  Exists _ db := ((false, some (GoError.wrap "failed to get database connection: "
    (GoError.foreign "gorm" text) "")), db)
  ExistsByEmail _ db := ((false, some (GoError.wrap "failed to get database connection: "
    (GoError.foreign "gorm" text) "")), db)
  ExistsByUsername _ db := ((false, some (GoError.wrap "failed to get database connection: "
    (GoError.foreign "gorm" text) "")), db)

/-- The use case over one repository, as `main.go` wires it. -/
def useCaseOver (userRepo : UserRepository (List User)) : usecase.UserUseCase (List User) :=
  { userRepo := RepoHandle.basic userRepo, userService := { userRepo := userRepo } }

/-- A stand-in for `UUID.String`: the number in hexadecimal digits is not needed to run the
handlers, so the stand-in writes it in decimal digits. -/
def standInUUIDString : UUID → String := fun id => toString id.val

/-- The code outside the repository, for the concrete runs. -/
def standInExternal : usergrpc.External :=
  { lib := standInLib, uuidParse := standInParseUUID, uuidString := standInUUIDString }

/-- The text of the ID of `alice`. -/
def aliceID : String := "00000000-0000-0000-0000-000000000001"

/-- A handler that panics, with a secret in the panic value. -/
def panickingHandler : server.UnaryHandler Unit String String :=
  fun _ _ app => (Outcome.panicked ⟨"dial tcp: password=hunter2"⟩, app)

/-- A handler that answers with the request value and counts its invocations in its state. -/
def echoHandler : server.UnaryHandler Nat String String :=
  fun _ req n => (Outcome.returned (some req.value, none), n + 1)

/-- The method `Validate` of the requests of the concrete runs: it refuses the empty text. -/
def validateNotEmpty (s : String) : Option GoError :=
  if s = "" then some (GoError.errorf "empty") else none

end fixtures

/-! ## Theorems -/

section ValueObjects

open entity gostrings

/-- The email a successful `NewEmail` holds is the lowercased, trimmed input. -/
theorem NewEmail_ok_value (caseTable : Char → Char) (raw : String) (email : Email)
    (h : NewEmail caseTable raw = Except.ok email) :
    email.Value = TrimSpace (ToLower caseTable raw) := by
  unfold NewEmail at h
  simp only [] at h
  split at h
  · cases h
  · cases h; rfl

/-- A failing `NewEmail` wraps `ErrInvalidEmail`. -/
theorem NewEmail_error_is (caseTable : Char → Char) (raw : String) (err : GoError)
    (h : NewEmail caseTable raw = Except.error err) :
    err.Is Sentinel.ErrInvalidEmail = true := by
  unfold NewEmail at h
  simp only [] at h
  split at h
  · cases h; rfl
  · cases h

/-- The username a successful `NewUsername` holds is the trimmed input. -/
theorem NewUsername_ok_value (raw : String) (username : Username)
    (h : NewUsername raw = Except.ok username) :
    username.Value = TrimSpace raw := by
  unfold NewUsername at h
  simp only [] at h
  split at h
  · cases h
  · cases h; rfl

/-- A failing `NewUsername` wraps `ErrInvalidUsername`. -/
theorem NewUsername_error_is (raw : String) (err : GoError)
    (h : NewUsername raw = Except.error err) :
    err.Is Sentinel.ErrInvalidUsername = true := by
  unfold NewUsername at h
  simp only [] at h
  split at h
  · rename_i e he
    cases h
    unfold validateUsername at he
    split at he
    · cases he; rfl
    · split at he
      · cases he; rfl
      · split at he
        · cases he; rfl
        · cases he
  · cases h

/-- The names a successful `NewPersonName` holds are the trimmed inputs. -/
theorem NewPersonName_ok_value (first last : String) (name : PersonName)
    (h : NewPersonName first last = Except.ok name) :
    name.FirstName = TrimSpace first ∧ name.LastName = TrimSpace last := by
  unfold NewPersonName at h
  simp only [] at h
  split at h
  · cases h
  · split at h
    · cases h
    · cases h; exact ⟨rfl, rfl⟩

end ValueObjects

section CreateUserTheorems

open entity repository service gostrings persistence fixtures

variable {σ : Type}

/-- C2, counterexample: the entity passes the email, username and name validation, the plaintext
has 80 bytes (so it passes the length validation) and the email is stored already, yet
`CreateUser` fails because `bcrypt` refuses the password, before any existence query; the error
does not wrap `ErrUserAlreadyExists`. -/
theorem createUser_existing_email_counterexample :
    (NewEmail standInLib.caseTable "Alice@Example.com").isOk = true ∧
    (NewUsername carol.Username).isOk = true ∧
    (NewPersonName carol.FirstName carol.LastName).isOk = true ∧
    8 ≤ golen "aaaaaaaaaaaaaaaaaaaaaaaaaaaaaaaaaaaaaaaaaaaaaaaaaaaaaaaaaaaaaaaaaaaaaaaaaaaaaaaa" ∧
    (inMemoryRepository.ExistsByEmail
      (TrimSpace (ToLower standInLib.caseTable "Alice@Example.com")) [alice]).1 = (true, none) ∧
    (CreateUser standInLib inMemoryRepository 0 { carol with Email := "Alice@Example.com" }
      "aaaaaaaaaaaaaaaaaaaaaaaaaaaaaaaaaaaaaaaaaaaaaaaaaaaaaaaaaaaaaaaaaaaaaaaaaaaaaaaa"
      ⟨[alice], []⟩).err =
      some (GoError.wrap "failed to hash password: "
        (GoError.foreign "bcrypt" "bcrypt: password length exceeds 72 bytes") "") ∧
    (GoError.wrap "failed to hash password: "
        (GoError.foreign "bcrypt" "bcrypt: password length exceeds 72 bytes") "").Is
      Sentinel.ErrUserAlreadyExists = false ∧
    (CreateUser standInLib inMemoryRepository 0 { carol with Email := "Alice@Example.com" }
      "aaaaaaaaaaaaaaaaaaaaaaaaaaaaaaaaaaaaaaaaaaaaaaaaaaaaaaaaaaaaaaaaaaaaaaaaaaaaaaaa"
      ⟨[alice], []⟩).world.calls = [] := by
  decide

/-- C2, as amended: when the entity passes the email, username and name validation,
`HashPassword` returns a hash for the plaintext, and `ExistsByEmail` reports the lowercased,
trimmed email as present, `CreateUser` returns an error wrapping `ErrUserAlreadyExists`; its
only repository call is that `ExistsByEmail`, so `Create` is not invoked. -/
theorem createUser_existing_email_rejected (lib : Lib) (userRepo : UserRepository σ)
    (rnd : Nat) (user : User) (plainPassword : String) (db db' : σ)
    (email : Email) (username : Username) (name : PersonName) (hash : String)
    (hEmail : NewEmail lib.caseTable user.Email = Except.ok email)
    (hUsername : NewUsername user.Username = Except.ok username)
    (hName : NewPersonName user.FirstName user.LastName = Except.ok name)
    (hHash : HashPassword lib rnd plainPassword = Except.ok hash)
    (hExists : userRepo.ExistsByEmail (TrimSpace (ToLower lib.caseTable user.Email)) db =
      ((true, none), db')) :
    (∃ err, (CreateUser lib userRepo rnd user plainPassword ⟨db, []⟩).err = some err ∧
      err.Is Sentinel.ErrUserAlreadyExists = true) ∧
    (CreateUser lib userRepo rnd user plainPassword ⟨db, []⟩).world.calls =
      [RepoCall.ExistsByEmail (TrimSpace (ToLower lib.caseTable user.Email))] ∧
    (∀ u, RepoCall.Create u ∉
      (CreateUser lib userRepo rnd user plainPassword ⟨db, []⟩).world.calls) := by
  have hv := NewEmail_ok_value _ _ _ hEmail
  rw [← hv] at hExists
  have hrun : CreateUser lib userRepo rnd user plainPassword ⟨db, []⟩ =
      ⟨some (GoError.wrap "" (GoError.sentinel Sentinel.ErrUserAlreadyExists)
        ": email already in use"),
       { user with Email := email.Value, Username := username.Value,
                   FirstName := name.FirstName, LastName := name.LastName, Password := hash },
       ⟨db', [RepoCall.ExistsByEmail email.Value]⟩⟩ := by
    simp [CreateUser, hEmail, hUsername, hName, hHash, World.ExistsByEmail, hExists]
  rw [hrun, ← hv]
  refine ⟨⟨_, rfl, rfl⟩, rfl, ?_⟩
  intro u hu
  simp at hu

/-- C2, witness: Carol signs up with the address of Alice, who is stored. -/
theorem createUser_existing_email_rejected_witness :
    (∃ err, (CreateUser standInLib inMemoryRepository 0
        { carol with Email := "Alice@Example.com" } "s3cretpass" ⟨[alice], []⟩).err = some err ∧
      err.Is Sentinel.ErrUserAlreadyExists = true) ∧
    (CreateUser standInLib inMemoryRepository 0
        { carol with Email := "Alice@Example.com" } "s3cretpass" ⟨[alice], []⟩).world.calls =
      [RepoCall.ExistsByEmail
        (TrimSpace (ToLower standInLib.caseTable "Alice@Example.com"))] ∧
    (∀ u, RepoCall.Create u ∉ (CreateUser standInLib inMemoryRepository 0
        { carol with Email := "Alice@Example.com" } "s3cretpass" ⟨[alice], []⟩).world.calls) :=
  createUser_existing_email_rejected standInLib inMemoryRepository 0
    { carol with Email := "Alice@Example.com" } "s3cretpass" [alice] [alice]
    ⟨"alice@example.com"⟩ ⟨"carol_c"⟩ ⟨"Carol", ""⟩ "$2a$10$s3cretpass"
    (by decide) (by decide) (by decide) (by decide) (by decide)

/-- C3: `CreateUser` checks the email, then the username, then the name, then the length of
the plaintext.  At the first check that fails it returns that check's error (wrapping
`ErrInvalidEmail`, `ErrInvalidUsername`, the error of `NewPersonName`, `ErrPasswordTooShort`)
whatever the later fields hold, and the world is untouched: no repository method is called. -/
theorem createUser_validation_order (lib : Lib) (userRepo : UserRepository σ) (rnd : Nat)
    (user : User) (plainPassword : String) (w : World σ) :
    (∀ err, NewEmail lib.caseTable user.Email = Except.error err →
      (CreateUser lib userRepo rnd user plainPassword w).err = some err ∧
      err.Is Sentinel.ErrInvalidEmail = true ∧
      (CreateUser lib userRepo rnd user plainPassword w).world = w) ∧
    (∀ email err, NewEmail lib.caseTable user.Email = Except.ok email →
      NewUsername user.Username = Except.error err →
      (CreateUser lib userRepo rnd user plainPassword w).err = some err ∧
      err.Is Sentinel.ErrInvalidUsername = true ∧
      (CreateUser lib userRepo rnd user plainPassword w).world = w) ∧
    (∀ email username err, NewEmail lib.caseTable user.Email = Except.ok email →
      NewUsername user.Username = Except.ok username →
      NewPersonName user.FirstName user.LastName = Except.error err →
      (CreateUser lib userRepo rnd user plainPassword w).err = some err ∧
      (CreateUser lib userRepo rnd user plainPassword w).world = w) ∧
    (∀ email username name, NewEmail lib.caseTable user.Email = Except.ok email →
      NewUsername user.Username = Except.ok username →
      NewPersonName user.FirstName user.LastName = Except.ok name →
      golen plainPassword < 8 →
      (∃ err, (CreateUser lib userRepo rnd user plainPassword w).err = some err ∧
        err.Is Sentinel.ErrPasswordTooShort = true) ∧
      (CreateUser lib userRepo rnd user plainPassword w).world = w) := by
  refine ⟨?_, ?_, ?_, ?_⟩
  · intro err hE
    have hIs := NewEmail_error_is _ _ _ hE
    simp [CreateUser, hE, hIs]
  · intro email err hE hU
    have hIs := NewUsername_error_is _ _ hU
    simp [CreateUser, hE, hU, hIs]
  · intro email username err hE hU hN
    simp [CreateUser, hE, hU, hN]
  · intro email username name hE hU hN hLen
    have hH : HashPassword lib rnd plainPassword =
        Except.error (GoError.sentinel Sentinel.ErrPasswordTooShort) := by
      simp [HashPassword, hLen]
    simp [CreateUser, hE, hU, hN, hH, GoError.Is]

/-- C3, witness: an entity whose email and username are both invalid, submitted with a
plaintext that is too short, is rejected for its email and nothing is called. -/
theorem createUser_validation_order_witness :
    (CreateUser standInLib inMemoryRepository 0
      { carol with Email := "not-an-email", Username := "1x" } "short" ⟨[alice], []⟩).err =
      some (GoError.wrap "" (GoError.sentinel Sentinel.ErrInvalidEmail) ": not-an-email") ∧
    (GoError.wrap "" (GoError.sentinel Sentinel.ErrInvalidEmail) ": not-an-email").Is
      Sentinel.ErrInvalidEmail = true ∧
    (CreateUser standInLib inMemoryRepository 0
      { carol with Email := "not-an-email", Username := "1x" } "short" ⟨[alice], []⟩).world =
      ⟨[alice], []⟩ :=
  (createUser_validation_order standInLib inMemoryRepository 0
    { carol with Email := "not-an-email", Username := "1x" } "short" ⟨[alice], []⟩).1
    (GoError.wrap "" (GoError.sentinel Sentinel.ErrInvalidEmail) ": not-an-email") (by decide)

/-- C4: every entity that `CreateUser` passes to `Create` has the lowercased, trimmed email,
the trimmed username and names, and the ID, `IsActive` and `IsAdmin` of the input entity.  Its
password is the value `HashPassword` returned for the plaintext, which is the hash that
`bcrypt.GenerateFromPassword` made of a plaintext of 8 or more bytes; so the password is not
the plaintext, provided `bcrypt` does not return a plaintext as its own hash.  `Create` is
called at most once, and it is called whenever `CreateUser` succeeds. -/
theorem createUser_entity_given_to_Create (lib : Lib) (userRepo : UserRepository σ)
    (rnd : Nat) (user : User) (plainPassword : String) (db : σ) :
    (∀ u, RepoCall.Create u ∈
        (CreateUser lib userRepo rnd user plainPassword ⟨db, []⟩).world.calls →
      u.Email = TrimSpace (ToLower lib.caseTable user.Email) ∧
      u.Username = TrimSpace user.Username ∧
      u.FirstName = TrimSpace user.FirstName ∧
      u.LastName = TrimSpace user.LastName ∧
      HashPassword lib rnd plainPassword = Except.ok u.Password ∧
      u.ID = user.ID ∧ u.IsActive = user.IsActive ∧ u.IsAdmin = user.IsAdmin ∧
      8 ≤ golen plainPassword ∧
      lib.bcrypt.GenerateFromPassword rnd plainPassword bcryptDefaultCost =
        Except.ok u.Password ∧
      ((∀ h, lib.bcrypt.GenerateFromPassword rnd plainPassword bcryptDefaultCost =
          Except.ok h → h ≠ plainPassword) →
        u.Password ≠ plainPassword)) ∧
    ((CreateUser lib userRepo rnd user plainPassword ⟨db, []⟩).world.calls.filter
      RepoCall.isCreate).length ≤ 1 ∧
    ((CreateUser lib userRepo rnd user plainPassword ⟨db, []⟩).err = none →
      ∃ u, RepoCall.Create u ∈
        (CreateUser lib userRepo rnd user plainPassword ⟨db, []⟩).world.calls) := by
  cases hE : NewEmail lib.caseTable user.Email with
  | error e => simp [CreateUser, hE]
  | ok email =>
  cases hU : NewUsername user.Username with
  | error e => simp [CreateUser, hE, hU]
  | ok username =>
  cases hN : NewPersonName user.FirstName user.LastName with
  | error e => simp [CreateUser, hE, hU, hN]
  | ok name =>
  cases hH : HashPassword lib rnd plainPassword with
  | error e => simp [CreateUser, hE, hU, hN, hH]
  | ok hash =>
  have hEv := NewEmail_ok_value _ _ _ hE
  have hUv := NewUsername_ok_value _ _ hU
  have hNv := NewPersonName_ok_value _ _ _ hN
  have hLen : 8 ≤ golen plainPassword := by
    by_contra hlt
    have hlt2 : golen plainPassword < 8 := by omega
    simp [HashPassword, hlt2] at hH
  have hGen : lib.bcrypt.GenerateFromPassword rnd plainPassword bcryptDefaultCost =
      Except.ok hash := by
    unfold HashPassword at hH
    rw [if_neg (by omega)] at hH
    cases hG : lib.bcrypt.GenerateFromPassword rnd plainPassword bcryptDefaultCost with
    | error msg =>
      rw [hG] at hH
      cases hH
    | ok h2 =>
      rw [hG] at hH
      cases hH
      rfl
  rcases hXE : userRepo.ExistsByEmail email.Value db with ⟨⟨emailExists, errE⟩, db1⟩
  cases errE with
  | some e =>
    simp [CreateUser, hE, hU, hN, hH, World.ExistsByEmail, hXE, RepoCall.isCreate, List.filter]
  | none =>
  cases emailExists with
  | true =>
    simp [CreateUser, hE, hU, hN, hH, World.ExistsByEmail, hXE, RepoCall.isCreate, List.filter]
  | false =>
  rcases hXU : userRepo.ExistsByUsername username.Value db1 with ⟨⟨usernameExists, errU⟩, db2⟩
  cases errU with
  | some e =>
    simp [CreateUser, hE, hU, hN, hH, World.ExistsByEmail, hXE, World.ExistsByUsername, hXU,
      RepoCall.isCreate, List.filter]
  | none =>
  cases usernameExists with
  | true =>
    simp [CreateUser, hE, hU, hN, hH, World.ExistsByEmail, hXE, World.ExistsByUsername, hXU,
      RepoCall.isCreate, List.filter]
  | false =>
  rcases hC : userRepo.Create
      { user with Email := email.Value, Username := username.Value,
                  FirstName := name.FirstName, LastName := name.LastName, Password := hash }
      db2 with ⟨⟨errC, user'⟩, db3⟩
  cases errC <;>
    simp [CreateUser, hE, hU, hN, hH, World.ExistsByEmail, hXE, World.ExistsByUsername, hXU,
      World.Create, hC, RepoCall.isCreate, List.filter] <;>
    exact ⟨hEv, hUv, hNv.1, hNv.2, hLen, hGen, fun hne => hne hash hGen⟩

/-- C4, witness: Carol signs up; the entity given to `Create` is the normalised one, with the
hash as password, and the hash is not the plaintext. -/
theorem createUser_entity_given_to_Create_witness :
    RepoCall.Create { carol with Email := "carol@example.com", Username := "carol_c",
                                 FirstName := "Carol", Password := "$2a$10$s3cretpass" } ∈
      (CreateUser standInLib inMemoryRepository 0 carol "s3cretpass" ⟨[alice], []⟩).world.calls ∧
    "carol@example.com" = TrimSpace (ToLower standInLib.caseTable carol.Email) ∧
    "carol_c" = TrimSpace carol.Username ∧
    "Carol" = TrimSpace carol.FirstName ∧
    carol.LastName = TrimSpace carol.LastName ∧
    HashPassword standInLib 0 "s3cretpass" = Except.ok "$2a$10$s3cretpass" ∧
    carol.ID = carol.ID ∧ carol.IsActive = carol.IsActive ∧ carol.IsAdmin = carol.IsAdmin ∧
    8 ≤ golen "s3cretpass" ∧
    standInLib.bcrypt.GenerateFromPassword 0 "s3cretpass" bcryptDefaultCost =
      Except.ok "$2a$10$s3cretpass" ∧
    "$2a$10$s3cretpass" ≠ "s3cretpass" :=
  (fun H => ⟨by decide, H.1, H.2.1, H.2.2.1, H.2.2.2.1, H.2.2.2.2.1, H.2.2.2.2.2.1,
      H.2.2.2.2.2.2.1, H.2.2.2.2.2.2.2.1, H.2.2.2.2.2.2.2.2.1, H.2.2.2.2.2.2.2.2.2.1,
      H.2.2.2.2.2.2.2.2.2.2 (fun h hh => by
        have : h = "$2a$10$s3cretpass" := by
          have h2 : (Except.ok "$2a$10$s3cretpass" : Except String String) = Except.ok h := by
            rw [← hh]
            decide
          cases h2
          rfl
        rw [this]
        decide)⟩)
    ((createUser_entity_given_to_Create standInLib inMemoryRepository 0 carol "s3cretpass"
     [alice]).1
     { carol with Email := "carol@example.com", Username := "carol_c",
                  FirstName := "Carol", Password := "$2a$10$s3cretpass" } (by decide))

end CreateUserTheorems

section Uniqueness

open entity repository service gostrings persistence fixtures

/-- A value of the list after `replaceByID` is the new value or was there before. -/
theorem mem_map_replaceByID (f : User → String) (new : User) (x : String) :
    ∀ db : List User, x ∈ (replaceByID new db).map f → x = f new ∨ x ∈ db.map f := by
  intro db
  induction db with
  | nil => intro h; simp [replaceByID] at h
  | cons u rest ih =>
    intro h
    unfold replaceByID at h
    split at h
    · simp only [List.map_cons, List.mem_cons] at h ⊢
      rcases h with h | h
      · exact Or.inl h
      · exact Or.inr (Or.inr h)
    · simp only [List.map_cons, List.mem_cons] at h ⊢
      rcases h with h | h
      · exact Or.inr (Or.inl h)
      · rcases ih h with h | h
        · exact Or.inl h
        · exact Or.inr (Or.inr h)

/-- Replacing the stored entity found for an ID by an entity whose `f` value is the old one or
is new to the store keeps the `f` values pairwise different. -/
theorem nodup_map_replaceByID (f : User → String) (new cur : User) :
    ∀ db : List User,
      db.find? (fun u => decide (u.ID = new.ID)) = some cur →
      (f new = f cur ∨ f new ∉ db.map f) →
      (db.map f).Nodup → ((replaceByID new db).map f).Nodup := by
  intro db
  induction db with
  | nil => intro h; simp at h
  | cons u rest ih =>
    intro hfind hf hnd
    simp only [List.map_cons, List.nodup_cons] at hnd
    unfold replaceByID
    by_cases hid : u.ID = new.ID
    · have hcur : u = cur := by simpa [List.find?, hid] using hfind
      subst hcur
      simp only [hid, if_true, List.map_cons, List.nodup_cons]
      refine ⟨?_, hnd.2⟩
      rcases hf with hf | hf
      · rw [hf]; exact hnd.1
      · intro hmem
        exact hf (by simp [hmem])
    · have hfind' : rest.find? (fun u => decide (u.ID = new.ID)) = some cur := by
        simpa [List.find?, hid] using hfind
      have hcurmem : cur ∈ rest := List.mem_of_find?_eq_some hfind'
      simp only [hid, if_false, List.map_cons, List.nodup_cons]
      refine ⟨?_, ih hfind' ?_ hnd.2⟩
      · intro hmem
        rcases mem_map_replaceByID f new (f u) rest hmem with h | h
        · rcases hf with hf | hf
          · apply hnd.1
            rw [h, hf]
            exact List.mem_map_of_mem f hcurmem
          · apply hf
            simp [h]
        · exact hnd.1 h
      · rcases hf with hf | hf
        · exact Or.inl hf
        · refine Or.inr ?_
          intro hmem
          exact hf (by simp [hmem])

/-- A value no stored user has is not among the stored values. -/
theorem not_mem_map_of_any_eq_false (f : User → String) (x : String) (db : List User)
    (h : db.any (fun u => decide (f u = x)) = false) : x ∉ db.map f := by
  intro hmem
  rcases List.mem_map.1 hmem with ⟨u, hu, hux⟩
  have hany : db.any (fun u => decide (f u = x)) = true :=
    List.any_eq_true.2 ⟨u, hu, decide_eq_true hux⟩
  rw [h] at hany
  cases hany

/-- The email block of `UpdateUser` over the in-memory repository: the storage is left as it
is, and the entity keeps its ID and username and has its old email or one new to the store. -/
theorem mergeEmail_inMemory (lib : Lib) (updates cur m : User) (w w' : World (List User))
    (h : mergeEmail lib inMemoryRepository updates cur w = (Except.ok m, w')) :
    w'.db = w.db ∧ m.ID = cur.ID ∧ m.Username = cur.Username ∧
    (m.Email = cur.Email ∨ m.Email ∉ w.db.map (fun u => u.Email)) := by
  unfold mergeEmail at h
  split at h
  · cases hE : NewEmail lib.caseTable updates.Email with
    | error e => simp [hE] at h
    | ok email =>
      cases hany : w.db.any (fun u => decide (u.Email = email.Value)) with
      | true => simp [hE, World.ExistsByEmail, inMemoryRepository, hany] at h
      | false =>
        simp [hE, World.ExistsByEmail, inMemoryRepository, hany] at h
        rcases h with ⟨hm, hw⟩
        subst hm hw
        refine ⟨rfl, rfl, rfl, Or.inr ?_⟩
        exact not_mem_map_of_any_eq_false (fun u => u.Email) _ _ hany
  · simp at h
    rcases h with ⟨hm, hw⟩
    subst hm hw
    exact ⟨rfl, rfl, rfl, Or.inl rfl⟩

/-- The username block of `UpdateUser` over the in-memory repository: the storage is left as it
is, and the entity keeps its ID and email and has its old username or one new to the store. -/
theorem mergeUsername_inMemory (updates cur m : User) (w w' : World (List User))
    (h : mergeUsername inMemoryRepository updates cur w = (Except.ok m, w')) :
    w'.db = w.db ∧ m.ID = cur.ID ∧ m.Email = cur.Email ∧
    (m.Username = cur.Username ∨ m.Username ∉ w.db.map (fun u => u.Username)) := by
  unfold mergeUsername at h
  split at h
  · cases hU : NewUsername updates.Username with
    | error e => simp [hU] at h
    | ok username =>
      cases hany : w.db.any (fun u => decide (u.Username = username.Value)) with
      | true => simp [hU, World.ExistsByUsername, inMemoryRepository, hany] at h
      | false =>
        simp [hU, World.ExistsByUsername, inMemoryRepository, hany] at h
        rcases h with ⟨hm, hw⟩
        subst hm hw
        refine ⟨rfl, rfl, rfl, Or.inr ?_⟩
        exact not_mem_map_of_any_eq_false (fun u => u.Username) _ _ hany
  · simp at h
    rcases h with ⟨hm, hw⟩
    subst hm hw
    exact ⟨rfl, rfl, rfl, Or.inl rfl⟩

/-- The name blocks of `UpdateUser` touch neither the ID, nor the email, nor the username. -/
theorem mergeNames_frame (updates cur : User) :
    (mergeNames updates cur).ID = cur.ID ∧ (mergeNames updates cur).Email = cur.Email ∧
    (mergeNames updates cur).Username = cur.Username := by
  unfold mergeNames
  by_cases h1 : updates.FirstName = "" <;> by_cases h2 : updates.LastName = "" <;>
    simp [h1, h2]

/-- Adding a user whose email and username no stored user has keeps the invariant. -/
theorem unique_append (db : List User) (u : User)
    (hInv : UniqueEmailsAndUsernames db)
    (hE : db.any (fun v => decide (v.Email = u.Email)) = false)
    (hU : db.any (fun v => decide (v.Username = u.Username)) = false) :
    UniqueEmailsAndUsernames (db ++ [u]) := by
  have h1 := not_mem_map_of_any_eq_false (fun v => v.Email) _ _ hE
  have h2 := not_mem_map_of_any_eq_false (fun v => v.Username) _ _ hU
  unfold UniqueEmailsAndUsernames at *
  simp only [List.map_append, List.map_cons, List.map_nil]
  constructor
  · rw [List.nodup_append]
    refine ⟨hInv.1, List.nodup_singleton _, ?_⟩
    intro x hx hx'
    rw [List.mem_singleton] at hx'
    subst hx'
    exact h1 hx
  · rw [List.nodup_append]
    refine ⟨hInv.2, List.nodup_singleton _, ?_⟩
    intro x hx hx'
    rw [List.mem_singleton] at hx'
    subst hx'
    exact h2 hx

/-- C5: over the in-memory repository, if no two stored users share an email and no two share
a username, the same holds of the storage after every successful `CreateUser` and after
every successful `UpdateUser`. -/
theorem uniqueness_preserved (lib : Lib) (rnd : Nat) (user : User) (plainPassword : String)
    (userID : UUID) (updates : User) (w : World (List User))
    (hInv : UniqueEmailsAndUsernames w.db) :
    ((CreateUser lib inMemoryRepository rnd user plainPassword w).err = none →
      UniqueEmailsAndUsernames
        (CreateUser lib inMemoryRepository rnd user plainPassword w).world.db) ∧
    ((UpdateUser lib inMemoryRepository userID updates w).1 = none →
      UniqueEmailsAndUsernames (UpdateUser lib inMemoryRepository userID updates w).2.db) := by
  constructor
  · cases hE : NewEmail lib.caseTable user.Email with
    | error e => simp [CreateUser, hE]
    | ok email =>
    cases hU : NewUsername user.Username with
    | error e => simp [CreateUser, hE, hU]
    | ok username =>
    cases hN : NewPersonName user.FirstName user.LastName with
    | error e => simp [CreateUser, hE, hU, hN]
    | ok name =>
    cases hH : HashPassword lib rnd plainPassword with
    | error e => simp [CreateUser, hE, hU, hN, hH]
    | ok hash =>
    cases hXE : w.db.any (fun v => decide (v.Email = email.Value)) with
    | true =>
      simp [CreateUser, hE, hU, hN, hH, World.ExistsByEmail, inMemoryRepository, hXE]
    | false =>
    cases hXU : w.db.any (fun v => decide (v.Username = username.Value)) with
    | true =>
      simp [CreateUser, hE, hU, hN, hH, World.ExistsByEmail, World.ExistsByUsername,
        inMemoryRepository, hXE, hXU]
    | false =>
      intro _
      have hdb : (CreateUser lib inMemoryRepository rnd user plainPassword w).world.db =
          w.db ++ [{ user with Email := email.Value, Username := username.Value,
                               FirstName := name.FirstName, LastName := name.LastName,
                               Password := hash }] := by
        simp [CreateUser, hE, hU, hN, hH, World.ExistsByEmail, World.ExistsByUsername,
          World.Create, inMemoryRepository, hXE, hXU]
      rw [hdb]
      exact unique_append _ _ hInv hXE hXU
  · unfold UpdateUser
    cases hG : w.db.find? (fun u => decide (u.ID = userID)) with
    | none => simp [World.GetByID, inMemoryRepository, hG]
    | some cur =>
    simp only [World.GetByID, inMemoryRepository, hG]
    rcases hME : mergeEmail lib inMemoryRepository updates cur
        ⟨w.db, w.calls ++ [RepoCall.GetByID userID]⟩ with ⟨r1, w1⟩
    have hME' := hME
    simp only [inMemoryRepository] at hME'
    rw [hME']
    cases r1 with
    | error e => simp
    | ok m1 =>
    rcases hMU : mergeUsername inMemoryRepository updates m1 w1 with ⟨r2, w2⟩
    have hMU' := hMU
    simp only [inMemoryRepository] at hMU'
    simp only []
    rw [hMU']
    cases r2 with
    | error e => simp
    | ok m2 =>
    intro _
    obtain ⟨hdb1, hid1, hun1, hem1⟩ := mergeEmail_inMemory _ _ _ _ _ _ hME
    obtain ⟨hdb2, hid2, hem2, hun2⟩ := mergeUsername_inMemory _ _ _ _ _ hMU
    obtain ⟨hid3, hem3, hun3⟩ := mergeNames_frame updates m2
    simp only [World.Update] at *
    simp only [hdb2, hdb1] at *
    have hcurid : cur.ID = userID := by
      have := List.find?_some hG
      simpa using this
    have hfind : w.db.find? (fun u => decide (u.ID = (mergeNames updates m2).ID)) = some cur := by
      rw [hid3, hid2, hid1, hcurid]; exact hG
    constructor
    · apply nodup_map_replaceByID (fun u => u.Email) _ cur _ hfind _ hInv.1
      simp only [hem3, hem2]
      exact hem1
    · apply nodup_map_replaceByID (fun u => u.Username) _ cur _ hfind _ hInv.2
      simp only [hun3]
      rcases hun2 with h | h
      · left; rw [h, hun1]
      · right; exact h

/-- C5, witness: with Alice and Bob stored, Carol signs up and Bob changes his email and
username; the storage keeps the invariant both times. -/
theorem uniqueness_preserved_witness :
    UniqueEmailsAndUsernames [alice, bob] ∧
    UniqueEmailsAndUsernames
      (CreateUser standInLib inMemoryRepository 0 carol "s3cretpass"
        ⟨[alice, bob], []⟩).world.db ∧
    UniqueEmailsAndUsernames
      (UpdateUser standInLib inMemoryRepository ⟨2⟩
        { carol with Email := "Robert@Example.com", Username := "robert" }
        ⟨[alice, bob], []⟩).2.db :=
  ⟨by decide,
   (uniqueness_preserved standInLib 0 carol "s3cretpass" ⟨2⟩
      { carol with Email := "Robert@Example.com", Username := "robert" }
      ⟨[alice, bob], []⟩ (by decide)).1 (by decide),
   (uniqueness_preserved standInLib 0 carol "s3cretpass" ⟨2⟩
      { carol with Email := "Robert@Example.com", Username := "robert" }
      ⟨[alice, bob], []⟩ (by decide)).2 (by decide)⟩

end Uniqueness

section AuthenticateTheorems

open entity repository service gostrings persistence fixtures

variable {σ : Type}

/-- C6: for a user found by the lookups of `Authenticate`, a password that does not verify
gives `ErrInvalidCredentials` whether the user is active or not; a password that verifies for
a user who is not active gives the error "user account is not active", which is not
`ErrInvalidCredentials`; and a user is returned only when the password verifies and the user
is active, in which case it is the user found. -/
theorem authenticate_found_user (lib : Lib) (userRepo : UserRepository σ)
    (identifier password : String) (w w' : World σ) (user : User)
    (hFound : findByUsername userRepo identifier (findByEmail lib userRepo identifier w) =
      ((some user, none), w')) :
    (VerifyPassword lib user.Password password ≠ none →
      (Authenticate lib userRepo identifier password w).1 =
        (none, some (GoError.sentinel Sentinel.ErrInvalidCredentials))) ∧
    (VerifyPassword lib user.Password password = none → user.IsActive = false →
      (Authenticate lib userRepo identifier password w).1 =
        (none, some (GoError.errorf "user account is not active")) ∧
      (GoError.errorf "user account is not active").Is Sentinel.ErrInvalidCredentials = false) ∧
    (VerifyPassword lib user.Password password = none → user.IsActive = true →
      (Authenticate lib userRepo identifier password w).1 = (some user, none)) ∧
    (∀ u, (Authenticate lib userRepo identifier password w).1.1 = some u →
      u = user ∧ VerifyPassword lib user.Password password = none ∧ user.IsActive = true) := by
  unfold Authenticate
  rw [hFound]
  cases hV : VerifyPassword lib user.Password password with
  | some e => simp [hV]
  | none =>
    cases hA : user.IsActive with
    | true => simp [hV, hA]
    | false => simp [hV, hA, GoError.Is]

/-- C6, witness: Alice is found by her email; a wrong password gives `ErrInvalidCredentials`. -/
theorem authenticate_found_user_witness :
    (Authenticate standInLib inMemoryRepository "alice@example.com" "wrongpass"
      ⟨[alice, bob], []⟩).1 = (none, some (GoError.sentinel Sentinel.ErrInvalidCredentials)) :=
  (authenticate_found_user standInLib inMemoryRepository "alice@example.com" "wrongpass"
    ⟨[alice, bob], []⟩ ⟨[alice, bob], [RepoCall.GetByEmail "alice@example.com"]⟩ alice
    (by decide)).1 (by decide)

/-- C7, the code at the failing input: over a repository that reports an absent user as the
shipped adapter does (no entity, `ErrUserNotFound`), `Authenticate` for an unknown identifier,
username-shaped or email-shaped, returns "failed to find user: user not found", which wraps
`ErrUserNotFound` and is not `ErrInvalidCredentials`. -/
theorem authenticate_absent_user_not_invalid_credentials :
    (inMemoryRepository.GetByUsername "ghost" [alice]).1 =
      (none, some (GoError.sentinel Sentinel.ErrUserNotFound)) ∧
    (Authenticate standInLib inMemoryRepository "ghost" "s3cretpass" ⟨[alice], []⟩).1 =
      (none, some (GoError.wrap "failed to find user: "
        (GoError.sentinel Sentinel.ErrUserNotFound) "")) ∧
    (Authenticate standInLib inMemoryRepository "ghost@example.com" "s3cretpass"
      ⟨[alice], []⟩).1 =
      (none, some (GoError.wrap "failed to find user: "
        (GoError.sentinel Sentinel.ErrUserNotFound) "")) ∧
    (GoError.wrap "failed to find user: " (GoError.sentinel Sentinel.ErrUserNotFound) "").Is
      Sentinel.ErrInvalidCredentials = false ∧
    (GoError.wrap "failed to find user: " (GoError.sentinel Sentinel.ErrUserNotFound) "").Is
      Sentinel.ErrUserNotFound = true := by
  decide

/-- C8: `Authenticate` calls `GetByEmail` exactly when `NewEmail identifier` succeeds, and
`GetByUsername` exactly when the email lookup was not made or gave no user; both receive the
identifier as it was given.  The log of the call is exactly these lookups, in this order. -/
theorem authenticate_lookups (lib : Lib) (userRepo : UserRepository σ)
    (identifier password : String) (db : σ) :
    (Authenticate lib userRepo identifier password ⟨db, []⟩).2.calls =
      if (NewEmail lib.caseTable identifier).isOk then
        if (userRepo.GetByEmail identifier db).1.1.isSome then
          [RepoCall.GetByEmail identifier]
        else
          [RepoCall.GetByEmail identifier, RepoCall.GetByUsername identifier]
      else
        [RepoCall.GetByUsername identifier] := by
  have hfinal : ∀ (r : (Option User × Option GoError) × World σ),
      (match r with
        | ((_, some err), w) =>
          (((none : Option User), some (GoError.wrap "failed to find user: " err "")), w)
        | ((none, none), w) =>
          ((none, some (GoError.sentinel Sentinel.ErrInvalidCredentials)), w)
        | ((some user, none), w) =>
          match VerifyPassword lib user.Password password with
          | some _ => ((none, some (GoError.sentinel Sentinel.ErrInvalidCredentials)), w)
          | none =>
            if !user.IsActive then
              ((none, some (GoError.errorf "user account is not active")), w)
            else
              ((some user, none), w)).2 = r.2 := by
    rintro ⟨⟨u, e⟩, w1⟩
    cases u with
    | none => cases e <;> rfl
    | some u =>
      cases e with
      | some e => rfl
      | none =>
        simp only []
        cases VerifyPassword lib u.Password password with
        | some _ => rfl
        | none => cases u.IsActive <;> rfl
  unfold Authenticate
  rw [hfinal]
  cases hE : NewEmail lib.caseTable identifier with
  | error e =>
    simp [findByEmail, findByUsername, hE, World.GetByUsername, Except.isOk, Except.toBool]
  | ok email =>
    rcases hG : userRepo.GetByEmail identifier db with ⟨⟨u, e⟩, db1⟩
    cases u with
    | none =>
      simp [findByEmail, findByUsername, hE, World.GetByEmail, World.GetByUsername, hG,
        Except.isOk, Except.toBool]
    | some u =>
      simp [findByEmail, findByUsername, hE, World.GetByEmail, hG, Except.isOk, Except.toBool]

end AuthenticateTheorems

section UpdateUserTheorems

open entity repository service gostrings persistence fixtures

variable {σ : Type}

/-- C9: when `GetByID` gives no entity, with no error or with one that is or wraps
`ErrUserNotFound`, `UpdateUser` returns an error that is or wraps `ErrUserNotFound`, whatever
the updates are, and its only repository call is that `GetByID`: no existence query and no
`Update`. -/
theorem updateUser_absent_user (lib : Lib) (userRepo : UserRepository σ) (userID : UUID)
    (updates : User) (db : σ)
    (hNone : (userRepo.GetByID userID db).1.1 = none)
    (hErr : ∀ e, (userRepo.GetByID userID db).1.2 = some e →
      e.Is Sentinel.ErrUserNotFound = true) :
    (∃ err, (UpdateUser lib userRepo userID updates ⟨db, []⟩).1 = some err ∧
      err.Is Sentinel.ErrUserNotFound = true) ∧
    (UpdateUser lib userRepo userID updates ⟨db, []⟩).2.calls = [RepoCall.GetByID userID] := by
  rcases hG : userRepo.GetByID userID db with ⟨⟨u, e⟩, db1⟩
  rw [hG] at hNone hErr
  simp only at hNone hErr
  subst hNone
  cases e with
  | none => simp [UpdateUser, World.GetByID, hG, GoError.Is]
  | some e =>
    have hIs := hErr e rfl
    simp [UpdateUser, World.GetByID, hG, GoError.Is, hIs]

/-- C9, witness: no stored user has the ID 9. -/
theorem updateUser_absent_user_witness :
    (∃ err, (UpdateUser standInLib inMemoryRepository ⟨9⟩ carol ⟨[alice, bob], []⟩).1 =
        some err ∧ err.Is Sentinel.ErrUserNotFound = true) ∧
    (UpdateUser standInLib inMemoryRepository ⟨9⟩ carol ⟨[alice, bob], []⟩).2.calls =
      [RepoCall.GetByID ⟨9⟩] :=
  updateUser_absent_user standInLib inMemoryRepository ⟨9⟩ carol [alice, bob]
    (by decide) (by intro e he; cases he; decide)

/-- The repository calls of the email block of `UpdateUser`: one `ExistsByEmail`, with the
lowercased, trimmed value, when the update email is non-empty, differs from the stored one as
a raw string and is valid; none otherwise. -/
theorem mergeEmail_calls (lib : Lib) (userRepo : UserRepository σ) (updates cur : User)
    (w : World σ) :
    (mergeEmail lib userRepo updates cur w).2.calls =
      if updates.Email ≠ "" ∧ updates.Email ≠ cur.Email ∧
          (NewEmail lib.caseTable updates.Email).isOk = true then
        w.calls ++ [RepoCall.ExistsByEmail (TrimSpace (ToLower lib.caseTable updates.Email))]
      else w.calls := by
  unfold mergeEmail
  by_cases hc : updates.Email ≠ "" ∧ updates.Email ≠ cur.Email
  · rw [if_pos hc]
    cases hE : NewEmail lib.caseTable updates.Email with
    | error e => simp [Except.isOk, Except.toBool]
    | ok email =>
      have hv := NewEmail_ok_value _ _ _ hE
      rcases hX : userRepo.ExistsByEmail email.Value w.db with ⟨⟨b, e⟩, db1⟩
      have hcond : (updates.Email ≠ "" ∧ updates.Email ≠ cur.Email ∧
          (Except.ok email : Except GoError Email).isOk = true) := ⟨hc.1, hc.2, rfl⟩
      rw [if_pos hcond, ← hv]
      cases e with
      | some e => simp [World.ExistsByEmail, hX]
      | none => cases b <;> simp [World.ExistsByEmail, hX]
  · rw [if_neg hc]
    have hcond : ¬ (updates.Email ≠ "" ∧ updates.Email ≠ cur.Email ∧
        (NewEmail lib.caseTable updates.Email).isOk = true) := fun h => hc ⟨h.1, h.2.1⟩
    rw [if_neg hcond]

/-- The email block of `UpdateUser` changes at most the email of the entity. -/
theorem mergeEmail_frame (lib : Lib) (userRepo : UserRepository σ) (updates cur m : User)
    (w w' : World σ) (h : mergeEmail lib userRepo updates cur w = (Except.ok m, w')) :
    m = { cur with Email := m.Email } := by
  unfold mergeEmail at h
  split at h
  · cases hE : NewEmail lib.caseTable updates.Email with
    | error e => simp [hE] at h
    | ok email =>
      rcases hX : userRepo.ExistsByEmail email.Value w.db with ⟨⟨b, e⟩, db1⟩
      cases e with
      | some e => simp [hE, World.ExistsByEmail, hX] at h
      | none =>
        cases b with
        | true => simp [hE, World.ExistsByEmail, hX] at h
        | false =>
          simp [hE, World.ExistsByEmail, hX] at h
          rw [← h.1]
  · simp at h
    rw [← h.1]

/-- The repository calls of the username block of `UpdateUser`: none when the update username
is the stored one, at most one `ExistsByUsername` otherwise. -/
theorem mergeUsername_calls (userRepo : UserRepository σ) (updates cur : User) (w : World σ) :
    (updates.Username = cur.Username →
      mergeUsername userRepo updates cur w = (Except.ok cur, w)) ∧
    ((mergeUsername userRepo updates cur w).2.calls = w.calls ∨
     (mergeUsername userRepo updates cur w).2.calls =
       w.calls ++ [RepoCall.ExistsByUsername (TrimSpace updates.Username)]) := by
  constructor
  · intro h
    simp [mergeUsername, h]
  · unfold mergeUsername
    split
    · cases hU : NewUsername updates.Username with
      | error e => simp
      | ok username =>
        have hv := NewUsername_ok_value _ _ hU
        rcases hX : userRepo.ExistsByUsername username.Value w.db with ⟨⟨b, e⟩, db1⟩
        rw [← hv]
        cases e with
        | some e => simp [World.ExistsByUsername, hX]
        | none => cases b <;> simp [World.ExistsByUsername, hX]
    · simp

/-- After the email block, `UpdateUser` calls only `ExistsByUsername` and `Update`. -/
theorem updateUser_calls_after_email (lib : Lib) (userRepo : UserRepository σ) (userID : UUID)
    (updates cur : User) (db db1 : σ)
    (hGet : userRepo.GetByID userID db = ((some cur, none), db1)) :
    ∃ l, (UpdateUser lib userRepo userID updates ⟨db, []⟩).2.calls =
        (mergeEmail lib userRepo updates cur ⟨db1, [RepoCall.GetByID userID]⟩).2.calls ++ l ∧
      (∀ c ∈ l, (∃ s, c = RepoCall.ExistsByUsername s) ∨ (∃ u, c = RepoCall.Update u)) ∧
      (updates.Username = cur.Username → ∀ c ∈ l, ∃ u, c = RepoCall.Update u) := by
  unfold UpdateUser
  simp only [World.GetByID, hGet, List.nil_append]
  rcases hME : mergeEmail lib userRepo updates cur ⟨db1, [RepoCall.GetByID userID]⟩
    with ⟨r1, w1⟩
  cases r1 with
  | error e => exact ⟨[], by simp, by simp, by simp⟩
  | ok m1 =>
    have hfr := mergeEmail_frame _ _ _ _ _ _ _ hME
    have hun : m1.Username = cur.Username := by rw [hfr]
    simp only []
    obtain ⟨hsame, hcalls⟩ := mergeUsername_calls userRepo updates m1 w1
    rcases hMU : mergeUsername userRepo updates m1 w1 with ⟨r2, w2⟩
    rw [hMU] at hcalls hsame
    simp only at hcalls
    cases r2 with
    | error e =>
      simp only []
      rcases hcalls with hc | hc
      · exact ⟨[], by simp [hc], by simp, by simp⟩
      · refine ⟨[RepoCall.ExistsByUsername (TrimSpace updates.Username)], by simp [hc],
          by simp, ?_⟩
        intro heq
        have := hsame (heq.trans hun.symm)
        simp at this
    | ok m2 =>
      simp only []
      rcases hUp : userRepo.Update (mergeNames updates m2) w2.db with ⟨e3, db3⟩
      rcases hcalls with hc | hc
      · refine ⟨[RepoCall.Update (mergeNames updates m2)], ?_, by simp, by simp⟩
        cases e3 <;> simp [World.Update, hUp, hc]
      · refine ⟨[RepoCall.ExistsByUsername (TrimSpace updates.Username),
          RepoCall.Update (mergeNames updates m2)], ?_, by simp, ?_⟩
        · cases e3 <;> simp [World.Update, hUp, hc]
        · intro heq
          have h2 := hsame (heq.trans hun.symm)
          have h3 := congrArg (fun r => r.2.calls) h2
          simp only [hc] at h3
          simp at h3

/-- The repository calls of the username block of `UpdateUser`: one `ExistsByUsername`, with
the trimmed value, when the update username is non-empty, differs from the stored one as a raw
string and is valid; none otherwise. -/
theorem mergeUsername_calls_exact (userRepo : UserRepository σ) (updates cur : User)
    (w : World σ) :
    (mergeUsername userRepo updates cur w).2.calls =
      if updates.Username ≠ "" ∧ updates.Username ≠ cur.Username ∧
          (NewUsername updates.Username).isOk = true then
        w.calls ++ [RepoCall.ExistsByUsername (TrimSpace updates.Username)]
      else w.calls := by
  unfold mergeUsername
  by_cases hc : updates.Username ≠ "" ∧ updates.Username ≠ cur.Username
  · rw [if_pos hc]
    cases hU : NewUsername updates.Username with
    | error e => simp [Except.isOk, Except.toBool]
    | ok username =>
      have hv := NewUsername_ok_value _ _ hU
      rcases hX : userRepo.ExistsByUsername username.Value w.db with ⟨⟨b, e⟩, db1⟩
      have hcond : (updates.Username ≠ "" ∧ updates.Username ≠ cur.Username ∧
          (Except.ok username : Except GoError Username).isOk = true) := ⟨hc.1, hc.2, rfl⟩
      rw [if_pos hcond, ← hv]
      cases e with
      | some e => simp [World.ExistsByUsername, hX]
      | none => cases b <;> simp [World.ExistsByUsername, hX]
  · rw [if_neg hc]
    have hcond : ¬ (updates.Username ≠ "" ∧ updates.Username ≠ cur.Username ∧
        (NewUsername updates.Username).isOk = true) := fun h => hc ⟨h.1, h.2.1⟩
    rw [if_neg hcond]

/-- The calls of `UpdateUser` after a stored user is loaded and the email block has let the
update through: those of the username block, and then at most one `Update`. -/
theorem updateUser_calls_after_username (lib : Lib) (userRepo : UserRepository σ)
    (userID : UUID) (updates cur m1 : User) (db db1 : σ) (w1 : World σ)
    (hGet : userRepo.GetByID userID db = ((some cur, none), db1))
    (hME : mergeEmail lib userRepo updates cur ⟨db1, [RepoCall.GetByID userID]⟩ =
      (Except.ok m1, w1)) :
    ∃ l, (UpdateUser lib userRepo userID updates ⟨db, []⟩).2.calls =
        (mergeUsername userRepo updates m1 w1).2.calls ++ l ∧
      ∀ c ∈ l, ∃ u, c = RepoCall.Update u := by
  rcases hMU : mergeUsername userRepo updates m1 w1 with ⟨r2, w2⟩
  cases r2 with
  | error e =>
    exact ⟨[], by simp [UpdateUser, World.GetByID, hGet, hME, hMU], by simp⟩
  | ok m2 =>
    rcases hUp : userRepo.Update (mergeNames updates m2) w2.db with ⟨e3, db3⟩
    refine ⟨[RepoCall.Update (mergeNames updates m2)], ?_, by simp⟩
    cases e3 <;> simp [UpdateUser, World.GetByID, hGet, hME, hMU, World.Update, hUp]

/-- The calls of the email block of `UpdateUser` are calls of `ExistsByEmail`, after those
made before. -/
theorem mergeEmail_calls_kind (lib : Lib) (userRepo : UserRepository σ) (updates cur : User)
    (w : World σ) :
    ∀ c ∈ (mergeEmail lib userRepo updates cur w).2.calls,
      c ∈ w.calls ∨ ∃ s, c = RepoCall.ExistsByEmail s := by
  intro c hc
  rw [mergeEmail_calls] at hc
  split at hc
  · simp only [List.mem_append, List.mem_singleton] at hc
    rcases hc with hc | hc
    · exact Or.inl hc
    · exact Or.inr ⟨_, hc⟩
  · exact Or.inl hc

/-- C10: for a stored user `cur`, `UpdateUser` compares the update email and the update
username with the stored values as raw strings.
* An update email equal to the stored one triggers no `ExistsByEmail` call and no validation:
  the call behaves as if no email had been given.
* `ExistsByEmail` is called exactly when the update email is non-empty, differs from the stored
  one as a raw string, and passes `NewEmail`; when it fails `NewEmail` that error is returned.
* An update email that differs from the stored one only before normalisation is checked with
  `ExistsByEmail` on the stored email, and when that reports true `UpdateUser` fails with an
  error wrapping `ErrUserAlreadyExists` after these two calls, without `Update`.
* Likewise the username, once the email block has let the update through.  An update username
  equal to the stored one triggers no `ExistsByUsername` call and no validation: the call
  behaves as if no username had been given; and with an empty or equal username `UpdateUser`
  goes straight on to `Update`.  `ExistsByUsername` is called exactly when the update username
  is non-empty, differs from the stored one as a raw string, and passes `NewUsername`; when it
  fails `NewUsername` that error is returned.  An update username that differs from the stored
  one only before trimming is checked with `ExistsByUsername` on the stored username, and when
  that reports true `UpdateUser` fails with an error wrapping `ErrUserAlreadyExists`, without
  `Update`. -/
theorem updateUser_raw_comparison (lib : Lib) (userRepo : UserRepository σ) (userID : UUID)
    (updates cur : User) (db db1 : σ)
    (hGet : userRepo.GetByID userID db = ((some cur, none), db1)) :
    (updates.Email = cur.Email →
      (∀ s, RepoCall.ExistsByEmail s ∉
        (UpdateUser lib userRepo userID updates ⟨db, []⟩).2.calls) ∧
      UpdateUser lib userRepo userID updates ⟨db, []⟩ =
        UpdateUser lib userRepo userID { updates with Email := "" } ⟨db, []⟩) ∧
    ((∃ s, RepoCall.ExistsByEmail s ∈
        (UpdateUser lib userRepo userID updates ⟨db, []⟩).2.calls) ↔
      (updates.Email ≠ "" ∧ updates.Email ≠ cur.Email ∧
        (NewEmail lib.caseTable updates.Email).isOk = true)) ∧
    (∀ err, updates.Email ≠ "" → updates.Email ≠ cur.Email →
      NewEmail lib.caseTable updates.Email = Except.error err →
      UpdateUser lib userRepo userID updates ⟨db, []⟩ =
        (some err, ⟨db1, [RepoCall.GetByID userID]⟩)) ∧
    (∀ db2, updates.Email ≠ "" → updates.Email ≠ cur.Email →
      NewEmail lib.caseTable updates.Email = Except.ok ⟨cur.Email⟩ →
      userRepo.ExistsByEmail cur.Email db1 = ((true, none), db2) →
      (∃ err, (UpdateUser lib userRepo userID updates ⟨db, []⟩).1 = some err ∧
        err.Is Sentinel.ErrUserAlreadyExists = true) ∧
      (UpdateUser lib userRepo userID updates ⟨db, []⟩).2.calls =
        [RepoCall.GetByID userID, RepoCall.ExistsByEmail cur.Email]) ∧
    (updates.Username = cur.Username →
      (∀ s, RepoCall.ExistsByUsername s ∉
        (UpdateUser lib userRepo userID updates ⟨db, []⟩).2.calls) ∧
      UpdateUser lib userRepo userID updates ⟨db, []⟩ =
        UpdateUser lib userRepo userID { updates with Username := "" } ⟨db, []⟩) ∧
    (∀ m1 w1, mergeEmail lib userRepo updates cur ⟨db1, [RepoCall.GetByID userID]⟩ =
        (Except.ok m1, w1) →
      (updates.Username = "" ∨ updates.Username = cur.Username) →
      (UpdateUser lib userRepo userID updates ⟨db, []⟩).2.calls =
        w1.calls ++ [RepoCall.Update (mergeNames updates m1)]) ∧
    ((∃ s, RepoCall.ExistsByUsername s ∈
        (UpdateUser lib userRepo userID updates ⟨db, []⟩).2.calls) ↔
      ((∃ m1 w1, mergeEmail lib userRepo updates cur ⟨db1, [RepoCall.GetByID userID]⟩ =
          (Except.ok m1, w1)) ∧
        updates.Username ≠ "" ∧ updates.Username ≠ cur.Username ∧
        (NewUsername updates.Username).isOk = true)) ∧
    (∀ m1 w1 err, mergeEmail lib userRepo updates cur ⟨db1, [RepoCall.GetByID userID]⟩ =
        (Except.ok m1, w1) →
      updates.Username ≠ "" → updates.Username ≠ cur.Username →
      NewUsername updates.Username = Except.error err →
      UpdateUser lib userRepo userID updates ⟨db, []⟩ = (some err, w1)) ∧
    (∀ db2, (updates.Email = "" ∨ updates.Email = cur.Email) →
      updates.Username ≠ "" → updates.Username ≠ cur.Username →
      NewUsername updates.Username = Except.ok ⟨cur.Username⟩ →
      userRepo.ExistsByUsername cur.Username db1 = ((true, none), db2) →
      (∃ err, (UpdateUser lib userRepo userID updates ⟨db, []⟩).1 = some err ∧
        err.Is Sentinel.ErrUserAlreadyExists = true) ∧
      (UpdateUser lib userRepo userID updates ⟨db, []⟩).2.calls =
        [RepoCall.GetByID userID, RepoCall.ExistsByUsername cur.Username]) := by
  obtain ⟨l, hl, hlmem, hlsame⟩ :=
    updateUser_calls_after_email lib userRepo userID updates cur db db1 hGet
  have hmc := mergeEmail_calls lib userRepo updates cur ⟨db1, [RepoCall.GetByID userID]⟩
  refine ⟨?_, ?_, ?_, ?_, ?_, ?_, ?_, ?_, ?_⟩
  · intro heq
    constructor
    · intro s hs
      rw [hl, hmc, if_neg (fun h => h.2.1 heq)] at hs
      simp only [List.mem_append, List.mem_singleton] at hs
      rcases hs with hs | hs
      · cases hs
      · rcases hlmem _ hs with ⟨_, h⟩ | ⟨_, h⟩ <;> cases h
    · by_cases hcur : cur.Email = ""
      · have : updates = { updates with Email := "" } := by
          cases updates
          simp only [User.mk.injEq, true_and, and_true] at *
          rw [heq, hcur]
        rw [← this]
      · simp [UpdateUser, World.GetByID, hGet, mergeEmail, heq, mergeUsername, mergeNames]
  · constructor
    · rintro ⟨s, hs⟩
      by_contra hc
      rw [hl, hmc, if_neg hc] at hs
      simp only [List.mem_append, List.mem_singleton] at hs
      rcases hs with hs | hs
      · cases hs
      · rcases hlmem _ hs with ⟨_, h⟩ | ⟨_, h⟩ <;> cases h
    · intro hc
      refine ⟨TrimSpace (ToLower lib.caseTable updates.Email), ?_⟩
      rw [hl, hmc, if_pos hc]
      simp
  · intro err h1 h2 hE
    simp [UpdateUser, World.GetByID, hGet, mergeEmail, h1, h2, hE]
  · intro db2 h1 h2 hE hX
    simp [UpdateUser, World.GetByID, hGet, mergeEmail, h1, h2, hE, World.ExistsByEmail,
      Email.Value, hX, GoError.Is]
  · intro heq
    constructor
    · intro s hs
      rw [hl, hmc] at hs
      simp only [List.mem_append] at hs
      rcases hs with hs | hs
      · split at hs
        · simp at hs
        · simp at hs
      · obtain ⟨_, h⟩ := hlsame heq _ hs
        cases h
    · rcases hME : mergeEmail lib userRepo updates cur ⟨db1, [RepoCall.GetByID userID]⟩
        with ⟨r1, w1⟩
      have hME2 : mergeEmail lib userRepo { updates with Username := "" } cur
          ⟨db1, [RepoCall.GetByID userID]⟩ = (r1, w1) := hME
      cases r1 with
      | error e => simp [UpdateUser, World.GetByID, hGet, hME, hME2]
      | ok m1 =>
        have hfr := mergeEmail_frame _ _ _ _ _ _ _ hME
        have hun : m1.Username = cur.Username := by rw [hfr]
        have hA : mergeUsername userRepo updates m1 w1 = (Except.ok m1, w1) := by
          simp [mergeUsername, heq, hun]
        have hB : mergeUsername userRepo { updates with Username := "" } m1 w1 =
            (Except.ok m1, w1) := by
          simp [mergeUsername]
        have hC : mergeNames { updates with Username := "" } m1 = mergeNames updates m1 := rfl
        simp [UpdateUser, World.GetByID, hGet, hME, hME2, hA, hB, hC]
  · intro m1 w1 hME hskip
    have hfr := mergeEmail_frame _ _ _ _ _ _ _ hME
    have hun : m1.Username = cur.Username := by rw [hfr]
    have hA : mergeUsername userRepo updates m1 w1 = (Except.ok m1, w1) := by
      rcases hskip with h | h
      · simp [mergeUsername, h]
      · simp [mergeUsername, h, hun]
    rcases hUp : userRepo.Update (mergeNames updates m1) w1.db with ⟨e3, db3⟩
    cases e3 <;> simp [UpdateUser, World.GetByID, hGet, hME, hA, World.Update, hUp]
  · rcases hME : mergeEmail lib userRepo updates cur ⟨db1, [RepoCall.GetByID userID]⟩
      with ⟨r1, w1⟩
    have hkind := mergeEmail_calls_kind lib userRepo updates cur
      ⟨db1, [RepoCall.GetByID userID]⟩
    rw [hME] at hkind
    have hw1 : ∀ s, RepoCall.ExistsByUsername s ∉ w1.calls := by
      intro s hs
      rcases hkind _ hs with h | ⟨_, h⟩
      · simp at h
      · cases h
    cases r1 with
    | error e =>
      have hrun : UpdateUser lib userRepo userID updates ⟨db, []⟩ = (some e, w1) := by
        simp [UpdateUser, World.GetByID, hGet, hME]
      rw [hrun]
      constructor
      · rintro ⟨s, hs⟩
        exact absurd hs (hw1 s)
      · rintro ⟨⟨m1, w1', h⟩, _⟩
        cases h
    | ok m1 =>
      have hfr := mergeEmail_frame _ _ _ _ _ _ _ hME
      have hun : m1.Username = cur.Username := by rw [hfr]
      obtain ⟨l2, hl2, hl2mem⟩ :=
        updateUser_calls_after_username lib userRepo userID updates cur m1 db db1 w1 hGet hME
      have hmu := mergeUsername_calls_exact userRepo updates m1 w1
      rw [hun] at hmu
      constructor
      · rintro ⟨s, hs⟩
        refine ⟨⟨m1, w1, rfl⟩, ?_⟩
        by_contra hc
        rw [hl2, hmu, if_neg hc] at hs
        simp only [List.mem_append] at hs
        rcases hs with hs | hs
        · exact hw1 s hs
        · obtain ⟨_, h⟩ := hl2mem _ hs
          cases h
      · rintro ⟨_, hc⟩
        refine ⟨TrimSpace updates.Username, ?_⟩
        rw [hl2, hmu, if_pos hc]
        simp
  · intro m1 w1 err hME h1 h2 hU
    have hfr := mergeEmail_frame _ _ _ _ _ _ _ hME
    have hun : m1.Username = cur.Username := by rw [hfr]
    have h2' : updates.Username ≠ m1.Username := by rw [hun]; exact h2
    simp [UpdateUser, World.GetByID, hGet, hME, mergeUsername, h1, h2', hU]
  · intro db2 hskip h1 h2 hU hX
    have hME : mergeEmail lib userRepo updates cur ⟨db1, [RepoCall.GetByID userID]⟩ =
        (Except.ok cur, ⟨db1, [RepoCall.GetByID userID]⟩) := by
      rcases hskip with h | h <;> simp [mergeEmail, h]
    simp [UpdateUser, World.GetByID, hGet, hME, mergeUsername, h1, h2, hU,
      World.ExistsByUsername, Username.Value, hX, GoError.Is]

/-- C10, witness: Alice is stored with "alice@example.com" and the username "alice"; an update
that spells the address " Alice@Example.com" is checked against the stored address and
rejected as already in use, and so is an update that spells the username " alice". -/
theorem updateUser_raw_comparison_witness :
    ((∃ err, (UpdateUser standInLib inMemoryRepository ⟨1⟩
        { carol with Email := " Alice@Example.com", Username := "" }
        ⟨[alice, bob], []⟩).1 = some err ∧
      err.Is Sentinel.ErrUserAlreadyExists = true) ∧
    (UpdateUser standInLib inMemoryRepository ⟨1⟩
        { carol with Email := " Alice@Example.com", Username := "" }
        ⟨[alice, bob], []⟩).2.calls =
      [RepoCall.GetByID ⟨1⟩, RepoCall.ExistsByEmail alice.Email]) ∧
    ((∃ err, (UpdateUser standInLib inMemoryRepository ⟨1⟩
        { carol with Email := "", Username := " alice" }
        ⟨[alice, bob], []⟩).1 = some err ∧
      err.Is Sentinel.ErrUserAlreadyExists = true) ∧
    (UpdateUser standInLib inMemoryRepository ⟨1⟩
        { carol with Email := "", Username := " alice" }
        ⟨[alice, bob], []⟩).2.calls =
      [RepoCall.GetByID ⟨1⟩, RepoCall.ExistsByUsername alice.Username]) :=
  ⟨(updateUser_raw_comparison standInLib inMemoryRepository ⟨1⟩
      { carol with Email := " Alice@Example.com", Username := "" } alice
      [alice, bob] [alice, bob] (by decide)).2.2.2.1 [alice, bob]
      (by decide) (by decide) (by decide) (by decide),
   (updateUser_raw_comparison standInLib inMemoryRepository ⟨1⟩
      { carol with Email := "", Username := " alice" } alice
      [alice, bob] [alice, bob] (by decide)).2.2.2.2.2.2.2.2 [alice, bob]
      (by decide) (by decide) (by decide) (by decide) (by decide)⟩

end UpdateUserTheorems

section UpdateUserMerge

open entity repository service gostrings persistence fixtures

variable {σ : Type}

/-- The entity the email block of `UpdateUser` goes on with: the stored one, with the
lowercased, trimmed update email when that is non-empty and differs as a raw string. -/
theorem mergeEmail_ok_eq (lib : Lib) (userRepo : UserRepository σ) (updates cur m : User)
    (w w' : World σ) (h : mergeEmail lib userRepo updates cur w = (Except.ok m, w')) :
    m = { cur with
          Email := if updates.Email ≠ "" ∧ updates.Email ≠ cur.Email then
                     TrimSpace (ToLower lib.caseTable updates.Email)
                   else cur.Email } := by
  unfold mergeEmail at h
  by_cases hc : updates.Email ≠ "" ∧ updates.Email ≠ cur.Email
  · rw [if_pos hc] at h
    rw [if_pos hc]
    cases hE : NewEmail lib.caseTable updates.Email with
    | error e => simp [hE] at h
    | ok email =>
      have hv := NewEmail_ok_value _ _ _ hE
      rcases hX : userRepo.ExistsByEmail email.Value w.db with ⟨⟨b, e⟩, db1⟩
      cases e with
      | some e => simp [hE, World.ExistsByEmail, hX] at h
      | none =>
        cases b with
        | true => simp [hE, World.ExistsByEmail, hX] at h
        | false =>
          simp [hE, World.ExistsByEmail, hX] at h
          rw [← h.1, hv]
  · rw [if_neg hc] at h
    rw [if_neg hc]
    simp at h
    rw [← h.1]

/-- The entity the username block of `UpdateUser` goes on with: the one it received, with the
trimmed update username when that is non-empty and differs as a raw string. -/
theorem mergeUsername_ok_eq (userRepo : UserRepository σ) (updates cur m : User)
    (w w' : World σ) (h : mergeUsername userRepo updates cur w = (Except.ok m, w')) :
    m = { cur with
          Username := if updates.Username ≠ "" ∧ updates.Username ≠ cur.Username then
                        TrimSpace updates.Username
                      else cur.Username } := by
  unfold mergeUsername at h
  by_cases hc : updates.Username ≠ "" ∧ updates.Username ≠ cur.Username
  · rw [if_pos hc] at h
    rw [if_pos hc]
    cases hU : NewUsername updates.Username with
    | error e => simp [hU] at h
    | ok username =>
      have hv := NewUsername_ok_value _ _ hU
      rcases hX : userRepo.ExistsByUsername username.Value w.db with ⟨⟨b, e⟩, db1⟩
      cases e with
      | some e => simp [hU, World.ExistsByUsername, hX] at h
      | none =>
        cases b with
        | true => simp [hU, World.ExistsByUsername, hX] at h
        | false =>
          simp [hU, World.ExistsByUsername, hX] at h
          rw [← h.1, hv]
  · rw [if_neg hc] at h
    rw [if_neg hc]
    simp at h
    rw [← h.1]

/-- The email block of `UpdateUser` calls neither `Update` nor `Create`. -/
theorem mergeEmail_no_write (lib : Lib) (userRepo : UserRepository σ) (updates cur : User)
    (w : World σ) :
    (mergeEmail lib userRepo updates cur w).2.calls.filter RepoCall.isUpdate =
      w.calls.filter RepoCall.isUpdate := by
  rw [mergeEmail_calls]
  split <;> simp [List.filter_append, RepoCall.isUpdate, List.filter]

/-- The username block of `UpdateUser` calls neither `Update` nor `Create`. -/
theorem mergeUsername_no_write (userRepo : UserRepository σ) (updates cur : User)
    (w : World σ) :
    (mergeUsername userRepo updates cur w).2.calls.filter RepoCall.isUpdate =
      w.calls.filter RepoCall.isUpdate := by
  rcases (mergeUsername_calls userRepo updates cur w).2 with h | h
  · rw [h]
  · rw [h]
    simp [List.filter_append, RepoCall.isUpdate, List.filter]

/-- Membership in the log seen through the `Update` calls. -/
theorem update_mem_iff_mem_filter (u : User) (l : List RepoCall) :
    RepoCall.Update u ∈ l ↔ RepoCall.Update u ∈ l.filter RepoCall.isUpdate := by
  simp [List.mem_filter, RepoCall.isUpdate]

/-- C11: for a stored user `cur`, the entity `UpdateUser` passes to `Update` is `cur` with the
merged fields only: the lowercased, trimmed update email and the trimmed update username when
these are non-empty and differ from the stored ones as raw strings, the update first and last
name verbatim when non-empty.  ID, password, `IsActive`, `IsAdmin` and the timestamps are
those of `cur` whatever the updates hold.  `Update` is called at most once, and it is called
with that entity whenever `UpdateUser` succeeds. -/
theorem updateUser_entity_given_to_Update (lib : Lib) (userRepo : UserRepository σ)
    (userID : UUID) (updates cur : User) (db db1 : σ)
    (hGet : userRepo.GetByID userID db = ((some cur, none), db1)) :
    (∀ u, RepoCall.Update u ∈ (UpdateUser lib userRepo userID updates ⟨db, []⟩).2.calls →
      u = { cur with
            Email := if updates.Email ≠ "" ∧ updates.Email ≠ cur.Email then
                       TrimSpace (ToLower lib.caseTable updates.Email)
                     else cur.Email,
            Username := if updates.Username ≠ "" ∧ updates.Username ≠ cur.Username then
                          TrimSpace updates.Username
                        else cur.Username,
            FirstName := if updates.FirstName ≠ "" then updates.FirstName else cur.FirstName,
            LastName := if updates.LastName ≠ "" then updates.LastName else cur.LastName }) ∧
    ((UpdateUser lib userRepo userID updates ⟨db, []⟩).2.calls.filter
      RepoCall.isUpdate).length ≤ 1 ∧
    ((UpdateUser lib userRepo userID updates ⟨db, []⟩).1 = none →
      ∃ u, RepoCall.Update u ∈ (UpdateUser lib userRepo userID updates ⟨db, []⟩).2.calls) := by
  have hshape :
      ((UpdateUser lib userRepo userID updates ⟨db, []⟩).2.calls.filter RepoCall.isUpdate = [] ∧
        (UpdateUser lib userRepo userID updates ⟨db, []⟩).1 ≠ none) ∨
      (UpdateUser lib userRepo userID updates ⟨db, []⟩).2.calls.filter RepoCall.isUpdate =
        [RepoCall.Update { cur with
            Email := if updates.Email ≠ "" ∧ updates.Email ≠ cur.Email then
                       TrimSpace (ToLower lib.caseTable updates.Email)
                     else cur.Email,
            Username := if updates.Username ≠ "" ∧ updates.Username ≠ cur.Username then
                          TrimSpace updates.Username
                        else cur.Username,
            FirstName := if updates.FirstName ≠ "" then updates.FirstName else cur.FirstName,
            LastName := if updates.LastName ≠ "" then updates.LastName else cur.LastName }] := by
    unfold UpdateUser
    simp only [World.GetByID, hGet, List.nil_append]
    have hw1 := mergeEmail_no_write lib userRepo updates cur ⟨db1, [RepoCall.GetByID userID]⟩
    rcases hME : mergeEmail lib userRepo updates cur ⟨db1, [RepoCall.GetByID userID]⟩
      with ⟨r1, w1⟩
    rw [hME] at hw1
    simp only [List.filter, RepoCall.isUpdate] at hw1
    cases r1 with
    | error e => left; simp [hw1]
    | ok m1 =>
      have hm1 := mergeEmail_ok_eq _ _ _ _ _ _ _ hME
      have hw2 := mergeUsername_no_write userRepo updates m1 w1
      rcases hMU : mergeUsername userRepo updates m1 w1 with ⟨r2, w2⟩
      rw [hMU] at hw2
      simp only [] at hw2 ⊢
      rw [hw1] at hw2
      cases r2 with
      | error e => left; simp [hMU, hw2]
      | ok m2 =>
        have hm2 := mergeUsername_ok_eq _ _ _ _ _ _ hMU
        right
        rcases hUp : userRepo.Update (mergeNames updates m2) w2.db with ⟨e3, db3⟩
        have hent : mergeNames updates m2 = { cur with
            Email := if updates.Email ≠ "" ∧ updates.Email ≠ cur.Email then
                       TrimSpace (ToLower lib.caseTable updates.Email)
                     else cur.Email,
            Username := if updates.Username ≠ "" ∧ updates.Username ≠ cur.Username then
                          TrimSpace updates.Username
                        else cur.Username,
            FirstName := if updates.FirstName ≠ "" then updates.FirstName else cur.FirstName,
            LastName := if updates.LastName ≠ "" then updates.LastName else cur.LastName } := by
          rw [hm2, hm1]
          unfold mergeNames
          by_cases h1 : updates.FirstName = "" <;> by_cases h2 : updates.LastName = "" <;>
            simp [h1, h2]
        rw [← hent]
        cases e3 <;>
          simp [hMU, World.Update, hUp, List.filter_append, hw2, List.filter, RepoCall.isUpdate]
  refine ⟨?_, ?_, ?_⟩
  · intro u hu
    rw [update_mem_iff_mem_filter] at hu
    rcases hshape with h | h
    · rw [h.1] at hu; cases hu
    · rw [h] at hu
      simpa using hu
  · rcases hshape with h | h
    · rw [h.1]; simp
    · rw [h]; simp
  · intro hok
    rcases hshape with h | h
    · exact absurd hok h.2
    · have hmem : ∀ x, x ∈ (UpdateUser lib userRepo userID updates ⟨db, []⟩).2.calls.filter
          RepoCall.isUpdate → x ∈ (UpdateUser lib userRepo userID updates ⟨db, []⟩).2.calls :=
        fun x hx => (List.mem_filter.1 hx).1
      rw [h] at hmem
      exact ⟨_, hmem _ (List.mem_singleton.2 rfl)⟩

/-- C11, witness: Bob's update carries a new spelling of his email, a new first name, and
`IsActive` and `IsAdmin` set; the entity given to `Update` is Bob with the normalised email and
the new first name, still not active and not an administrator. -/
theorem updateUser_entity_given_to_Update_witness :
    RepoCall.Update { bob with Email := "robert@example.com", FirstName := " Robert" } ∈
      (UpdateUser standInLib inMemoryRepository ⟨2⟩
        { carol with Email := "Robert@Example.com ", Username := "", FirstName := " Robert",
                     IsActive := true, IsAdmin := true }
        ⟨[alice, bob], []⟩).2.calls ∧
    { bob with Email := "robert@example.com", FirstName := " Robert" } =
      { bob with Email := "robert@example.com", FirstName := " Robert" } :=
  ⟨by decide,
   (updateUser_entity_given_to_Update standInLib inMemoryRepository ⟨2⟩
      { carol with Email := "Robert@Example.com ", Username := "", FirstName := " Robert",
                   IsActive := true, IsAdmin := true }
      bob [alice, bob] [alice, bob] (by decide)).1
      { bob with Email := "robert@example.com", FirstName := " Robert" } (by decide)⟩

end UpdateUserMerge

section ChangePasswordTheorems

open entity repository service gostrings persistence fixtures

variable {σ : Type}

/-- C12, counterexample: over a storage that refuses the write, `ChangePassword` with the right
old password and a valid new one fails ("failed to update password"), and `Update` has been
invoked: a failing case in which `Update` is invoked.  And over a database that cannot be
reached, `ChangePassword` fails with the error of `GetByID` wrapped ("failed to get user"),
which is neither `ErrUserNotFound` nor `ErrInvalidCredentials` nor `ErrPasswordTooShort`. -/
theorem changePassword_failing_update_counterexample :
    ((ChangePassword standInLib readOnlyRepository 0 ⟨1⟩ "wonderland" "looking-glass"
      ⟨[alice, bob], []⟩).1 =
      some (GoError.wrap "failed to update password: "
        (GoError.wrap "failed to update user: "
          (GoError.foreign "gorm" "driver: bad connection") "") "") ∧
    (ChangePassword standInLib readOnlyRepository 0 ⟨1⟩ "wonderland" "looking-glass"
      ⟨[alice, bob], []⟩).2.calls =
      [RepoCall.GetByID ⟨1⟩,
       RepoCall.Update { alice with Password := "$2a$10$looking-glass" }]) ∧
    (ChangePassword standInLib (offlineRepository "driver: bad connection") 0 ⟨1⟩
      "wonderland" "looking-glass" ⟨[alice, bob], []⟩ =
      (some (GoError.wrap "failed to get user: "
        (GoError.wrap "failed to get database connection: "
          (GoError.foreign "gorm" "driver: bad connection") "") ""),
       ⟨[alice, bob], [RepoCall.GetByID ⟨1⟩]⟩) ∧
     (GoError.wrap "failed to get user: "
        (GoError.wrap "failed to get database connection: "
          (GoError.foreign "gorm" "driver: bad connection") "") "").Is
        Sentinel.ErrUserNotFound = false ∧
     (GoError.wrap "failed to get user: "
        (GoError.wrap "failed to get database connection: "
          (GoError.foreign "gorm" "driver: bad connection") "") "").Is
        Sentinel.ErrInvalidCredentials = false ∧
     (GoError.wrap "failed to get user: "
        (GoError.wrap "failed to get database connection: "
          (GoError.foreign "gorm" "driver: bad connection") "") "").Is
        Sentinel.ErrPasswordTooShort = false) := by
  decide

/-- C12, as amended: `ChangePassword` first calls `GetByID`.  When that returns an error,
`ChangePassword` fails with that error wrapped ("failed to get user"), which is or wraps
`ErrUserNotFound` exactly when the error of `GetByID` does; when it returns no user and no
error, `ChangePassword` fails with `ErrUserNotFound`.  Otherwise it fails with
`ErrInvalidCredentials` when the old password does not verify, whatever the new password is;
otherwise with an error wrapping `ErrPasswordTooShort` when the new password has fewer than 8
bytes, and with the wrapped error of `HashPassword` whenever that fails.  In all these cases
the only repository call is `GetByID`.  When `HashPassword` returns a hash, `Update` is called
once, with the loaded entity changed only in `Password`, which is that hash, and
`ChangePassword` succeeds exactly when this `Update` does. -/
theorem changePassword_outcomes (lib : Lib) (userRepo : UserRepository σ) (rnd : Nat)
    (userID : UUID) (oldPassword newPassword : String) (db : σ) :
    (∀ found err db1, userRepo.GetByID userID db = ((found, some err), db1) →
      ChangePassword lib userRepo rnd userID oldPassword newPassword ⟨db, []⟩ =
        (some (GoError.wrap "failed to get user: " err ""),
         ⟨db1, [RepoCall.GetByID userID]⟩) ∧
      (GoError.wrap "failed to get user: " err "").Is Sentinel.ErrUserNotFound =
        err.Is Sentinel.ErrUserNotFound) ∧
    (∀ db1, userRepo.GetByID userID db = ((none, none), db1) →
      ChangePassword lib userRepo rnd userID oldPassword newPassword ⟨db, []⟩ =
        (some (GoError.sentinel Sentinel.ErrUserNotFound),
         ⟨db1, [RepoCall.GetByID userID]⟩)) ∧
    (∀ cur db1, userRepo.GetByID userID db = ((some cur, none), db1) →
      (VerifyPassword lib cur.Password oldPassword ≠ none →
        ChangePassword lib userRepo rnd userID oldPassword newPassword ⟨db, []⟩ =
          (some (GoError.sentinel Sentinel.ErrInvalidCredentials),
           ⟨db1, [RepoCall.GetByID userID]⟩)) ∧
      (VerifyPassword lib cur.Password oldPassword = none → golen newPassword < 8 →
        ChangePassword lib userRepo rnd userID oldPassword newPassword ⟨db, []⟩ =
          (some (GoError.wrap "failed to hash password: "
            (GoError.sentinel Sentinel.ErrPasswordTooShort) ""),
           ⟨db1, [RepoCall.GetByID userID]⟩) ∧
        (GoError.wrap "failed to hash password: "
          (GoError.sentinel Sentinel.ErrPasswordTooShort) "").Is
            Sentinel.ErrPasswordTooShort = true) ∧
      (VerifyPassword lib cur.Password oldPassword = none →
        ∀ e, HashPassword lib rnd newPassword = Except.error e →
        ChangePassword lib userRepo rnd userID oldPassword newPassword ⟨db, []⟩ =
          (some (GoError.wrap "failed to hash password: " e ""),
           ⟨db1, [RepoCall.GetByID userID]⟩)) ∧
      (VerifyPassword lib cur.Password oldPassword = none →
        ∀ hash, HashPassword lib rnd newPassword = Except.ok hash →
        (ChangePassword lib userRepo rnd userID oldPassword newPassword ⟨db, []⟩).2.calls =
          [RepoCall.GetByID userID, RepoCall.Update { cur with Password := hash }] ∧
        ((ChangePassword lib userRepo rnd userID oldPassword newPassword ⟨db, []⟩).1 = none ↔
          (userRepo.Update { cur with Password := hash } db1).1 = none) ∧
        (∀ err, (userRepo.Update { cur with Password := hash } db1).1 = some err →
          (ChangePassword lib userRepo rnd userID oldPassword newPassword ⟨db, []⟩).1 =
            some (GoError.wrap "failed to update password: " err "")))) := by
  refine ⟨?_, ?_, ?_⟩
  · intro found err db1 hG
    refine ⟨?_, rfl⟩
    cases found <;> simp [ChangePassword, World.GetByID, hG]
  · intro db1 hG
    simp [ChangePassword, World.GetByID, hG]
  · intro cur db1 hG
    refine ⟨?_, ?_, ?_, ?_⟩
    · intro hV
      cases hV' : VerifyPassword lib cur.Password oldPassword with
      | none => exact absurd hV' hV
      | some e => simp [ChangePassword, World.GetByID, hG, hV']
    · intro hV hLen
      have hH : HashPassword lib rnd newPassword =
          Except.error (GoError.sentinel Sentinel.ErrPasswordTooShort) := by
        simp [HashPassword, hLen]
      simp [ChangePassword, World.GetByID, hG, hV, hH, GoError.Is]
    · intro hV e hH
      simp [ChangePassword, World.GetByID, hG, hV, hH]
    · intro hV hash hH
      rcases hU : userRepo.Update { cur with Password := hash } db1 with ⟨e3, db3⟩
      cases e3 <;> simp [ChangePassword, World.GetByID, hG, hV, hH, World.Update, hU]

/-- C12, witness: Alice changes her password; the only write is one `Update` of Alice with the
new hash. -/
theorem changePassword_outcomes_witness :
    (ChangePassword standInLib inMemoryRepository 0 ⟨1⟩ "wonderland" "looking-glass"
      ⟨[alice, bob], []⟩).2.calls =
      [RepoCall.GetByID ⟨1⟩,
       RepoCall.Update { alice with Password := "$2a$10$looking-glass" }] ∧
    ((ChangePassword standInLib inMemoryRepository 0 ⟨1⟩ "wonderland" "looking-glass"
      ⟨[alice, bob], []⟩).1 = none ↔
      (inMemoryRepository.Update { alice with Password := "$2a$10$looking-glass" }
        [alice, bob]).1 = none) ∧
    (∀ err, (inMemoryRepository.Update { alice with Password := "$2a$10$looking-glass" }
        [alice, bob]).1 = some err →
      (ChangePassword standInLib inMemoryRepository 0 ⟨1⟩ "wonderland" "looking-glass"
        ⟨[alice, bob], []⟩).1 = some (GoError.wrap "failed to update password: " err "")) :=
  ((changePassword_outcomes standInLib inMemoryRepository 0 ⟨1⟩ "wonderland" "looking-glass"
    [alice, bob]).2.2 alice [alice, bob] (by decide)).2.2.2 (by decide)
    "$2a$10$looking-glass" (by decide)

end ChangePasswordTheorems

section RegexTheory

open goregexp

/-- An expression is nullable exactly when it matches the empty text. -/
theorem nullable_iff_matches_nil (r : Regex) : r.nullable = true ↔ Regex.Matches r [] := by
  induction r with
  | fail => constructor <;> intro h <;> cases h
  | eps => exact ⟨fun _ => Regex.Matches.eps, fun _ => rfl⟩
  | cls p => constructor <;> intro h <;> cases h
  | seq r s ihr ihs =>
    simp only [Regex.nullable, Bool.and_eq_true]
    constructor
    · rintro ⟨h1, h2⟩
      exact Regex.Matches.seq r s [] [] (ihr.1 h1) (ihs.1 h2)
    · intro h
      generalize hw : ([] : List Char) = w at h
      cases h with
      | seq _ _ u v hu hv =>
        have huv := List.append_eq_nil.1 hw.symm
        rw [huv.1] at hu
        rw [huv.2] at hv
        exact ⟨ihr.2 hu, ihs.2 hv⟩
  | alt r s ihr ihs =>
    simp only [Regex.nullable, Bool.or_eq_true]
    constructor
    · rintro (h | h)
      · exact Regex.Matches.altL r s [] (ihr.1 h)
      · exact Regex.Matches.altR r s [] (ihs.1 h)
    · intro h
      cases h with
      | altL _ _ _ h => exact Or.inl (ihr.2 h)
      | altR _ _ _ h => exact Or.inr (ihs.2 h)
  | star r _ => exact ⟨fun _ => Regex.Matches.starNil r, fun _ => rfl⟩

/-- A non-empty text matched by a repetition starts with a non-empty text matched by the
repeated expression. -/
theorem matches_star_cons_inv (r : Regex) (c : Char) (s : List Char)
    (h : Regex.Matches (Regex.star r) (c :: s)) :
    ∃ u v, s = u ++ v ∧ Regex.Matches r (c :: u) ∧ Regex.Matches (Regex.star r) v := by
  generalize hr : Regex.star r = r' at h
  generalize hw : c :: s = w at h
  induction h with
  | eps => cases hw
  | cls _ _ _ => cases hr
  | seq _ _ _ _ _ _ _ _ => cases hr
  | altL _ _ _ _ _ => cases hr
  | altR _ _ _ _ _ => cases hr
  | starNil _ => cases hw
  | starCons r0 u v hu hv _ ihv =>
    cases hr
    cases u with
    | nil => exact ihv rfl (by simpa using hw)
    | cons a u' =>
      simp only [List.cons_append, List.cons.injEq] at hw
      obtain ⟨hac, hs⟩ := hw
      subst hac
      exact ⟨u', v, hs, hu, hv⟩

/-- The derivative by `c` matches `s` exactly when the expression matches `c :: s`. -/
theorem matches_deriv_iff (r : Regex) (c : Char) :
    ∀ s : List Char, Regex.Matches (r.deriv c) s ↔ Regex.Matches r (c :: s) := by
  induction r with
  | fail => intro s; constructor <;> intro h <;> cases h
  | eps =>
    intro s
    constructor
    · intro h; cases h
    · intro h
      generalize hw : c :: s = w at h
      cases h
      cases hw
  | cls p =>
    intro s
    simp only [Regex.deriv]
    constructor
    · intro h
      by_cases hp : p c = true
      · rw [if_pos hp] at h
        generalize hw : s = w at h
        cases h
        exact Regex.Matches.cls p c hp
      · rw [if_neg hp] at h
        cases h
    · intro h
      generalize hw : c :: s = w at h
      cases h with
      | cls _ c' hp =>
        simp only [List.cons.injEq] at hw
        obtain ⟨hc, hs⟩ := hw
        subst hc hs
        rw [if_pos hp]
        exact Regex.Matches.eps
  | seq r1 r2 ih1 ih2 =>
    intro s
    simp only [Regex.deriv]
    constructor
    · intro h
      by_cases hn : r1.nullable = true
      · rw [if_pos hn] at h
        cases h with
        | altL _ _ _ h =>
          cases h with
          | seq _ _ u v hu hv =>
            have := Regex.Matches.seq r1 r2 (c :: u) v ((ih1 u).1 hu) hv
            simpa using this
        | altR _ _ _ h =>
          have := Regex.Matches.seq r1 r2 [] (c :: s) ((nullable_iff_matches_nil r1).1 hn)
            ((ih2 s).1 h)
          simpa using this
      · rw [if_neg hn] at h
        cases h with
        | seq _ _ u v hu hv =>
          have := Regex.Matches.seq r1 r2 (c :: u) v ((ih1 u).1 hu) hv
          simpa using this
    · intro h
      generalize hw : c :: s = w at h
      cases h with
      | seq _ _ u v hu hv =>
        cases u with
        | nil =>
          simp only [List.nil_append] at hw
          subst hw
          have hn := (nullable_iff_matches_nil r1).2 hu
          rw [if_pos hn]
          exact Regex.Matches.altR _ _ _ ((ih2 s).2 hv)
        | cons a u' =>
          simp only [List.cons_append, List.cons.injEq] at hw
          obtain ⟨hac, hs⟩ := hw
          subst hac hs
          have hd := Regex.Matches.seq (r1.deriv c) r2 u' v ((ih1 u').2 hu) hv
          by_cases hn : r1.nullable = true
          · rw [if_pos hn]
            exact Regex.Matches.altL _ _ _ hd
          · rw [if_neg hn]
            exact hd
  | alt r1 r2 ih1 ih2 =>
    intro s
    simp only [Regex.deriv]
    constructor
    · intro h
      cases h with
      | altL _ _ _ h => exact Regex.Matches.altL _ _ _ ((ih1 s).1 h)
      | altR _ _ _ h => exact Regex.Matches.altR _ _ _ ((ih2 s).1 h)
    · intro h
      cases h with
      | altL _ _ _ h => exact Regex.Matches.altL _ _ _ ((ih1 s).2 h)
      | altR _ _ _ h => exact Regex.Matches.altR _ _ _ ((ih2 s).2 h)
  | star r ih =>
    intro s
    simp only [Regex.deriv]
    constructor
    · intro h
      cases h with
      | seq _ _ u v hu hv =>
        have := Regex.Matches.starCons r (c :: u) v ((ih u).1 hu) hv
        simpa using this
    · intro h
      obtain ⟨u, v, hs, hu, hv⟩ := matches_star_cons_inv r c s h
      subst hs
      exact Regex.Matches.seq _ _ u v ((ih u).2 hu) hv

/-- The matcher decides the language: reading the text by derivatives ends in a nullable
expression exactly when the expression matches the text. -/
theorem foldl_deriv_nullable_iff :
    ∀ (s : List Char) (r : Regex), (s.foldl Regex.deriv r).nullable = true ↔ Regex.Matches r s := by
  intro s
  induction s with
  | nil => intro r; exact nullable_iff_matches_nil r
  | cons c s ih =>
    intro r
    rw [List.foldl_cons, ih, matches_deriv_iff]

/-- `MatchString` is true exactly on the texts the expression matches. -/
theorem MatchString_iff (r : Regex) (s : String) :
    r.MatchString s = true ↔ Regex.Matches r s.data :=
  foldl_deriv_nullable_iff s.data r

end RegexTheory

section CharClasses

open goregexp entity

/-- A character is the character of its code. -/
theorem char_eq_ofNat_toNat (c : Char) : c = Char.ofNat c.toNat :=
  (Char.ofNat_toNat c).symm

/-- The class `[a-z]` of the code holds exactly the letters `a-z`. -/
theorem lowerAZ_iff (c : Char) : lowerAZ c = true ↔ c ∈ specLowerLetters := by
  constructor
  · intro h
    simp only [lowerAZ, Bool.and_eq_true, decide_eq_true_eq] at h
    obtain ⟨h1, h2⟩ := h
    rw [char_eq_ofNat_toNat c]
    generalize c.toNat = n at h1 h2
    interval_cases n <;> decide
  · revert c
    decide

/-- The class `[A-Z]` of the code holds exactly the letters `A-Z`. -/
theorem upperAZ_iff (c : Char) :
    upperAZ c = true ↔ c ∈ "ABCDEFGHIJKLMNOPQRSTUVWXYZ".data := by
  constructor
  · intro h
    simp only [upperAZ, Bool.and_eq_true, decide_eq_true_eq] at h
    obtain ⟨h1, h2⟩ := h
    rw [char_eq_ofNat_toNat c]
    generalize c.toNat = n at h1 h2
    interval_cases n <;> decide
  · revert c
    decide

/-- The class `[0-9]` of the code holds exactly the ten digits. -/
theorem digit_iff (c : Char) : digit c = true ↔ c ∈ "0123456789".data := by
  constructor
  · intro h
    simp only [digit, Bool.and_eq_true, decide_eq_true_eq] at h
    obtain ⟨h1, h2⟩ := h
    rw [char_eq_ofNat_toNat c]
    generalize c.toNat = n at h1 h2
    interval_cases n <;> decide
  · revert c
    decide

end CharClasses

section Shapes

open goregexp entity gostrings

/-- The local class of the code holds exactly the characters the spec lists. -/
theorem emailLocalClass_iff (c : Char) : emailLocalClass c = true ↔ c ∈ specLocalChars := by
  have hl : specLocalChars =
      specLowerLetters ++ "0123456789".data ++ ['.', '_', '%', '+', '-'] := by decide
  rw [hl]
  simp only [emailLocalClass, Bool.or_eq_true, lowerAZ_iff, digit_iff, List.mem_append,
    beq_iff_eq, List.mem_cons, List.mem_singleton, List.not_mem_nil, or_false]
  tauto

/-- The domain class of the code holds exactly the characters the spec lists. -/
theorem emailDomainClass_iff (c : Char) : emailDomainClass c = true ↔ c ∈ specDomainChars := by
  have hl : specDomainChars = specLowerLetters ++ "0123456789".data ++ ['.', '-'] := by decide
  rw [hl]
  simp only [emailDomainClass, Bool.or_eq_true, lowerAZ_iff, digit_iff, List.mem_append,
    beq_iff_eq, List.mem_cons, List.mem_singleton, List.not_mem_nil, or_false]
  tauto

/-- The first-character class of the username pattern holds exactly the letters. -/
theorem usernameFirstClass_iff (c : Char) :
    (lowerAZ c || upperAZ c) = true ↔ c ∈ specLetters := by
  have hl : specLetters = "ABCDEFGHIJKLMNOPQRSTUVWXYZ".data ++ specLowerLetters := by decide
  rw [hl]
  simp only [Bool.or_eq_true, lowerAZ_iff, upperAZ_iff, List.mem_append]
  tauto

/-- The class of the further characters of the username pattern holds exactly
`[A-Za-z0-9_]`. -/
theorem usernameRestClass_iff (c : Char) :
    (lowerAZ c || upperAZ c || digit c || c == '_') = true ↔ c ∈ specUsernameChars := by
  have hl : specUsernameChars =
      "ABCDEFGHIJKLMNOPQRSTUVWXYZ".data ++ specLowerLetters ++ "0123456789".data ++ ['_'] := by
    decide
  rw [hl]
  simp only [Bool.or_eq_true, lowerAZ_iff, upperAZ_iff, digit_iff, List.mem_append,
    beq_iff_eq, List.mem_singleton]
  tauto

/-- What a character class matches. -/
theorem matches_cls_iff (p : Char → Bool) (w : List Char) :
    Regex.Matches (Regex.cls p) w ↔ ∃ c, w = [c] ∧ p c = true := by
  constructor
  · intro h
    cases h with
    | cls _ c hp => exact ⟨c, rfl, hp⟩
  · rintro ⟨c, rfl, hp⟩
    exact Regex.Matches.cls p c hp

/-- What a concatenation matches. -/
theorem matches_seq_iff (r s : Regex) (w : List Char) :
    Regex.Matches (Regex.seq r s) w ↔
      ∃ u v, w = u ++ v ∧ Regex.Matches r u ∧ Regex.Matches s v := by
  constructor
  · intro h
    cases h with
    | seq _ _ u v hu hv => exact ⟨u, v, rfl, hu, hv⟩
  · rintro ⟨u, v, rfl, hu, hv⟩
    exact Regex.Matches.seq r s u v hu hv

/-- What the repetition of a character class matches. -/
theorem matches_star_cls_iff (p : Char → Bool) :
    ∀ w : List Char, Regex.Matches (Regex.star (Regex.cls p)) w ↔ ∀ c ∈ w, p c = true := by
  intro w
  induction w with
  | nil => exact ⟨fun _ c hc => absurd hc (List.not_mem_nil c), fun _ => Regex.Matches.starNil _⟩
  | cons a w ih =>
    constructor
    · intro h
      obtain ⟨u, v, hw, hu, hv⟩ := matches_star_cons_inv _ a w h
      obtain ⟨c, hc, hp⟩ := (matches_cls_iff p _).1 hu
      simp only [List.cons.injEq] at hc
      obtain ⟨hac, hu'⟩ := hc
      subst hac hu'
      simp only [List.nil_append] at hw
      subst hw
      intro c hc
      rcases List.mem_cons.1 hc with h1 | h1
      · rw [h1]; exact hp
      · exact (ih.1 hv) c h1
    · intro h
      have ha := h a (List.mem_cons_self a w)
      have hw := ih.2 (fun c hc => h c (List.mem_cons_of_mem a hc))
      exact Regex.Matches.starCons _ [a] w (Regex.Matches.cls p a ha) hw

/-- What `[...]+` matches. -/
theorem matches_plus_cls_iff (p : Char → Bool) (w : List Char) :
    Regex.Matches (Regex.plus (Regex.cls p)) w ↔ w ≠ [] ∧ ∀ c ∈ w, p c = true := by
  unfold Regex.plus
  rw [matches_seq_iff]
  constructor
  · rintro ⟨u, v, rfl, hu, hv⟩
    obtain ⟨c, rfl, hp⟩ := (matches_cls_iff p _).1 hu
    refine ⟨by simp, ?_⟩
    intro d hd
    rcases List.mem_cons.1 hd with h1 | h1
    · rw [h1]; exact hp
    · exact ((matches_star_cls_iff p v).1 hv) d h1
  · rintro ⟨hne, hall⟩
    cases w with
    | nil => exact absurd rfl hne
    | cons a w =>
      exact ⟨[a], w, rfl, Regex.Matches.cls p a (hall a (List.mem_cons_self a w)),
        (matches_star_cls_iff p w).2 (fun c hc => hall c (List.mem_cons_of_mem a hc))⟩

/-- What `[...]{2,}` matches. -/
theorem matches_atLeastTwo_cls_iff (p : Char → Bool) (w : List Char) :
    Regex.Matches (Regex.atLeastTwo (Regex.cls p)) w ↔ 2 ≤ w.length ∧ ∀ c ∈ w, p c = true := by
  unfold Regex.atLeastTwo
  rw [matches_seq_iff]
  constructor
  · rintro ⟨u, v, rfl, hu, hv⟩
    obtain ⟨c, rfl, hp⟩ := (matches_cls_iff p _).1 hu
    obtain ⟨hne, hall⟩ := (matches_plus_cls_iff p v).1 hv
    refine ⟨?_, ?_⟩
    · cases v with
      | nil => exact absurd rfl hne
      | cons b v => simp
    · intro d hd
      rcases List.mem_cons.1 hd with h1 | h1
      · rw [h1]; exact hp
      · exact hall d h1
  · rintro ⟨hlen, hall⟩
    match w, hlen, hall with
    | a :: b :: w, _, hall =>
      refine ⟨[a], b :: w, rfl, Regex.Matches.cls p a (hall a (by simp)), ?_⟩
      exact (matches_plus_cls_iff p (b :: w)).2
        ⟨by simp, fun c hc => hall c (List.mem_cons_of_mem a hc)⟩

/-- The email pattern matches exactly the texts of the shape `local@domain.tld`. -/
theorem emailRegex_matches_iff (t : String) :
    emailRegex.MatchString t = true ↔ EmailShape t := by
  rw [MatchString_iff]
  unfold emailRegex EmailShape
  simp only [matches_seq_iff, matches_plus_cls_iff, matches_atLeastTwo_cls_iff,
    matches_cls_iff, emailLocalClass_iff, emailDomainClass_iff, lowerAZ_iff, beq_iff_eq]
  constructor
  · rintro ⟨loc, r1, h1, ⟨hl1, hl2⟩, at', r2, h2, ⟨c1, hc1, hc1'⟩, dom, r3, h3, ⟨hd1, hd2⟩,
      dot, tld, h4, ⟨c2, hc2, hc2'⟩, ht1, ht2⟩
    subst hc1' hc2' hc1 hc2 h4 h3 h2
    exact ⟨loc, dom, tld, by simpa using h1, hl1, hl2, hd1, hd2, ht1, ht2⟩
  · rintro ⟨loc, dom, tld, h1, hl1, hl2, hd1, hd2, ht1, ht2⟩
    exact ⟨loc, '@' :: (dom ++ '.' :: tld), h1, ⟨hl1, hl2⟩, ['@'], dom ++ '.' :: tld, rfl,
      ⟨'@', rfl, rfl⟩, dom, '.' :: tld, rfl, ⟨hd1, hd2⟩, ['.'], tld, rfl, ⟨'.', rfl, rfl⟩,
      ht1, ht2⟩

/-- The number of characters of a string is at most its number of bytes. -/
theorem length_le_golen (s : String) : s.length ≤ golen s := by
  show s.data.length ≤ (s.data.map runeLen).sum
  generalize s.data = l
  induction l with
  | nil => simp
  | cons c l ih =>
    have h1 : 1 ≤ runeLen c := by unfold runeLen; split_ifs <;> omega
    simp only [List.length_cons, List.map_cons, List.sum_cons]
    omega

/-- A string of one-byte characters has as many bytes as characters. -/
theorem golen_eq_length_of_ascii (s : String) (h : ∀ c ∈ s.data, runeLen c = 1) :
    golen s = s.length := by
  show (s.data.map runeLen).sum = s.data.length
  generalize s.data = l at h
  induction l with
  | nil => simp
  | cons c l ih =>
    simp only [List.length_cons, List.map_cons, List.sum_cons]
    rw [h c (List.mem_cons_self c l), ih (fun d hd => h d (List.mem_cons_of_mem c hd))]
    omega

/-- A text of the email shape is made of one-byte characters. -/
theorem emailShape_golen (t : String) (h : EmailShape t) : golen t = t.length := by
  apply golen_eq_length_of_ascii
  obtain ⟨loc, dom, tld, h1, _, hl, _, hd, _, ht⟩ := h
  have a1 : ∀ c ∈ specLocalChars, runeLen c = 1 := by decide
  have a2 : ∀ c ∈ specDomainChars, runeLen c = 1 := by decide
  have a3 : ∀ c ∈ specLowerLetters, runeLen c = 1 := by decide
  intro c hc
  rw [h1] at hc
  simp only [List.mem_append, List.mem_cons] at hc
  rcases hc with hc | hc | hc | hc | hc
  · exact a1 c (hl c hc)
  · rw [hc]; decide
  · exact a2 c (hd c hc)
  · rw [hc]; decide
  · exact a3 c (ht c hc)

end Shapes

section NewEmailTheorems

open goregexp entity gostrings fixtures

/-- Validity of a normalised email in the words of the spec. -/
theorem isValidEmail_iff (t : String) :
    isValidEmail t = true ↔ t.length ≤ 255 ∧ EmailShape t := by
  unfold isValidEmail
  constructor
  · intro h
    split at h
    · cases h
    · rename_i hlen
      have hshape := (emailRegex_matches_iff t).1 h
      have := length_le_golen t
      exact ⟨by omega, hshape⟩
  · rintro ⟨hlen, hshape⟩
    have hg := emailShape_golen t hshape
    rw [if_neg (by omega)]
    exact (emailRegex_matches_iff t).2 hshape

/-- Lowercasing and trimming commute when lowercasing keeps white space white space and
everything else not white space, as the Unicode case tables do. -/
theorem TrimSpace_ToLower_comm (caseTable : Char → Char) (s : String)
    (hSpace : ∀ c, isSpace (toLowerRune caseTable c) = isSpace c) :
    TrimSpace (ToLower caseTable s) = ToLower caseTable (TrimSpace s) := by
  have hcomp : (isSpace ∘ toLowerRune caseTable) = isSpace := funext hSpace
  unfold TrimSpace ToLower
  simp only [List.dropWhile_map, hcomp, ← List.map_reverse]

/-- C13: let `t` be the input lowercased and trimmed.  If `t` has at most 255 characters and
the shape `local@domain.tld` of the spec, `NewEmail` succeeds and its value is `t`; for every
other input it fails with an error wrapping `ErrInvalidEmail`.  (Lowercasing and trimming
commute for case tables that respect white space, so `t` is also the trimmed input
lowercased.) -/
theorem newEmail_succeeds_iff_shape (caseTable : Char → Char) (s : String) :
    ((TrimSpace (ToLower caseTable s)).length ≤ 255 ∧
        EmailShape (TrimSpace (ToLower caseTable s)) →
      NewEmail caseTable s = Except.ok ⟨TrimSpace (ToLower caseTable s)⟩ ∧
      (Email.mk (TrimSpace (ToLower caseTable s))).Value = TrimSpace (ToLower caseTable s)) ∧
    (¬ ((TrimSpace (ToLower caseTable s)).length ≤ 255 ∧
        EmailShape (TrimSpace (ToLower caseTable s))) →
      ∃ err, NewEmail caseTable s = Except.error err ∧
        err.Is Sentinel.ErrInvalidEmail = true) ∧
    ((∀ c, isSpace (toLowerRune caseTable c) = isSpace c) →
      TrimSpace (ToLower caseTable s) = ToLower caseTable (TrimSpace s)) := by
  refine ⟨?_, ?_, TrimSpace_ToLower_comm caseTable s⟩
  · intro h
    have hv := (isValidEmail_iff _).2 h
    simp [NewEmail, hv, Email.Value]
  · intro h
    have hv : isValidEmail (TrimSpace (ToLower caseTable s)) = false := by
      cases hb : isValidEmail (TrimSpace (ToLower caseTable s)) with
      | false => rfl
      | true => exact absurd ((isValidEmail_iff _).1 hb) h
    simp [NewEmail, hv, GoError.Is]

/-- C13, witness: " Alice@Example.COM " has the shape with local part "alice", domain
"example" and top-level domain "com". -/
theorem newEmail_succeeds_iff_shape_witness :
    NewEmail standInLib.caseTable " Alice@Example.COM " = Except.ok ⟨"alice@example.com"⟩ ∧
    (Email.mk "alice@example.com").Value = "alice@example.com" :=
  (newEmail_succeeds_iff_shape standInLib.caseTable " Alice@Example.COM ").1
    ⟨by decide, "alice".data, "example".data, "com".data, by decide, by decide, by decide,
      by decide, by decide, by decide, by decide⟩

end NewEmailTheorems

section NewEmailLength

open goregexp entity gostrings fixtures

set_option maxRecDepth 100000 in
/-- C14, counterexample: an input of 257 characters, 240 spaces followed by
"alice@example.com", is accepted: the length is checked after trimming. -/
theorem newEmail_long_input_counterexample :
    255 < (String.mk (List.replicate 240 ' ' ++ "alice@example.com".data)).length ∧
    NewEmail standInLib.caseTable
      (String.mk (List.replicate 240 ' ' ++ "alice@example.com".data)) =
      Except.ok ⟨"alice@example.com"⟩ := by
  decide

/-- C14, as amended: `NewEmail` fails, with an error wrapping `ErrInvalidEmail`, for every
input whose lowercased, trimmed form is longer than 255 bytes, and so for every input whose
lowercased, trimmed form is longer than 255 characters. -/
theorem newEmail_rejects_long_normalised (caseTable : Char → Char) (s : String)
    (hLong : 255 < golen (TrimSpace (ToLower caseTable s)) ∨
      255 < (TrimSpace (ToLower caseTable s)).length) :
    ∃ err, NewEmail caseTable s = Except.error err ∧
      err.Is Sentinel.ErrInvalidEmail = true := by
  have hlen : 255 < golen (TrimSpace (ToLower caseTable s)) := by
    rcases hLong with h | h
    · exact h
    · have := length_le_golen (TrimSpace (ToLower caseTable s))
      omega
  have hv : isValidEmail (TrimSpace (ToLower caseTable s)) = false := by
    unfold isValidEmail
    rw [if_pos hlen]
  simp [NewEmail, hv, GoError.Is]

set_option maxRecDepth 100000 in
/-- C14, witness: a local part of 244 letters gives an address of 256 characters. -/
theorem newEmail_rejects_long_normalised_witness :
    ∃ err, NewEmail standInLib.caseTable
        (String.mk (List.replicate 244 'a' ++ "@example.com".data)) = Except.error err ∧
      err.Is Sentinel.ErrInvalidEmail = true :=
  newEmail_rejects_long_normalised standInLib.caseTable
    (String.mk (List.replicate 244 'a' ++ "@example.com".data)) (Or.inr (by decide))

end NewEmailLength

section NewUsernameTheorems

open goregexp entity gostrings fixtures

/-- The username pattern matches exactly the texts that start with a letter and go on with
characters of `[A-Za-z0-9_]`. -/
theorem usernameRegex_matches_iff (t : String) :
    usernameRegex.MatchString t = true ↔
      ∃ c rest, t.data = c :: rest ∧ c ∈ specLetters ∧ ∀ d ∈ rest, d ∈ specUsernameChars := by
  rw [MatchString_iff]
  unfold usernameRegex
  simp only [matches_seq_iff, matches_star_cls_iff, matches_cls_iff, usernameFirstClass_iff,
    usernameRestClass_iff]
  constructor
  · rintro ⟨u, v, h, ⟨c, rfl, hc⟩, hv⟩
    exact ⟨c, v, by simpa using h, hc, hv⟩
  · rintro ⟨c, rest, h, hc, hrest⟩
    exact ⟨[c], rest, by simpa using h, ⟨c, rfl, hc⟩, hrest⟩

/-- `validateUsername` accepts exactly the texts the spec does not reject. -/
theorem validateUsername_eq_none_iff (t : String) :
    validateUsername t = none ↔ ¬ UsernameRejected t := by
  have ascii : ∀ c ∈ specUsernameChars, runeLen c = 1 := by decide
  have letters : ∀ c ∈ specLetters, c ∈ specUsernameChars := by decide
  constructor
  · intro h
    unfold validateUsername at h
    split at h
    · cases h
    · split at h
      · cases h
      · split at h
        · cases h
        · rename_i h3 h100 hre
          have hm : usernameRegex.MatchString t = true := by
            cases hb : usernameRegex.MatchString t with
            | true => rfl
            | false => rw [hb] at hre; exact absurd rfl hre
          obtain ⟨c, rest, hdata, hc, hrest⟩ := (usernameRegex_matches_iff t).1 hm
          have hall : ∀ d ∈ t.data, d ∈ specUsernameChars := by
            intro d hd
            rw [hdata] at hd
            rcases List.mem_cons.1 hd with h1 | h1
            · rw [h1]; exact letters c hc
            · exact hrest d h1
          have hg := golen_eq_length_of_ascii t (fun d hd => ascii d (hall d hd))
          unfold UsernameRejected
          rintro (hr | hr | hr | ⟨d, hd, hnot⟩)
          · omega
          · omega
          · exact hr c (by rw [hdata]; rfl) hc
          · exact hnot (hall d hd)
  · intro h
    unfold UsernameRejected at h
    simp only [not_or, not_lt, not_forall, not_exists, not_and, not_not, gt_iff_lt] at h
    obtain ⟨h3, h100, ⟨c, hhead, hc⟩, hall⟩ := h
    have hg := golen_eq_length_of_ascii t (fun d hd => ascii d (hall d hd))
    have hm : usernameRegex.MatchString t = true := by
      rw [usernameRegex_matches_iff]
      cases hdata : t.data with
      | nil => rw [hdata] at hhead; cases hhead
      | cons a rest =>
        rw [hdata] at hhead
        simp only [List.head?_cons, Option.some.injEq] at hhead
        subst hhead
        exact ⟨a, rest, rfl, hc, fun d hd => hall d (by rw [hdata]; exact List.mem_cons_of_mem a hd)⟩
    unfold validateUsername
    rw [if_neg (by omega), if_neg (by omega), hm]
    rfl

/-- C15: let `t` be the trimmed input.  `NewUsername` fails with an error wrapping
`ErrInvalidUsername` if `t` has fewer than 3 or more than 100 characters, or does not start
with a letter, or holds a character outside `[A-Za-z0-9_]`; in every other case it succeeds
and its value is `t`. -/
theorem newUsername_fails_iff_rejected (s : String) :
    (UsernameRejected (TrimSpace s) →
      ∃ err, NewUsername s = Except.error err ∧ err.Is Sentinel.ErrInvalidUsername = true) ∧
    (¬ UsernameRejected (TrimSpace s) →
      NewUsername s = Except.ok ⟨TrimSpace s⟩ ∧
      (Username.mk (TrimSpace s)).Value = TrimSpace s) := by
  constructor
  · intro h
    cases hv : validateUsername (TrimSpace s) with
    | none => exact absurd h ((validateUsername_eq_none_iff _).1 hv)
    | some err =>
      have hN : NewUsername s = Except.error err := by simp [NewUsername, hv]
      exact ⟨err, hN, NewUsername_error_is s err hN⟩
  · intro h
    have hv := (validateUsername_eq_none_iff _).2 h
    simp [NewUsername, hv, Username.Value]

/-- C15, witness: "1alice" does not start with a letter. -/
theorem newUsername_fails_iff_rejected_witness :
    ∃ err, NewUsername " 1alice " = Except.error err ∧
      err.Is Sentinel.ErrInvalidUsername = true :=
  (newUsername_fails_iff_rejected " 1alice ").1
    (Or.inr (Or.inr (Or.inl (by
      intro c hc
      have h1 : c = '1' := by
        have : (TrimSpace " 1alice ").data.head? = some '1' := by decide
        rw [this] at hc
        exact (Option.some.inj hc).symm
      rw [h1]
      decide))))

end NewUsernameTheorems

section NewPersonNameTheorems

open entity gostrings service fixtures

/-- What `NewPersonName` decides: it succeeds if and only if, after trimming both names, at
least one of them is non-empty and each has at most 100 bytes; on success the first and last
name are the trimmed values. -/
theorem newPersonName_succeeds_iff (first last : String) :
    ((∃ name, NewPersonName first last = Except.ok name) ↔
      (¬ (TrimSpace first = "" ∧ TrimSpace last = "") ∧
        golen (TrimSpace first) ≤ 100 ∧ golen (TrimSpace last) ≤ 100)) ∧
    (∀ name, NewPersonName first last = Except.ok name →
      name.FirstName = TrimSpace first ∧ name.LastName = TrimSpace last) := by
  refine ⟨?_, fun name h => NewPersonName_ok_value first last name h⟩
  unfold NewPersonName
  simp only []
  by_cases hEmpty : TrimSpace first = "" ∧ TrimSpace last = ""
  · rw [if_pos hEmpty]
    simp [hEmpty]
  · rw [if_neg hEmpty]
    by_cases hLong : golen (TrimSpace first) > 100 ∨ golen (TrimSpace last) > 100
    · rw [if_pos hLong]
      constructor
      · rintro ⟨name, h⟩
        cases h
      · rintro ⟨_, h1, h2⟩
        rcases hLong with h | h <;> omega
    · rw [if_neg hLong]
      simp only [not_or, not_lt, gt_iff_lt] at hLong
      simp [hEmpty, hLong]

/-- C16, the code at the failing input, with what the guard of `NewPersonName` does decide:
`NewPersonName` succeeds if and only if, after trimming both names, at least one of them is
non-empty and each has at most 100 bytes, and on success the first and last name are the
trimmed values; and the first name of 34 characters "日", which is not empty and has at most
100 characters but 102 bytes, is refused with "name too long". -/
theorem newPersonName_length_guard_counts_bytes :
    (∀ first last : String,
      ((∃ name, NewPersonName first last = Except.ok name) ↔
        (¬ (TrimSpace first = "" ∧ TrimSpace last = "") ∧
          golen (TrimSpace first) ≤ 100 ∧ golen (TrimSpace last) ≤ 100)) ∧
      (∀ name, NewPersonName first last = Except.ok name →
        name.FirstName = TrimSpace first ∧ name.LastName = TrimSpace last)) ∧
    (TrimSpace (String.mk (List.replicate 34 '日')) ≠ "" ∧
      (TrimSpace (String.mk (List.replicate 34 '日'))).length = 34 ∧
      (TrimSpace "").length = 0 ∧
      golen (TrimSpace (String.mk (List.replicate 34 '日'))) = 102 ∧
      NewPersonName (String.mk (List.replicate 34 '日')) "" =
        Except.error (GoError.errorf "name too long")) := by
  refine ⟨fun first last => newPersonName_succeeds_iff first last, by decide⟩

end NewPersonNameTheorems

section HashPasswordTheorems

open entity gostrings service fixtures

/-- C17, the code at the failing input, with what the guard of `HashPassword` does decide:
a plaintext of fewer than 8 bytes gives `ErrPasswordTooShort` and `bcrypt` is not consulted
(the result is the same for every `bcrypt`); a plaintext of 8 or more bytes never gives an
error that is or wraps `ErrPasswordTooShort`; and the plaintext "пароль1", of 7 characters
and 13 bytes, is hashed. -/
theorem hashPassword_length_guard_counts_bytes :
    (∀ (lib lib2 : Lib) (rnd rnd2 : Nat) (password : String), golen password < 8 →
      HashPassword lib rnd password =
        Except.error (GoError.sentinel Sentinel.ErrPasswordTooShort) ∧
      HashPassword lib rnd password = HashPassword lib2 rnd2 password) ∧
    (∀ (lib : Lib) (rnd : Nat) (password : String) (err : GoError), 8 ≤ golen password →
      HashPassword lib rnd password = Except.error err →
      err.Is Sentinel.ErrPasswordTooShort = false) ∧
    ("пароль1".length = 7 ∧ golen "пароль1" = 13 ∧
      HashPassword standInLib 0 "пароль1" = Except.ok "$2a$10$пароль1") := by
  refine ⟨?_, ?_, by decide⟩
  · intro lib lib2 rnd rnd2 password h
    simp [HashPassword, h]
  · intro lib rnd password err h hH
    unfold HashPassword at hH
    rw [if_neg (by omega)] at hH
    cases hG : lib.bcrypt.GenerateFromPassword rnd password bcryptDefaultCost with
    | error msg =>
      rw [hG] at hH
      cases hH
      rfl
    | ok hash =>
      rw [hG] at hH
      cases hH

end HashPasswordTheorems

section HashRoundTrip

open entity gostrings service fixtures

/-- The stand-in for `bcrypt` keeps the contract of `bcrypt` for the hashes it makes: it accepts
the plaintext behind the hash and refuses every other plaintext. -/
theorem standInBcrypt_contract (p q : String) :
    standInBcrypt.CompareHashAndPassword ("$2a$10$" ++ p) q = none ↔ q = p := by
  unfold standInBcrypt
  simp only []
  constructor
  · intro h
    by_contra hne
    have hne2 : ¬ ("$2a$10$" ++ p = "$2a$10$" ++ q) := by
      intro heq
      have hd := congrArg String.data heq
      simp only [String.data_append] at hd
      exact hne (String.ext (List.append_cancel_left hd).symm)
    rw [if_neg hne2] at h
    cases h
  · intro h
    subst h
    simp

/-- C1, counterexample: a plaintext of 80 characters, so of 8 or more, for which
`HashPassword` does not succeed: `bcrypt` refuses a plaintext of more than 72 bytes, and
`HashPassword` returns that error. -/
theorem hashPassword_long_plaintext_counterexample :
    8 ≤ "aaaaaaaaaaaaaaaaaaaaaaaaaaaaaaaaaaaaaaaaaaaaaaaaaaaaaaaaaaaaaaaaaaaaaaaaaaaaaaaa".length ∧
    HashPassword standInLib 0
      "aaaaaaaaaaaaaaaaaaaaaaaaaaaaaaaaaaaaaaaaaaaaaaaaaaaaaaaaaaaaaaaaaaaaaaaaaaaaaaaa" =
      Except.error (GoError.foreign "bcrypt" "bcrypt: password length exceeds 72 bytes") := by
  decide

/-- C1, as amended: the round trip relative to `bcrypt`.  For every plaintext `p` of 8 or more
characters, `HashPassword` returns the error of `bcrypt.GenerateFromPassword` when that
refuses `p`, and the hash `h` it generates otherwise.  For that `h` and every plaintext `q`,
`VerifyPassword` returns `nil` exactly when `bcrypt.CompareHashAndPassword` accepts `q`; so
when `bcrypt` keeps its contract for `h` (it accepts `p` and refuses every plaintext other
than `p`), `VerifyPassword` returns `nil` for `p` and an error for every plaintext other than
`p`. -/
theorem hashPassword_round_trip (lib : Lib) (rnd : Nat) (p : String) (hLen : 8 ≤ p.length) :
    (∀ msg, lib.bcrypt.GenerateFromPassword rnd p bcryptDefaultCost = Except.error msg →
      HashPassword lib rnd p = Except.error (GoError.foreign "bcrypt" msg)) ∧
    (∀ h, lib.bcrypt.GenerateFromPassword rnd p bcryptDefaultCost = Except.ok h →
      HashPassword lib rnd p = Except.ok h ∧
      (∀ q, VerifyPassword lib h q = none ↔ lib.bcrypt.CompareHashAndPassword h q = none) ∧
      (lib.bcrypt.CompareHashAndPassword h p = none →
        (∀ q, q ≠ p → lib.bcrypt.CompareHashAndPassword h q ≠ none) →
        VerifyPassword lib h p = none ∧ ∀ q, q ≠ p → VerifyPassword lib h q ≠ none)) := by
  have hBytes : ¬ golen p < 8 := by
    have := length_le_golen p
    omega
  have hV : ∀ h q, VerifyPassword lib h q = none ↔
      lib.bcrypt.CompareHashAndPassword h q = none := by
    intro h q
    unfold VerifyPassword
    cases lib.bcrypt.CompareHashAndPassword h q <;> simp
  constructor
  · intro msg hG
    simp [HashPassword, hBytes, hG]
  · intro h hG
    refine ⟨by simp [HashPassword, hBytes, hG], hV h, ?_⟩
    intro hAcc hRej
    refine ⟨(hV h p).2 hAcc, ?_⟩
    intro q hq hv
    exact hRej q hq ((hV h q).1 hv)

/-- C1, witness: the plaintext "s3cretpass" over the stand-in for `bcrypt`. -/
theorem hashPassword_round_trip_witness :
    VerifyPassword standInLib "$2a$10$s3cretpass" "s3cretpass" = none ∧
      ∀ q, q ≠ "s3cretpass" → VerifyPassword standInLib "$2a$10$s3cretpass" q ≠ none :=
  ((hashPassword_round_trip standInLib 0 "s3cretpass" (by decide)).2 "$2a$10$s3cretpass"
    (by decide)).2.2 (by decide)
    (fun q hq hc => hq ((standInBcrypt_contract "s3cretpass" q).1 hc))

end HashRoundTrip

section Float64Rounding

open gonum

/-- The logarithm by halving is a lower bound: `2 ^ log ≤ n`. -/
theorem pow_log2Aux_le : ∀ (fuel n : Nat), 1 ≤ n → 2 ^ log2Aux fuel n ≤ n := by
  intro fuel
  induction fuel with
  | zero => intro n hn; simpa [log2Aux] using hn
  | succ fuel ih =>
    intro n hn
    unfold log2Aux
    by_cases h2 : n < 2
    · rw [if_pos h2]; simpa using hn
    · rw [if_neg h2]
      have hhalf : 1 ≤ n / 2 := by omega
      have := ih (n / 2) hhalf
      rw [pow_succ]
      omega

/-- The binary logarithm is a lower bound: `2 ^ log2Floor n ≤ n`. -/
theorem pow_log2Floor_le (n : Nat) (hn : 1 ≤ n) : 2 ^ log2Floor n ≤ n :=
  pow_log2Aux_le n n hn

/-- Rounding a quotient `N' / D'` to the nearest integer moves it by at most one half. -/
theorem round_half (N' D' : Nat) (hD : 0 < D') :
    2 * ((if 2 * (N' % D') < D' then N' / D'
          else if D' < 2 * (N' % D') then N' / D' + 1
          else if N' / D' % 2 = 0 then N' / D' else N' / D' + 1) * D') ≤ 2 * N' + D' ∧
    2 * N' ≤
      2 * ((if 2 * (N' % D') < D' then N' / D'
          else if D' < 2 * (N' % D') then N' / D' + 1
          else if N' / D' % 2 = 0 then N' / D' else N' / D' + 1) * D') + D' := by
  have hdiv : N' / D' * D' + N' % D' = N' := Nat.div_add_mod' N' D'
  have hmod : N' % D' < D' := Nat.mod_lt N' hD
  generalize N' / D' = q at hdiv
  generalize N' % D' = r at hdiv hmod
  have hsucc : (q + 1) * D' = q * D' + D' := by ring
  generalize hx : q * D' = x at hdiv hsucc
  split_ifs <;> simp only [hx, hsucc] <;> omega

/-- With enough fuel the logarithm by halving is also an upper bound: `n < 2 ^ (log + 1)`. -/
theorem lt_pow_log2Aux_succ : ∀ (fuel n : Nat), n ≤ fuel → n < 2 ^ (log2Aux fuel n + 1) := by
  intro fuel
  induction fuel with
  | zero => intro n hn; simp [log2Aux]; omega
  | succ fuel ih =>
    intro n hn
    unfold log2Aux
    by_cases h2 : n < 2
    · rw [if_pos h2]; simpa using h2
    · rw [if_neg h2]
      have := ih (n / 2) (by omega)
      rw [pow_succ]
      omega

/-- The binary logarithm is exact: `n < 2 ^ (log2Floor n + 1)`. -/
theorem lt_pow_log2Floor_succ (n : Nat) : n < 2 ^ (log2Floor n + 1) :=
  lt_pow_log2Aux_succ n n (Nat.le_refl n)

/-- The scaled quotient of `roundNearestEven` is at least `2^52`: the mantissa has 53 bits. -/
theorem scaled_mantissa_ge (N D : Nat) (hN : 0 < N) (hD : 0 < D) :
    D * 2 ^ (log2Floor (N * 2 ^ (log2Floor D + 1) / D) - (52 + (log2Floor D + 1))) * 2 ^ 52 ≤
      N * 2 ^ ((52 + (log2Floor D + 1)) - log2Floor (N * 2 ^ (log2Floor D + 1) / D)) := by
  have hDlt := lt_pow_log2Floor_succ D
  generalize log2Floor D + 1 = K at hDlt ⊢
  have hQ : 1 ≤ N * 2 ^ K / D := by
    rw [Nat.one_le_div_iff hD]
    calc D ≤ 2 ^ K := Nat.le_of_lt hDlt
      _ ≤ N * 2 ^ K := Nat.le_mul_of_pos_left _ hN
  have hb := pow_log2Floor_le _ hQ
  have hdiv : N * 2 ^ K / D * D ≤ N * 2 ^ K := Nat.div_mul_le_self _ _
  generalize log2Floor (N * 2 ^ K / D) = b at hb ⊢
  have hstar : 2 ^ b * D ≤ N * 2 ^ K :=
    le_trans (Nat.mul_le_mul_right D hb) hdiv
  by_cases hba : b ≤ 52 + K
  · obtain ⟨d, hd⟩ := Nat.exists_eq_add_of_le hba
    have h0 : b - (52 + K) = 0 := by omega
    have h1 : 52 + K - b = d := by omega
    rw [h0, h1, pow_zero, mul_one]
    have hpos : 0 < 2 ^ b := Nat.pow_pos (by norm_num)
    apply Nat.le_of_mul_le_mul_left _ hpos
    calc 2 ^ b * (D * 2 ^ 52) = 2 ^ b * D * 2 ^ 52 := by ring
      _ ≤ N * 2 ^ K * 2 ^ 52 := Nat.mul_le_mul_right _ hstar
      _ = N * 2 ^ (52 + K) := by rw [pow_add]; ring
      _ = N * 2 ^ (b + d) := by rw [hd]
      _ = 2 ^ b * (N * 2 ^ d) := by rw [pow_add]; ring
  · have hab : 52 + K ≤ b := by omega
    obtain ⟨d, hd⟩ := Nat.exists_eq_add_of_le hab
    have h0 : 52 + K - b = 0 := by omega
    have h1 : b - (52 + K) = d := by omega
    rw [h0, h1, pow_zero, mul_one]
    have hpos : 0 < 2 ^ K := Nat.pow_pos (by norm_num)
    apply Nat.le_of_mul_le_mul_left _ hpos
    calc 2 ^ K * (D * 2 ^ d * 2 ^ 52) = 2 ^ (52 + K + d) * D := by
          rw [pow_add, pow_add]; ring
      _ = 2 ^ b * D := by rw [hd]
      _ ≤ N * 2 ^ K := hstar
      _ = 2 ^ K * N := by ring

/-- The floating-point quotient is within a relative distance of `2^-53` of the exact one:
with `(A, B) = roundNearestEven N D`, `|A / B - N / D| ≤ (N / D) / 2^53`. -/
theorem roundNearestEven_error (N D : Nat) (hN : 0 < N) (hD : 0 < D) :
    0 < (roundNearestEven N D).2 ∧
    (roundNearestEven N D).1 * D * 2 ^ 53 ≤
      N * (roundNearestEven N D).2 * 2 ^ 53 + N * (roundNearestEven N D).2 ∧
    N * (roundNearestEven N D).2 * 2 ^ 53 ≤
      (roundNearestEven N D).1 * D * 2 ^ 53 + N * (roundNearestEven N D).2 := by
  have hmant := scaled_mantissa_ge N D hN hD
  unfold roundNearestEven
  rw [if_neg (by omega)]
  simp only []
  generalize 52 + (log2Floor D + 1) = a at hmant ⊢
  generalize log2Floor (N * 2 ^ (log2Floor D + 1) / D) = b at hmant ⊢
  have hD' : 0 < D * 2 ^ (b - a) := Nat.mul_pos hD (Nat.pow_pos (by norm_num))
  obtain ⟨hr1, hr2⟩ := round_half (N * 2 ^ (a - b)) (D * 2 ^ (b - a)) hD'
  generalize (if 2 * (N * 2 ^ (a - b) % (D * 2 ^ (b - a))) < D * 2 ^ (b - a) then
      N * 2 ^ (a - b) / (D * 2 ^ (b - a))
    else if D * 2 ^ (b - a) < 2 * (N * 2 ^ (a - b) % (D * 2 ^ (b - a))) then
      N * 2 ^ (a - b) / (D * 2 ^ (b - a)) + 1
    else if N * 2 ^ (a - b) / (D * 2 ^ (b - a)) % 2 = 0 then
      N * 2 ^ (a - b) / (D * 2 ^ (b - a))
    else N * 2 ^ (a - b) / (D * 2 ^ (b - a)) + 1) = m at hr1 hr2 ⊢
  have hAD : m * 2 ^ (b - a) * D = m * (D * 2 ^ (b - a)) := by ring
  rw [hAD]
  generalize m * (D * 2 ^ (b - a)) = X at hr1 hr2 ⊢
  generalize N * 2 ^ (a - b) = Y at hr1 hr2 hmant ⊢
  generalize D * 2 ^ (b - a) = Z at hr1 hr2 hmant hD' ⊢
  refine ⟨Nat.pow_pos (by norm_num), ?_, ?_⟩ <;> omega

/-- A quotient that is an integer below `2^53` is a `float64`: rounding returns it. -/
theorem roundNearestEven_exact (k D : Nat) (hk : 0 < k) (hk53 : k < 2 ^ 53) (hD : 0 < D) :
    0 < (roundNearestEven (k * D) D).2 ∧
    (roundNearestEven (k * D) D).1 = k * (roundNearestEven (k * D) D).2 := by
  have hN : 0 < k * D := Nat.mul_pos hk hD
  unfold roundNearestEven
  rw [if_neg (by omega)]
  simp only []
  generalize log2Floor D + 1 = K
  have hQeq : k * D * 2 ^ K / D = k * 2 ^ K := by
    rw [show k * D * 2 ^ K = D * (k * 2 ^ K) by ring]
    exact Nat.mul_div_cancel_left _ hD
  rw [hQeq]
  have hQ : 1 ≤ k * 2 ^ K := Nat.mul_pos hk (Nat.pow_pos (by norm_num))
  have hb := pow_log2Floor_le _ hQ
  generalize log2Floor (k * 2 ^ K) = b at hb ⊢
  have hlt : 2 ^ b < 2 ^ (53 + K) := by
    calc 2 ^ b ≤ k * 2 ^ K := hb
      _ < 2 ^ 53 * 2 ^ K := Nat.mul_lt_mul_of_pos_right hk53 (Nat.pow_pos (by norm_num))
      _ = 2 ^ (53 + K) := by rw [pow_add]
  have hba : b < 53 + K := (Nat.pow_lt_pow_iff_right (by norm_num)).1 hlt
  have h0 : b - (52 + K) = 0 := by omega
  rw [h0, pow_zero, mul_one, mul_one]
  have hmod : k * D * 2 ^ (52 + K - b) % D = 0 := by
    rw [show k * D * 2 ^ (52 + K - b) = D * (k * 2 ^ (52 + K - b)) by ring]
    exact Nat.mul_mod_right _ _
  have hdiv : k * D * 2 ^ (52 + K - b) / D = k * 2 ^ (52 + K - b) := by
    rw [show k * D * 2 ^ (52 + K - b) = D * (k * 2 ^ (52 + K - b)) by ring]
    exact Nat.mul_div_cancel_left _ hD
  rw [hmod, hdiv, if_pos (by omega)]
  exact ⟨Nat.pow_pos (by norm_num), rfl⟩

/-- From the relative error bound: when `p` does not divide `n < 2^53`, the rounded quotient
lies strictly above `⌊n / p⌋` and at most one above it. -/
theorem rounded_between (n p k r A B c : Nat) (hn : n = k * p + r) (hr : 0 < r) (hrp : r < p)
    (hn53 : n < 2 ^ 53) (hB : 0 < B) (hc : 0 < c)
    (h1 : A * (c * p) * 2 ^ 53 ≤ n * c * B * 2 ^ 53 + n * c * B)
    (h2 : n * c * B * 2 ^ 53 ≤ A * (c * p) * 2 ^ 53 + n * c * B) :
    k * B < A ∧ A ≤ (k + 1) * B := by
  have hcB : 0 < c * B := Nat.mul_pos hc hB
  constructor
  · by_contra hcon
    have hA : A ≤ k * B := Nat.le_of_not_lt hcon
    have hA' : A * (c * p) * 2 ^ 53 ≤ k * B * (c * p) * 2 ^ 53 :=
      Nat.mul_le_mul_right _ (Nat.mul_le_mul_right _ hA)
    have h3 : r * 2 ^ 53 * (c * B) ≤ n * (c * B) := by
      have e1 : n * c * B * 2 ^ 53 = k * B * (c * p) * 2 ^ 53 + r * 2 ^ 53 * (c * B) := by
        rw [hn]; ring
      have e2 : n * c * B = n * (c * B) := by ring
      rw [e1, e2] at h2
      omega
    have h4 : r * 2 ^ 53 ≤ n := Nat.le_of_mul_le_mul_right h3 hcB
    have h5 : 1 * 2 ^ 53 ≤ r * 2 ^ 53 := Nat.mul_le_mul_right _ hr
    omega
  · by_contra hcon
    have hA : (k + 1) * B + 1 ≤ A := by omega
    have hA' : ((k + 1) * B + 1) * (c * p) * 2 ^ 53 ≤ A * (c * p) * 2 ^ 53 :=
      Nat.mul_le_mul_right _ (Nat.mul_le_mul_right _ hA)
    have e1 : ((k + 1) * B + 1) * (c * p) * 2 ^ 53 =
        n * c * B * 2 ^ 53 + (p - r) * 2 ^ 53 * (c * B) + c * p * 2 ^ 53 := by
      obtain ⟨d, hd⟩ := Nat.exists_eq_add_of_lt hrp
      have hpr : p - r = d + 1 := by omega
      rw [hpr, hn, hd]
      ring
    rw [e1] at hA'
    have h3 : (p - r) * 2 ^ 53 * (c * B) ≤ n * (c * B) := by
      have e2 : n * c * B = n * (c * B) := by ring
      rw [e2] at h1
      omega
    have h4 : (p - r) * 2 ^ 53 ≤ n := Nat.le_of_mul_le_mul_right h3 hcB
    have h5 : 1 * 2 ^ 53 ≤ (p - r) * 2 ^ 53 := Nat.mul_le_mul_right _ (by omega)
    omega

/-- An integer below `2^53` converts to `float64` without rounding. -/
theorem roundNearestEven_ofNat (n : Nat) (hn : n < 2 ^ 53) :
    0 < (roundNearestEven n 1).2 ∧ (roundNearestEven n 1).1 = n * (roundNearestEven n 1).2 := by
  by_cases h0 : n = 0
  · subst h0
    simp [roundNearestEven]
  · have := roundNearestEven_exact n 1 (by omega) hn (by norm_num)
    rwa [mul_one] at this

/-- Ceiling of a fraction that lies in `(k, k + 1]`. -/
theorem ceil_of_between (A B k : Nat) (hB : 0 < B) (h1 : k * B < A) (h2 : A ≤ (k + 1) * B) :
    (A + B - 1) / B = k + 1 := by
  have e1 : (k + 1) * B = k * B + B := by ring
  have e2 : (k + 1 + 1) * B = k * B + B + B := by ring
  apply Nat.div_eq_of_lt_le
  · omega
  · omega

/-- The page count computed in `float64` is the exact ceiling of the quotient as long as the
count and the page size are below `2^53`. -/
theorem ceilDivFloat_eq (n p : Nat) (hn : n < 2 ^ 53) (hp0 : 0 < p) (hp : p < 2 ^ 53) :
    ceilDivFloat (n : Int) (p : Int) = (((n + p - 1) / p : Nat) : Int) := by
  obtain ⟨hB1, hA1⟩ := roundNearestEven_ofNat n hn
  obtain ⟨hB2, hA2⟩ := roundNearestEven_ofNat p hp
  have hnneg : decide ((n : Int) < 0) = false := by simp
  have hpneg : decide ((p : Int) < 0) = false := by simp
  unfold ceilDivFloat Float64.div Float64.ofInt
  simp only [hnneg, hpneg, Int.natAbs_ofNat, Bool.xor_false, Float64.ceil, hA1, hA2]
  generalize (roundNearestEven n 1).2 = B1 at hB1
  generalize (roundNearestEven p 1).2 = B2 at hB2
  have hN : n * B1 * B2 = n * (B1 * B2) := by ring
  have hDD : B1 * (p * B2) = (B1 * B2) * p := by ring
  rw [hN, hDD]
  have hc : 0 < B1 * B2 := Nat.mul_pos hB1 hB2
  generalize B1 * B2 = c at hc
  have hres : ((roundNearestEven (n * c) (c * p)).1 + (roundNearestEven (n * c) (c * p)).2 - 1) /
      (roundNearestEven (n * c) (c * p)).2 = (n + p - 1) / p := by
    by_cases h0 : n = 0
    · subst h0
      have : (p - 1) / p = 0 := Nat.div_eq_of_lt (by omega)
      simp [roundNearestEven, this]
    · by_cases hdvd : n % p = 0
      · have hk : n = n / p * p := by
          have := Nat.div_add_mod' n p
          omega
        have hkpos : 0 < n / p := by
          rcases Nat.eq_zero_or_pos (n / p) with h | h
          · rw [h] at hk; omega
          · exact h
        have hk53 : n / p < 2 ^ 53 := lt_of_le_of_lt (Nat.div_le_self n p) hn
        have hND : n * c = n / p * (c * p) := by
          calc n * c = n / p * p * c := by rw [← hk]
            _ = n / p * (c * p) := by ring
        rw [hND]
        obtain ⟨hB, hA⟩ := roundNearestEven_exact (n / p) (c * p) hkpos hk53 (Nat.mul_pos hc hp0)
        rw [hA]
        generalize (roundNearestEven (n / p * (c * p)) (c * p)).2 = B at hB
        have e1 : (n / p * B + B - 1) / B = n / p := by
          apply Nat.div_eq_of_lt_le
          · omega
          · have : (n / p + 1) * B = n / p * B + B := by ring
            omega
        have e2 : (n + p - 1) / p = n / p := by
          apply Nat.div_eq_of_lt_le
          · have : n / p * p = n := hk.symm
            omega
          · have : (n / p + 1) * p = n / p * p + p := by ring
            have : n / p * p = n := hk.symm
            omega
        rw [e1, e2]
      · have hr : 0 < n % p := Nat.pos_of_ne_zero hdvd
        have hrp : n % p < p := Nat.mod_lt n hp0
        have hk : n = n / p * p + n % p := (Nat.div_add_mod' n p).symm
        obtain ⟨hB, h1, h2⟩ := roundNearestEven_error (n * c) (c * p)
          (Nat.mul_pos (Nat.pos_of_ne_zero h0) hc) (Nat.mul_pos hc hp0)
        obtain ⟨hlo, hhi⟩ := rounded_between n p (n / p) (n % p) _ _ c hk hr hrp hn hB hc h1 h2
        rw [ceil_of_between _ _ (n / p) hB hlo hhi]
        symm
        apply Nat.div_eq_of_lt_le
        · have : (n / p + 1) * p = n / p * p + p := by ring
          omega
        · have : (n / p + 1 + 1) * p = n / p * p + p + p := by ring
          omega
  rw [hres]
  have hle : (n + p - 1) / p ≤ n := by
    rcases Nat.eq_zero_or_pos n with h | h
    · subst h
      have : (0 + p - 1) / p = 0 := Nat.div_eq_of_lt (by omega)
      omega
    · calc (n + p - 1) / p ≤ (n * p) / p := by
            apply Nat.div_le_div_right
            obtain ⟨d, hd⟩ := Nat.exists_eq_add_of_lt h
            obtain ⟨e, he⟩ := Nat.exists_eq_add_of_lt hp0
            have hn' : n = d + 1 := by omega
            have hp' : p = e + 1 := by omega
            rw [hn', hp']
            have : (d + 1) * (e + 1) = d * e + d + e + 1 := by ring
            omega
        _ = n := Nat.mul_div_cancel _ hp0
  simp only [Bool.false_eq_true, if_false]
  generalize (n + p - 1) / p = v at hle
  have hv0 : (0 : Int) ≤ (v : Int) := Int.ofNat_nonneg _
  have hvn : (v : Int) ≤ (n : Int) := by exact_mod_cast hle
  have hn' : (n : Int) < 2 ^ 53 := by exact_mod_cast hn
  unfold intOfFloat
  rw [if_pos]
  constructor <;> omega

end Float64Rounding

section ListUsersTheorems

open entity repository dto usecase gonum persistence fixtures

variable {σ : Type}

/-- An `int` operation whose exact result fits 64 bits does not wrap. -/
theorem wrapInt64_of_fits (x : Int) (h1 : -2 ^ 63 ≤ x) (h2 : x < 2 ^ 63) : wrapInt64 x = x := by
  unfold wrapInt64
  rw [Int.emod_eq_of_lt (by omega) (by omega)]
  omega

/-- The least number of pages of `p` items that hold `n` items is `(n + p - 1) / p`. -/
theorem ceilDiv_least (n p : Nat) (hp : 0 < p) :
    n ≤ (n + p - 1) / p * p ∧ ∀ j : Nat, n ≤ j * p → (n + p - 1) / p ≤ j := by
  constructor
  · have h1 := Nat.div_add_mod' (n + p - 1) p
    have h2 := Nat.mod_lt (n + p - 1) hp
    omega
  · intro j hj
    have h : (n + p - 1) / p < j + 1 := by
      rw [Nat.div_lt_iff_lt_mul hp]
      have : (j + 1) * p = j * p + p := by ring
      omega
    omega

/-- C18: for every repository, storage, filter, and every `page < 1` and `pageSize < 1`,
`ListUsers page pageSize filter` makes the same repository calls and returns the same result
as `ListUsers 1 10 filter`. -/
theorem listUsers_clamps (userRepo : RepoHandle σ) (page pageSize : Int)
    (filter : Option FilterDTO) (w : World σ) (hPage : page < 1) (hSize : pageSize < 1) :
    ListUsers userRepo page pageSize filter w = ListUsers userRepo 1 10 filter w := by
  unfold ListUsers
  simp only [if_pos hPage, if_pos hSize]
  rfl

/-- C18, witness: page 0 with page size 0 over the in-memory repository. -/
theorem listUsers_clamps_witness :
    ListUsers (RepoHandle.basic inMemoryRepository) 0 0 none ⟨[alice, bob], []⟩ =
      ListUsers (RepoHandle.basic inMemoryRepository) 1 10 none ⟨[alice, bob], []⟩ :=
  listUsers_clamps (RepoHandle.basic inMemoryRepository) 0 0 none ⟨[alice, bob], []⟩
    (by decide) (by decide)

set_option maxRecDepth 100000 in
/-- C19, counterexample: (1) for page `2^62 + 1` and page size 4 the product
`(page - 1) * pageSize` is `2^64`, which wraps around in a 64-bit `int`: the repository is
asked for offset 0; (2) for a count of `2^53 + 1` and page size 1 the page count, computed in
`float64`, is `2^53`, one less than the ceiling of the quotient. -/
theorem listUsers_pagination_counterexample :
    (ListUsers (RepoHandle.basic inMemoryRepository) (2 ^ 62 + 1) 4 none
      ⟨[alice, bob], []⟩).2.calls = [RepoCall.List 0 4, RepoCall.Count] ∧
    ((2 ^ 62 + 1 : Int) - 1) * 4 = 2 ^ 64 ∧
    (ListUsers (RepoHandle.basic (countingRepository (2 ^ 53 + 1))) 1 1 none
      ⟨[alice, bob], []⟩).1.1.map ListUsersDTO.TotalItems = some (2 ^ 53 + 1) ∧
    (ListUsers (RepoHandle.basic (countingRepository (2 ^ 53 + 1))) 1 1 none
      ⟨[alice, bob], []⟩).1.1.map ListUsersDTO.TotalPages = some (2 ^ 53) := by
  decide

/-- The page count of `ListUsers` for a count and a page size below `2^53`: the least `k` with
`k * pageSize ≥ n`. -/
theorem ceilDivFloat_least (n pageSize : Int) (hn0 : 0 ≤ n) (hn : n < 2 ^ 53)
    (hs : 1 ≤ pageSize) (hs53 : pageSize < 2 ^ 53) :
    n ≤ ceilDivFloat n pageSize * pageSize ∧
    (∀ j : Int, n ≤ j * pageSize → ceilDivFloat n pageSize ≤ j) ∧
    (n = 0 → ceilDivFloat n pageSize = 0) := by
  obtain ⟨a, rfl⟩ := Int.eq_ofNat_of_zero_le hn0
  obtain ⟨p, rfl⟩ := Int.eq_ofNat_of_zero_le (le_trans (by norm_num) hs)
  have hp0 : 0 < p := by exact_mod_cast hs
  have ha53 : a < 2 ^ 53 := by exact_mod_cast hn
  have hp53 : p < 2 ^ 53 := by exact_mod_cast hs53
  rw [ceilDivFloat_eq a p ha53 hp0 hp53]
  obtain ⟨h1, h2⟩ := ceilDiv_least a p hp0
  refine ⟨by exact_mod_cast h1, ?_, ?_⟩
  · intro j hj
    have hj0 : 0 ≤ j := by
      by_contra hneg
      have hjneg : j ≤ -1 := by omega
      have hp1 : (1 : Int) ≤ (p : Int) := by exact_mod_cast hp0
      have : j * (p : Int) ≤ -1 * (p : Int) := Int.mul_le_mul_of_nonneg_right hjneg (by omega)
      have ha0 : (0 : Int) ≤ (a : Int) := Int.ofNat_nonneg a
      omega
    obtain ⟨i, rfl⟩ := Int.eq_ofNat_of_zero_le hj0
    have : a ≤ i * p := by exact_mod_cast hj
    exact_mod_cast h2 i this
  · intro h0
    have ha : a = 0 := by exact_mod_cast h0
    subst ha
    have : (0 + p - 1) / p = 0 := Nat.div_eq_of_lt (by omega)
    rw [this]
    rfl

/-- C19, as amended: for every `page ≥ 1` and `pageSize ≥ 1` with
`(page - 1) * pageSize < 2^63` the first repository call of `ListUsers` asks for offset
`(page - 1) * pageSize` and limit `pageSize`: `List` on a basic repository, and
`ListWithOptions` with the filter and the sort `created_at desc` on a repository with
filters.  When the listing gives `users` and the count gives `n`, the result echoes `Page` and
`PageSize`, holds the DTOs of `users`, reports `TotalItems = n`, and for `0 ≤ n < 2^53` and
`pageSize < 2^53` reports as `TotalPages` the least `k` with `k * pageSize ≥ n` (0 when
`n = 0`). -/
theorem listUsers_pagination (page pageSize : Int) (filter : Option FilterDTO)
    (hPage : 1 ≤ page) (hSize : 1 ≤ pageSize) (hOffset : (page - 1) * pageSize < 2 ^ 63) :
    (∀ (r : UserRepository σ) (db db1 db2 : σ) (users : List User) (n : Int),
      (ListUsers (RepoHandle.basic r) page pageSize filter ⟨db, []⟩).2.calls.head? =
        some (RepoCall.List ((page - 1) * pageSize) pageSize) ∧
      (r.List ((page - 1) * pageSize) pageSize db = ((users, none), db1) →
        r.Count db1 = ((n, none), db2) →
        ListUsers (RepoHandle.basic r) page pageSize filter ⟨db, []⟩ =
          ((some { Users := users.map FromEntity, Page := page, PageSize := pageSize,
                   TotalItems := n, TotalPages := ceilDivFloat n pageSize }, none),
           ⟨db2, [RepoCall.List ((page - 1) * pageSize) pageSize, RepoCall.Count]⟩))) ∧
    (∀ (r : UserRepositoryWithFilters σ) (db db1 db2 : σ) (users : List User) (n : Int),
      (ListUsers (RepoHandle.withFilters r) page pageSize filter ⟨db, []⟩).2.calls.head? =
        some (RepoCall.ListWithOptions
          { Offset := (page - 1) * pageSize, Limit := pageSize,
            Filter := filter.map (fun f => ⟨f.Email, f.Username, f.IsActive, f.IsAdmin⟩),
            Sort' := some ⟨"created_at", "desc"⟩ }) ∧
      (r.ListWithOptions
          { Offset := (page - 1) * pageSize, Limit := pageSize,
            Filter := filter.map (fun f => ⟨f.Email, f.Username, f.IsActive, f.IsAdmin⟩),
            Sort' := some ⟨"created_at", "desc"⟩ } db = ((users, none), db1) →
        r.CountWithFilter
          (filter.map (fun f => ⟨f.Email, f.Username, f.IsActive, f.IsAdmin⟩)) db1 =
          ((n, none), db2) →
        ListUsers (RepoHandle.withFilters r) page pageSize filter ⟨db, []⟩ =
          ((some { Users := users.map FromEntity, Page := page, PageSize := pageSize,
                   TotalItems := n, TotalPages := ceilDivFloat n pageSize }, none),
           ⟨db2, [RepoCall.ListWithOptions
              { Offset := (page - 1) * pageSize, Limit := pageSize,
                Filter := filter.map (fun f => ⟨f.Email, f.Username, f.IsActive, f.IsAdmin⟩),
                Sort' := some ⟨"created_at", "desc"⟩ },
             RepoCall.CountWithFilter
               (filter.map (fun f => ⟨f.Email, f.Username, f.IsActive, f.IsAdmin⟩))]⟩))) ∧
    (∀ n : Int, 0 ≤ n → n < 2 ^ 53 → pageSize < 2 ^ 53 →
      n ≤ ceilDivFloat n pageSize * pageSize ∧
      (∀ j : Int, n ≤ j * pageSize → ceilDivFloat n pageSize ≤ j) ∧
      (n = 0 → ceilDivFloat n pageSize = 0)) := by
  have hp1 : 0 ≤ page - 1 := by omega
  have hle : page - 1 ≤ (page - 1) * pageSize := by
    have := Int.mul_le_mul_of_nonneg_left hSize hp1
    simpa using this
  have hnn : 0 ≤ (page - 1) * pageSize := Int.mul_nonneg hp1 (by omega)
  have hoff : mulInt (subInt page 1) pageSize = (page - 1) * pageSize := by
    unfold mulInt subInt
    rw [wrapInt64_of_fits (page - 1) (by omega) (by omega)]
    exact wrapInt64_of_fits _ (by omega) hOffset
  have hfilter : (match filter with
      | some filter => some ({ Email := filter.Email, Username := filter.Username,
                               IsActive := filter.IsActive, IsAdmin := filter.IsAdmin } :
                              UserFilter)
      | none => none) =
      filter.map (fun f => ⟨f.Email, f.Username, f.IsActive, f.IsAdmin⟩) := by
    cases filter <;> rfl
  refine ⟨?_, ?_, fun n h0 h53 hs53 => ceilDivFloat_least n pageSize h0 h53 hSize hs53⟩
  · intro r db db1 db2 users n
    unfold ListUsers
    simp only [if_neg (not_lt.2 hPage), if_neg (not_lt.2 hSize), hoff]
    constructor
    · rcases hL : r.List ((page - 1) * pageSize) pageSize db with ⟨⟨us, e⟩, d1⟩
      cases e with
      | some e => simp [World.List, hL]
      | none =>
        rcases hC : r.Count d1 with ⟨⟨m, e2⟩, d2⟩
        cases e2 <;> simp [World.List, hL, World.Count, hC]
    · intro hL hC
      simp [World.List, hL, World.Count, hC]
  · intro r db db1 db2 users n
    unfold ListUsers
    simp only [if_neg (not_lt.2 hPage), if_neg (not_lt.2 hSize), hoff, hfilter]
    constructor
    · rcases hL : r.ListWithOptions
          { Offset := (page - 1) * pageSize, Limit := pageSize,
            Filter := filter.map (fun f => ⟨f.Email, f.Username, f.IsActive, f.IsAdmin⟩),
            Sort' := some ⟨"created_at", "desc"⟩ } db with ⟨⟨us, e⟩, d1⟩
      cases e with
      | some e => simp [World.ListWithOptions, hL]
      | none =>
        rcases hC : r.CountWithFilter
          (filter.map (fun f => ⟨f.Email, f.Username, f.IsActive, f.IsAdmin⟩)) d1
          with ⟨⟨m, e2⟩, d2⟩
        cases e2 <;> simp [World.ListWithOptions, hL, World.CountWithFilter, hC]
    · intro hL hC
      simp [World.ListWithOptions, hL, World.CountWithFilter, hC]

set_option maxRecDepth 100000 in
/-- C19, witness: page 2 with page size 1 over Alice and Bob: offset 1, limit 1, two items, two
pages. -/
theorem listUsers_pagination_witness :
    ListUsers (RepoHandle.basic inMemoryRepository) 2 1 none ⟨[alice, bob], []⟩ =
      ((some { Users := [bob].map FromEntity, Page := 2, PageSize := 1,
               TotalItems := 2, TotalPages := ceilDivFloat 2 1 }, none),
       ⟨[alice, bob], [RepoCall.List ((2 - 1) * 1) 1, RepoCall.Count]⟩) :=
  ((listUsers_pagination (2 : Int) 1 none (by decide) (by decide) (by decide)).1
    inMemoryRepository [alice, bob] [alice, bob] [alice, bob] [bob] 2).2
    (by decide) (by decide)


end ListUsersTheorems

section BatchGetUsersTheorems

open entity repository dto usecase persistence fixtures

variable {σ : Type}

/-- Dropping the entries of one key does not change what another key finds. -/
theorem find_filter_other_key (k k' : String) (hne : k ≠ k') :
    ∀ m : UserMap,
      (m.filter (fun e => decide (e.1 ≠ k))).find? (fun e => decide (e.1 = k')) =
        m.find? (fun e => decide (e.1 = k')) := by
  intro m
  induction m with
  | nil => rfl
  | cons e m ih =>
    by_cases he : e.1 = k
    · have hek' : e.1 ≠ k' := by rw [he]; exact hne
      rw [List.filter_cons_of_neg (by simpa using he),
        List.find?_cons_of_neg _ (by simpa using hek'), ih]
    · rw [List.filter_cons_of_pos (by simpa using he)]
      by_cases hek' : e.1 = k'
      · rw [List.find?_cons_of_pos _ (by simpa using hek'),
          List.find?_cons_of_pos _ (by simpa using hek')]
      · rw [List.find?_cons_of_neg _ (by simpa using hek'),
          List.find?_cons_of_neg _ (by simpa using hek'), ih]

/-- Reading a key after writing one. -/
theorem UserMap_get_set (m : UserMap) (k k' : String) (v : UserDTO) :
    (m.set k v).get k' = if k' = k then some v else m.get k' := by
  unfold UserMap.set UserMap.get
  by_cases h : k' = k
  · subst h
    rw [if_pos rfl, List.find?_cons_of_pos _ (by simp)]
    rfl
  · have hne : k ≠ k' := fun e => h e.symm
    rw [if_neg h, List.find?_cons_of_neg _ (by simpa using hne),
      find_filter_other_key k k' hne]

/-- Writing a key keeps the keys pairwise different. -/
theorem UserMap_set_nodup (m : UserMap) (k : String) (v : UserDTO)
    (h : (m.map (fun e => e.1)).Nodup) : ((m.set k v).map (fun e => e.1)).Nodup := by
  unfold UserMap.set
  simp only [List.map_cons, List.nodup_cons]
  constructor
  · intro hmem
    rcases List.mem_map.1 hmem with ⟨e, he, hek⟩
    have := (List.mem_filter.1 he).2
    simp only [ne_eq, decide_not, Bool.not_eq_true', decide_eq_false_iff_not] at this
    exact this hek
  · exact (List.Nodup.sublist (List.Sublist.map _ (List.filter_sublist m)) h)

/-- A key is absent exactly when reading it gives nothing. -/
theorem UserMap_get_eq_none_iff (m : UserMap) (k : String) :
    m.get k = none ↔ k ∉ m.map (fun e => e.1) := by
  unfold UserMap.get
  induction m with
  | nil => simp
  | cons e m ih =>
    by_cases he : e.1 = k
    · simp [List.find?, he]
    · have hne : ¬ k = e.1 := fun h => he h.symm
      simp only [List.find?, he, decide_False, List.map_cons, List.mem_cons, hne, false_or]
      exact ih

/-- One round of the loop of `BatchGetUsers`, from a storage on which every lookup gives what
it gives on `db`: an id that resolves is written to the map, any other id is appended to the
not-found list; an id that parses costs one `GetByID`; and when a lookup does not change what
later lookups give, the storage after the round is again such a storage. -/
theorem batchGetStep_eq (uuidParse : UUIDParser) (userRepo : RepoHandle σ) (db : σ)
    (hStable : ∀ id id' s,
      (userRepo.base.GetByID id' (userRepo.base.GetByID id s).2).1 =
        (userRepo.base.GetByID id' s).1)
    (st : BatchState σ) (id : String)
    (hInv : ∀ i, (userRepo.base.GetByID i st.world.db).1 = (userRepo.base.GetByID i db).1) :
    (batchGetStep uuidParse userRepo st id).users =
      (match resolveID uuidParse userRepo db id with
        | some d => st.users.set id d
        | none => st.users) ∧
    (batchGetStep uuidParse userRepo st id).notFound =
      (match resolveID uuidParse userRepo db id with
        | some _ => st.notFound
        | none => st.notFound ++ [id]) ∧
    (batchGetStep uuidParse userRepo st id).world.calls =
      st.world.calls ++
        (match uuidParse id with
          | Except.ok userID => [RepoCall.GetByID userID]
          | Except.error _ => []) ∧
    (∀ i, (userRepo.base.GetByID i (batchGetStep uuidParse userRepo st id).world.db).1 =
      (userRepo.base.GetByID i db).1) := by
  unfold batchGetStep resolveID
  cases hP : uuidParse id with
  | error e => simpa using hInv
  | ok userID =>
    have hd := hInv userID
    have hnext : ∀ i, (userRepo.base.GetByID i
        (userRepo.base.GetByID userID st.world.db).2).1 = (userRepo.base.GetByID i db).1 :=
      fun i => (hStable userID i st.world.db).trans (hInv i)
    rcases hG : userRepo.base.GetByID userID st.world.db with ⟨⟨u, e⟩, d1⟩
    rw [hG] at hd hnext
    simp only at hd hnext
    simp only [← hd, World.GetByID, hG]
    cases u <;> cases e <;> simpa using hnext

/-- The loop of `BatchGetUsers` from any state of its variables. -/
theorem batch_foldl (uuidParse : UUIDParser) (userRepo : RepoHandle σ) (db : σ)
    (hStable : ∀ id id' s,
      (userRepo.base.GetByID id' (userRepo.base.GetByID id s).2).1 =
        (userRepo.base.GetByID id' s).1) :
    ∀ (ids : List String) (st : BatchState σ),
      (∀ i, (userRepo.base.GetByID i st.world.db).1 = (userRepo.base.GetByID i db).1) →
      (ids.foldl (batchGetStep uuidParse userRepo) st).notFound =
        st.notFound ++ ids.filter (fun id => (resolveID uuidParse userRepo db id).isNone) ∧
      (∀ k, (ids.foldl (batchGetStep uuidParse userRepo) st).users.get k =
        if k ∈ ids ∧ (resolveID uuidParse userRepo db k).isSome = true then
          resolveID uuidParse userRepo db k
        else st.users.get k) ∧
      ((st.users.map (fun e => e.1)).Nodup →
        ((ids.foldl (batchGetStep uuidParse userRepo) st).users.map (fun e => e.1)).Nodup) ∧
      (ids.foldl (batchGetStep uuidParse userRepo) st).world.calls =
        st.world.calls ++ ids.filterMap (fun id =>
          match uuidParse id with
          | Except.ok userID => some (RepoCall.GetByID userID)
          | Except.error _ => none) := by
  intro ids
  induction ids with
  | nil => intro st _; simp
  | cons id ids ih =>
    intro st hInv
    obtain ⟨hu, hn, hc, hInv'⟩ := batchGetStep_eq uuidParse userRepo db hStable st id hInv
    obtain ⟨ih1, ih2, ih3, ih4⟩ := ih (batchGetStep uuidParse userRepo st id) hInv'
    rw [List.foldl_cons]
    refine ⟨?_, ?_, ?_, ?_⟩
    · rw [ih1, hn]
      cases hr : resolveID uuidParse userRepo db id <;> simp [List.filter, hr]
    · intro k
      rw [ih2 k, hu]
      by_cases hk : k ∈ ids ∧ (resolveID uuidParse userRepo db k).isSome = true
      · have hk' : k ∈ id :: ids ∧ (resolveID uuidParse userRepo db k).isSome = true :=
          ⟨List.mem_cons_of_mem _ hk.1, hk.2⟩
        rw [if_pos hk, if_pos hk']
      · rw [if_neg hk]
        cases hr : resolveID uuidParse userRepo db id with
        | none =>
          simp only []
          have hk' : ¬ (k ∈ id :: ids ∧ (resolveID uuidParse userRepo db k).isSome = true) := by
            rintro ⟨hmem, hsome⟩
            rcases List.mem_cons.1 hmem with h | h
            · rw [h, hr] at hsome; cases hsome
            · exact hk ⟨h, hsome⟩
          rw [if_neg hk']
        | some d =>
          simp only []
          rw [UserMap_get_set]
          by_cases hkid : k = id
          · subst hkid
            rw [if_pos rfl, if_pos ⟨List.mem_cons_self _ _, by rw [hr]; rfl⟩, hr]
          · rw [if_neg hkid]
            have hk' : ¬ (k ∈ id :: ids ∧
                (resolveID uuidParse userRepo db k).isSome = true) := by
              rintro ⟨hmem, hsome⟩
              rcases List.mem_cons.1 hmem with h | h
              · exact hkid h
              · exact hk ⟨h, hsome⟩
            rw [if_neg hk']
    · intro hnd
      apply ih3
      rw [hu]
      cases hr : resolveID uuidParse userRepo db id with
      | none => exact hnd
      | some d => exact UserMap_set_nodup _ _ _ hnd
    · rw [ih4, hc]
      cases hP : uuidParse id <;> simp [List.filterMap, hP]

/-- A list without repetition whose members all equal `a`, and that holds `a`, has one
member. -/
theorem length_eq_one_of_nodup_all_eq (l : List String) (a : String) (hnd : l.Nodup)
    (hall : ∀ x ∈ l, x = a) (ha : a ∈ l) : l.length = 1 := by
  cases l with
  | nil => cases ha
  | cons x t =>
    cases t with
    | nil => rfl
    | cons y t' =>
      have hx := hall x (by simp)
      have hy := hall y (by simp)
      have hne : x ≠ y := by
        intro h
        have := (List.nodup_cons.1 hnd).1
        exact this (by rw [h]; simp)
      exact absurd (hx.trans hy.symm) hne

/-- C20: `BatchGetUsers` returns no error.  For a repository whose `GetByID` result depends
only on the ID (a lookup does not change what later lookups give), the not-found list holds,
in input order and once per occurrence, exactly the ids that do not parse as a UUID or whose
lookup gives no user or an error; every other id of the input is a key of the result map and
carries the DTO of its user; the keys of the map are pairwise different; no id is in both;
every id that parses is looked up once, in input order.  In particular an input made of one
id that resolves, one id that does not parse and one id that parses but is absent gives one
entry in the map and two in the not-found list. -/
theorem batchGetUsers_partial_success (uuidParse : UUIDParser) (userRepo : RepoHandle σ)
    (ids : List String) (db : σ)
    (hStable : ∀ id id' s,
      (userRepo.base.GetByID id' (userRepo.base.GetByID id s).2).1 =
        (userRepo.base.GetByID id' s).1) :
    (BatchGetUsers uuidParse userRepo ids ⟨db, []⟩).1.2.2 = none ∧
    (BatchGetUsers uuidParse userRepo ids ⟨db, []⟩).1.2.1 =
      ids.filter (fun id => (resolveID uuidParse userRepo db id).isNone) ∧
    (∀ id, (BatchGetUsers uuidParse userRepo ids ⟨db, []⟩).1.1.get id =
      if id ∈ ids then resolveID uuidParse userRepo db id else none) ∧
    ((BatchGetUsers uuidParse userRepo ids ⟨db, []⟩).1.1.map (fun e => e.1)).Nodup ∧
    (∀ id, id ∈ (BatchGetUsers uuidParse userRepo ids ⟨db, []⟩).1.2.1 →
      (BatchGetUsers uuidParse userRepo ids ⟨db, []⟩).1.1.get id = none) ∧
    (BatchGetUsers uuidParse userRepo ids ⟨db, []⟩).2.calls =
      ids.filterMap (fun id =>
        match uuidParse id with
        | Except.ok userID => some (RepoCall.GetByID userID)
        | Except.error _ => none) ∧
    (∀ a b c : String, (resolveID uuidParse userRepo db a).isSome = true →
      (uuidParse b).isOk = false →
      (uuidParse c).isOk = true → resolveID uuidParse userRepo db c = none →
      ids.Perm [a, b, c] →
      (BatchGetUsers uuidParse userRepo ids ⟨db, []⟩).1.1.length = 1 ∧
      (BatchGetUsers uuidParse userRepo ids ⟨db, []⟩).1.2.1.length = 2) := by
  obtain ⟨h1, h2, h3, h4⟩ :=
    batch_foldl uuidParse userRepo db hStable ids ⟨[], [], ⟨db, []⟩⟩ (fun _ => rfl)
  have hget : ∀ id, (BatchGetUsers uuidParse userRepo ids ⟨db, []⟩).1.1.get id =
      if id ∈ ids then resolveID uuidParse userRepo db id else none := by
    intro id
    show (ids.foldl (batchGetStep uuidParse userRepo) ⟨[], [], ⟨db, []⟩⟩).users.get id = _
    rw [h2 id]
    by_cases hmem : id ∈ ids
    · rw [if_pos hmem]
      cases hr : resolveID uuidParse userRepo db id with
      | none => simp [UserMap.get]
      | some d => simp [hmem]
    · rw [if_neg hmem, if_neg (fun h => hmem h.1)]
      rfl
  have hnf : (BatchGetUsers uuidParse userRepo ids ⟨db, []⟩).1.2.1 =
      ids.filter (fun id => (resolveID uuidParse userRepo db id).isNone) := by
    show (ids.foldl (batchGetStep uuidParse userRepo) ⟨[], [], ⟨db, []⟩⟩).notFound = _
    rw [h1]
    rfl
  have hnd : ((BatchGetUsers uuidParse userRepo ids ⟨db, []⟩).1.1.map (fun e => e.1)).Nodup :=
    h3 List.nodup_nil
  refine ⟨rfl, hnf, hget, hnd, ?_, ?_, ?_⟩
  · intro id hid
    rw [hnf] at hid
    obtain ⟨hmem, hnone⟩ := List.mem_filter.1 hid
    rw [hget id, if_pos hmem]
    exact Option.isNone_iff_eq_none.1 hnone
  · show (ids.foldl (batchGetStep uuidParse userRepo) ⟨[], [], ⟨db, []⟩⟩).world.calls = _
    rw [h4]
    rfl
  · intro a b c ha hb hc hcr hperm
    have hbr : resolveID uuidParse userRepo db b = none := by
      unfold resolveID
      cases hP : uuidParse b with
      | error e => rfl
      | ok u => rw [hP] at hb; cases hb
    have hab : a ≠ b := by
      intro h; rw [h, hbr] at ha; cases ha
    have hac : a ≠ c := by
      intro h; rw [h, hcr] at ha; cases ha
    constructor
    · have hlen : ((BatchGetUsers uuidParse userRepo ids ⟨db, []⟩).1.1.map
          (fun e => e.1)).length = 1 := by
        apply length_eq_one_of_nodup_all_eq _ a hnd
        · intro x hx
          have hx' : (BatchGetUsers uuidParse userRepo ids ⟨db, []⟩).1.1.get x ≠ none :=
            fun h => (UserMap_get_eq_none_iff _ _).1 h hx
          rw [hget x] at hx'
          by_cases hmem : x ∈ ids
          · rw [if_pos hmem] at hx'
            have hx3 : x ∈ [a, b, c] := hperm.mem_iff.1 hmem
            simp only [List.mem_cons, List.mem_singleton, List.not_mem_nil, or_false] at hx3
            rcases hx3 with h | h | h
            · exact h
            · rw [h] at hx'; exact absurd hbr hx'
            · rw [h] at hx'; exact absurd hcr hx'
          · rw [if_neg hmem] at hx'
            exact absurd rfl hx'
        · by_contra hnot
          have hnone := (UserMap_get_eq_none_iff _ _).2 hnot
          rw [hget a, if_pos (hperm.mem_iff.2 (by simp))] at hnone
          rw [hnone] at ha
          cases ha
      simpa using hlen
    · rw [hnf]
      have hp := (hperm.filter (fun id => (resolveID uuidParse userRepo db id).isNone)).length_eq
      rw [hp]
      have har : (resolveID uuidParse userRepo db a).isNone = false := by
        cases hr : resolveID uuidParse userRepo db a with
        | none => rw [hr] at ha; cases ha
        | some d => rfl
      simp [List.filter, har, hbr, hcr]

/-- C20, witness: the stored Alice, a text that is not a UUID, and a UUID no stored user has:
one entry in the map, two in the not-found list. -/
theorem batchGetUsers_partial_success_witness :
    (BatchGetUsers standInParseUUID (RepoHandle.basic inMemoryRepository)
      ["00000000-0000-0000-0000-000000000001", "not-a-uuid",
       "00000000-0000-0000-0000-000000000009"] ⟨[alice, bob], []⟩).1.1.length = 1 ∧
    (BatchGetUsers standInParseUUID (RepoHandle.basic inMemoryRepository)
      ["00000000-0000-0000-0000-000000000001", "not-a-uuid",
       "00000000-0000-0000-0000-000000000009"] ⟨[alice, bob], []⟩).1.2.1.length = 2 :=
  (batchGetUsers_partial_success standInParseUUID (RepoHandle.basic inMemoryRepository)
    ["00000000-0000-0000-0000-000000000001", "not-a-uuid",
     "00000000-0000-0000-0000-000000000009"] [alice, bob]
    (by
      intro id id' s
      have hs : ∀ i (t : List User), (inMemoryRepository.GetByID i t).2 = t := by
        intro i t
        simp only [inMemoryRepository]
        split <;> rfl
      show (inMemoryRepository.GetByID id' (inMemoryRepository.GetByID id s).2).1 = _
      rw [hs id s]
      rfl)).2.2.2.2.2.2
    "00000000-0000-0000-0000-000000000001" "not-a-uuid"
    "00000000-0000-0000-0000-000000000009"
    (by decide) (by decide) (by decide) (by decide) (List.Perm.refl _)

end BatchGetUsersTheorems

section DeleteUserTheorems

open entity repository persistence fixtures usecase

variable {σ : Type}

/-- C21, counterexample: the ID of Alice is a UUID and Alice is stored, but the database cannot
be reached, so `Exists` returns an error.  `DeleteUser` fails with an error that neither is nor
wraps `ErrUserNotFound`, and its only repository call is `Exists`: `Delete` is not invoked. -/
theorem deleteUser_failing_exists_counterexample :
    standInParseUUID aliceID = Except.ok ⟨1⟩ ∧
    (DeleteUser standInParseUUID (useCaseOver (offlineRepository "driver: bad connection"))
      aliceID false ⟨[alice], []⟩) =
      (some (GoError.wrap "failed to check user existence: "
        (GoError.wrap "failed to get database connection: "
          (GoError.foreign "gorm" "driver: bad connection") "") ""),
       ⟨[alice], [RepoCall.Exists ⟨1⟩]⟩) ∧
    (GoError.wrap "failed to check user existence: "
      (GoError.wrap "failed to get database connection: "
        (GoError.foreign "gorm" "driver: bad connection") "") "").Is
      Sentinel.ErrUserNotFound = false := by
  decide

/-- C21, as amended: for every id string, either value of `hardDelete` and every world,
`DeleteUser` fails without a repository call when `uuid.Parse` refuses the id.  When the id
parses, the first call is `Exists` with the parsed ID: when it reports the ID absent,
`DeleteUser` fails with `ErrUserNotFound` and `Delete` is not invoked; when it returns an
error, `DeleteUser` fails with that error wrapped and `Delete` is not invoked; when it reports
the ID present, `Delete` is invoked once, with that ID, on the storage `Exists` left, and
`DeleteUser` succeeds exactly when `Delete` does.  The result and the world are the same for
`hardDelete = true` and `hardDelete = false`. -/
theorem deleteUser_outcomes (uuidParse : UUIDParser) (uc : UserUseCase σ) (id : String)
    (hardDelete : Bool) (w : World σ) :
    (∀ msg, uuidParse id = Except.error msg →
      DeleteUser uuidParse uc id hardDelete w =
        (some (GoError.wrap "invalid user ID: " (GoError.foreign "uuid" msg) ""), w)) ∧
    (∀ userID, uuidParse id = Except.ok userID →
      (∀ db1, uc.userRepo.base.Exists userID w.db = ((false, none), db1) →
        DeleteUser uuidParse uc id hardDelete w =
          (some (GoError.sentinel Sentinel.ErrUserNotFound),
           ⟨db1, w.calls ++ [RepoCall.Exists userID]⟩)) ∧
      (∀ found err db1, uc.userRepo.base.Exists userID w.db = ((found, some err), db1) →
        DeleteUser uuidParse uc id hardDelete w =
          (some (GoError.wrap "failed to check user existence: " err ""),
           ⟨db1, w.calls ++ [RepoCall.Exists userID]⟩)) ∧
      (∀ db1, uc.userRepo.base.Exists userID w.db = ((true, none), db1) →
        (DeleteUser uuidParse uc id hardDelete w).2 =
          ⟨(uc.userRepo.base.Delete userID db1).2,
           w.calls ++ [RepoCall.Exists userID, RepoCall.Delete userID]⟩ ∧
        ((DeleteUser uuidParse uc id hardDelete w).1 = none ↔
          (uc.userRepo.base.Delete userID db1).1 = none) ∧
        (∀ err, (uc.userRepo.base.Delete userID db1).1 = some err →
          (DeleteUser uuidParse uc id hardDelete w).1 =
            some (GoError.wrap "failed to delete user: " err "")))) ∧
    DeleteUser uuidParse uc id true w = DeleteUser uuidParse uc id false w := by
  refine ⟨?_, ?_, rfl⟩
  · intro msg hP
    simp [DeleteUser, hP]
  · intro userID hP
    refine ⟨?_, ?_, ?_⟩
    · intro db1 hE
      simp [DeleteUser, hP, World.Exists, hE]
    · intro found err db1 hE
      simp [DeleteUser, hP, World.Exists, hE]
    · intro db1 hE
      rcases hD : uc.userRepo.base.Delete userID db1 with ⟨e, db2⟩
      cases e <;> simp [DeleteUser, hP, World.Exists, hE, World.Delete, hD]

/-- C21, witness: deleting the stored Alice calls `Exists` and then `Delete` once, with her
ID, and succeeds, whatever `hardDelete` is. -/
theorem deleteUser_outcomes_witness :
    (DeleteUser standInParseUUID (useCaseOver inMemoryRepository) aliceID true
      ⟨[alice, bob], []⟩).2 =
      ⟨(inMemoryRepository.Delete ⟨1⟩ [alice, bob]).2,
       [] ++ [RepoCall.Exists ⟨1⟩, RepoCall.Delete ⟨1⟩]⟩ ∧
    ((DeleteUser standInParseUUID (useCaseOver inMemoryRepository) aliceID true
      ⟨[alice, bob], []⟩).1 = none ↔
      (inMemoryRepository.Delete ⟨1⟩ [alice, bob]).1 = none) ∧
    (∀ err, (inMemoryRepository.Delete ⟨1⟩ [alice, bob]).1 = some err →
      (DeleteUser standInParseUUID (useCaseOver inMemoryRepository) aliceID true
        ⟨[alice, bob], []⟩).1 = some (GoError.wrap "failed to delete user: " err "")) :=
  ((deleteUser_outcomes standInParseUUID (useCaseOver inMemoryRepository) aliceID true
    ⟨[alice, bob], []⟩).2.1 ⟨1⟩ (by decide)).2.2 [alice, bob] (by decide)

end DeleteUserTheorems

section SearchUsersTheorems

open entity repository dto usecase

variable {σ : Type}

/-- C22: `SearchUsers` with the query, the page, the page size and a filter (or none) is
`ListUsers` with the same page and page size and the filter whose `Email` is the query when
the query is not empty and the given filter's `Email` otherwise, and whose `Username`,
`IsActive` and `IsAdmin` are those of the given filter (unset when no filter is given): the
result and the world are the same, and the query reaches no field but `Email`. -/
theorem searchUsers_eq_listUsers (uc : UserUseCase σ) (query : String) (page pageSize : Int)
    (filter : Option FilterDTO) (w : World σ) :
    SearchUsers uc { Query := query, Page := page, PageSize := pageSize, Filter := filter } w =
      ListUsers uc.userRepo page pageSize
        (some { Email := if query ≠ "" then some query else filter.bind (fun f => f.Email)
                Username := filter.bind (fun f => f.Username)
                IsActive := filter.bind (fun f => f.IsActive)
                IsAdmin := filter.bind (fun f => f.IsAdmin) }) w := by
  cases filter with
  | none => by_cases hq : query = "" <;> simp [SearchUsers, hq]
  | some f => by_cases hq : query = "" <;> simp [SearchUsers, hq]

end SearchUsersTheorems

section InterceptorTheorems

open server fixtures

variable {τ α β : Type}

/-- C23: when the handler panics, with whatever value, `RecoveryInterceptor` returns a `nil`
response and the status error of code `Internal` with the message "internal server error";
the returned values do not depend on the panic value.  When the handler returns,
`RecoveryInterceptor` returns the handler's response and error as they are, after that one
invocation, and writes nothing to the log. -/
theorem recoveryInterceptor_outcomes (ctx : Context) (req : Request α) (info : UnaryServerInfo)
    (handler : UnaryHandler τ α β) (r : Run τ α) :
    (∀ v app1, handler ctx req r.app = (Outcome.panicked v, app1) →
      (RecoveryInterceptor ctx req info handler r).1 =
        Outcome.returned (none,
          some (RPCError.status codes.Code.Internal "internal server error"))) ∧
    (∀ res app1, handler ctx req r.app = (Outcome.returned res, app1) →
      RecoveryInterceptor ctx req info handler r =
        (Outcome.returned res,
         { app := app1, invoked := r.invoked ++ [req.value], logged := r.logged })) := by
  constructor
  · intro v app1 h
    simp [RecoveryInterceptor, Run.invoke, h]
  · intro res app1 h
    simp [RecoveryInterceptor, Run.invoke, h]

/-- C23, witness: the handler panics with a secret in the panic value; the caller gets the
fixed status error. -/
theorem recoveryInterceptor_outcomes_witness :
    (RecoveryInterceptor ⟨none⟩ ⟨"ping", none⟩ ⟨"/user.v1.UserService/GetUser"⟩
      panickingHandler ⟨(), [], []⟩).1 =
      Outcome.returned (none,
        some (RPCError.status codes.Code.Internal "internal server error")) :=
  (recoveryInterceptor_outcomes ⟨none⟩ ⟨"ping", none⟩ ⟨"/user.v1.UserService/GetUser"⟩
    panickingHandler ⟨(), [], []⟩).1 ⟨"dial tcp: password=hunter2"⟩ () rfl

/-- C24: when the request value has a method `Validate` and it returns an error,
`ValidationInterceptor` returns a `nil` response and a status error of code `InvalidArgument`,
and the handler is not invoked (the state is the one before the call).  When the request value
has no method `Validate`, or `Validate` returns `nil`, the handler is invoked once and
`ValidationInterceptor` returns what the handler returns. -/
theorem validationInterceptor_outcomes (ctx : Context) (req : Request α)
    (info : UnaryServerInfo) (handler : UnaryHandler τ α β) (r : Run τ α) :
    (∀ validate err, req.Validate = some validate → validate req.value = some err →
      ValidationInterceptor ctx req info handler r =
        (Outcome.returned (none, some (RPCError.status codes.Code.InvalidArgument
          ("validation failed: " ++ err.Error))), r)) ∧
    ((req.Validate = none ∨
        ∃ validate, req.Validate = some validate ∧ validate req.value = none) →
      ValidationInterceptor ctx req info handler r =
        ((handler ctx req r.app).1,
         { app := (handler ctx req r.app).2, invoked := r.invoked ++ [req.value],
           logged := r.logged })) := by
  constructor
  · intro validate err hV hE
    simp [ValidationInterceptor, hV, hE]
  · rintro (hV | ⟨validate, hV, hE⟩)
    · simp [ValidationInterceptor, hV, Run.invoke]
    · simp [ValidationInterceptor, hV, hE, Run.invoke]

/-- C24, witness: a request whose `Validate` refuses the empty text; the handler is not
invoked. -/
theorem validationInterceptor_outcomes_witness :
    ValidationInterceptor ⟨none⟩ ⟨"", some validateNotEmpty⟩ ⟨"/user.v1.UserService/GetUser"⟩
      echoHandler ⟨0, [], []⟩ =
      (Outcome.returned (none, some (RPCError.status codes.Code.InvalidArgument
        ("validation failed: " ++ (GoError.errorf "empty").Error))), ⟨0, [], []⟩) :=
  (validationInterceptor_outcomes ⟨none⟩ ⟨"", some validateNotEmpty⟩
    ⟨"/user.v1.UserService/GetUser"⟩ echoHandler ⟨0, [], []⟩).1
    validateNotEmpty (GoError.errorf "empty") rfl (by decide)

/-- C25: for the three methods of the allow-list, `AuthInterceptor` invokes the handler once
and returns what it returns, whatever the metadata.  For every other method name: when the
context carries metadata with at least one value under "authorization", whatever the values
are, the handler is invoked once and its results are returned; otherwise the handler is not
invoked (the state is the one before the call) and a status error of code `Unauthenticated`
is returned with a `nil` response. -/
theorem authInterceptor_outcomes (ctx : Context) (req : Request α) (info : UnaryServerInfo)
    (handler : UnaryHandler τ α β) (r : Run τ α) :
    ((info.FullMethod = "/user.v1.UserService/AuthenticateUser" ∨
        info.FullMethod = "/user.v1.UserService/CreateUser" ∨
        info.FullMethod = "/health.v1.HealthService/Check") →
      AuthInterceptor ctx req info handler r =
        ((handler ctx req r.app).1,
         { app := (handler ctx req r.app).2, invoked := r.invoked ++ [req.value],
           logged := r.logged })) ∧
    (¬ (info.FullMethod = "/user.v1.UserService/AuthenticateUser" ∨
        info.FullMethod = "/user.v1.UserService/CreateUser" ∨
        info.FullMethod = "/health.v1.HealthService/Check") →
      ((∃ md value rest, ctx.incomingMD = some md ∧
          md.Get "authorization" = value :: rest) →
        AuthInterceptor ctx req info handler r =
          ((handler ctx req r.app).1,
           { app := (handler ctx req r.app).2, invoked := r.invoked ++ [req.value],
             logged := r.logged })) ∧
      (¬ (∃ md value rest, ctx.incomingMD = some md ∧
          md.Get "authorization" = value :: rest) →
        ∃ msg, AuthInterceptor ctx req info handler r =
          (Outcome.returned (none, some (RPCError.status codes.Code.Unauthenticated msg)),
           r))) := by
  constructor
  · intro h
    have hm : info.FullMethod ∈ publicMethods := by
      simpa [publicMethods] using h
    simp [AuthInterceptor, hm, Run.invoke]
  · intro h
    have hm : info.FullMethod ∉ publicMethods := by
      simpa [publicMethods] using h
    constructor
    · rintro ⟨md, value, rest, hmd, hget⟩
      simp [AuthInterceptor, hm, hmd, hget, Run.invoke]
    · intro hno
      cases hmd : ctx.incomingMD with
      | none => exact ⟨"metadata not found", by simp [AuthInterceptor, hm, hmd]⟩
      | some md =>
        cases hget : md.Get "authorization" with
        | nil =>
          exact ⟨"authorization header not found", by simp [AuthInterceptor, hm, hmd, hget]⟩
        | cons value rest => exact absurd ⟨md, value, rest, hmd, hget⟩ hno

/-- C25, witness: a call of `GetUser` with the metadata `authorization: x`, a value that is no
token at all, reaches the handler. -/
theorem authInterceptor_outcomes_witness :
    AuthInterceptor ⟨some [("authorization", ["x"])]⟩ ⟨"id-1", none⟩
      ⟨"/user.v1.UserService/GetUser"⟩ echoHandler ⟨0, [], []⟩ =
      ((echoHandler ⟨some [("authorization", ["x"])]⟩ ⟨"id-1", none⟩ 0).1,
       { app := (echoHandler ⟨some [("authorization", ["x"])]⟩ ⟨"id-1", none⟩ 0).2,
         invoked := [] ++ ["id-1"], logged := [] }) :=
  ((authInterceptor_outcomes ⟨some [("authorization", ["x"])]⟩ ⟨"id-1", none⟩
    ⟨"/user.v1.UserService/GetUser"⟩ echoHandler ⟨0, [], []⟩).2
    (by decide)).1 ⟨[("authorization", ["x"])], "x", [], rfl, by decide⟩

end InterceptorTheorems

section HandlerErrorText

open entity repository dto mapper fixtures persistence gonum

variable {σ : Type}

/-- C26, counterexample: two runs of the handler `DeleteUser`, and two of `CreateUser`, on the
same request and the same storage, which differ only in the text of the error of the database
layer ("driver: bad connection" in one, "password authentication failed for user admin" in the
other).  The status messages sent to the caller contain that text, so they differ. -/
theorem handler_message_carries_storage_text_counterexample :
    (usergrpc.DeleteUser standInExternal
      ⟨useCaseOver (offlineRepository "driver: bad connection")⟩
      ⟨aliceID, false⟩ ⟨[alice], []⟩).1 =
      Outcome.returned (none, some (RPCError.status codes.Code.Internal
        "failed to check user existence: failed to get database connection: driver: bad connection")) ∧
    (usergrpc.DeleteUser standInExternal
      ⟨useCaseOver (offlineRepository "password authentication failed for user admin")⟩
      ⟨aliceID, false⟩ ⟨[alice], []⟩).1 =
      Outcome.returned (none, some (RPCError.status codes.Code.Internal
        "failed to check user existence: failed to get database connection: password authentication failed for user admin")) ∧
    (usergrpc.CreateUser standInExternal
      ⟨useCaseOver (offlineRepository "driver: bad connection")⟩ 0
      ⟨"dave@example.com", "dave", "s3cretpass", "Dave", "", none, none⟩ ⟨[alice], []⟩).1 =
      Outcome.returned (none, some (RPCError.status codes.Code.Internal
        "failed to create user: failed to check email existence: failed to get database connection: driver: bad connection")) ∧
    (usergrpc.CreateUser standInExternal
      ⟨useCaseOver (offlineRepository "password authentication failed for user admin")⟩ 0
      ⟨"dave@example.com", "dave", "s3cretpass", "Dave", "", none, none⟩ ⟨[alice], []⟩).1 =
      Outcome.returned (none, some (RPCError.status codes.Code.Internal
        "failed to create user: failed to check email existence: failed to get database connection: password authentication failed for user admin")) := by
  decide

/-- C26, as amended: in the handlers `CreateUser`, `ListUsers`, `UpdateUser`, `DeleteUser` and
`ChangePassword`, when the request passes the checks of the handler and the use case returns
an error, the handler returns no response and a status of code `Internal` whose message is the
text of that error, `err.Error()` (the first five parts).  When the use case fails because a
repository operation returned an error `e`, that message is a fixed text naming the failed
steps followed by the text of `e`; this holds for every repository operation of every one of
the five handlers:
* `CreateUser`: `ExistsByEmail`, `ExistsByUsername`, `Create`;
* `ListUsers`: `List` and `Count`, or `ListWithOptions` and `CountWithFilter`;
* `UpdateUser`: `GetByID`, `ExistsByEmail`, `ExistsByUsername`, `Update`, and the `GetByID`
  that reads the user back;
* `DeleteUser`: `Exists`, `Delete`;
* `ChangePassword`: `GetByID`, `Update`.
So the code is the same whatever the text of the repository's error is, and the message is
not. -/
theorem handlers_send_error_text (ext : usergrpc.External) (s : usergrpc.UserServiceServer σ)
    (w : World σ) :
    -- the message is the text of the error of the use case
    (∀ rnd req createDTO userDTO err w1,
      req.Email ≠ "" → req.Username ≠ "" → req.Password ≠ "" →
      CreateUserRequestToDTO (some req) = some createDTO →
      usecase.CreateUser ext.lib s.userUseCase rnd createDTO w = ((userDTO, some err), w1) →
      usergrpc.CreateUser ext s rnd req w =
        (Outcome.returned (none, some (RPCError.status codes.Code.Internal err.Error)),
         w1)) ∧
    (∀ req listDTO err w1,
      usecase.ListUsers s.userUseCase.userRepo (usergrpc.pagination req.Pagination).1
        (usergrpc.pagination req.Pagination).2
        (req.Filter.bind (fun f => ListUsersFilterToDTO (some f))) w =
        ((listDTO, some err), w1) →
      usergrpc.ListUsers ext s req w =
        (Outcome.returned (none, some (RPCError.status codes.Code.Internal err.Error)),
         w1)) ∧
    (∀ req updateDTO userDTO err w1,
      req.Id ≠ "" →
      UpdateUserRequestToDTO ext.uuidParse (some req) = (some updateDTO, none) →
      usecase.UpdateUser ext.lib s.userUseCase updateDTO w =
        (Outcome.returned (userDTO, some err), w1) →
      usergrpc.UpdateUser ext s req w =
        (Outcome.returned (none, some (RPCError.status codes.Code.Internal err.Error)),
         w1)) ∧
    (∀ req err w1,
      req.Id ≠ "" →
      usecase.DeleteUser ext.uuidParse s.userUseCase req.Id req.HardDelete w =
        (some err, w1) →
      usergrpc.DeleteUser ext s req w =
        (Outcome.returned (none, some (RPCError.status codes.Code.Internal err.Error)),
         w1)) ∧
    (∀ rnd req userID err w1,
      req.UserId ≠ "" → req.OldPassword ≠ "" → req.NewPassword ≠ "" →
      ext.uuidParse req.UserId = Except.ok userID →
      usecase.ChangePassword ext.lib s.userUseCase rnd
        { UserID := userID, OldPassword := req.OldPassword,
          NewPassword := req.NewPassword } w = (some err, w1) →
      usergrpc.ChangePassword ext s rnd req w =
        (Outcome.returned (none, some (RPCError.status codes.Code.Internal err.Error)),
         w1)) ∧
    -- `CreateUser`: a failing `ExistsByEmail`, `ExistsByUsername` or `Create`
    (∀ rnd req email username name hash,
      req.Email ≠ "" → req.Username ≠ "" → req.Password ≠ "" →
      NewEmail ext.lib.caseTable req.Email = Except.ok email →
      NewUsername req.Username = Except.ok username →
      NewPersonName req.FirstName req.LastName = Except.ok name →
      service.HashPassword ext.lib rnd req.Password = Except.ok hash →
      (∀ found e db1,
        s.userUseCase.userService.userRepo.ExistsByEmail email.Value w.db =
          ((found, some e), db1) →
        (usergrpc.CreateUser ext s rnd req w).1 =
          Outcome.returned (none, some (RPCError.status codes.Code.Internal
            ("failed to create user: " ++
              ("failed to check email existence: " ++ e.Error))))) ∧
      (∀ found e db1 db2,
        s.userUseCase.userService.userRepo.ExistsByEmail email.Value w.db =
          ((false, none), db1) →
        s.userUseCase.userService.userRepo.ExistsByUsername username.Value db1 =
          ((found, some e), db2) →
        (usergrpc.CreateUser ext s rnd req w).1 =
          Outcome.returned (none, some (RPCError.status codes.Code.Internal
            ("failed to create user: " ++
              ("failed to check username existence: " ++ e.Error))))) ∧
      (∀ e stored db1 db2 db3,
        s.userUseCase.userService.userRepo.ExistsByEmail email.Value w.db =
          ((false, none), db1) →
        s.userUseCase.userService.userRepo.ExistsByUsername username.Value db1 =
          ((false, none), db2) →
        s.userUseCase.userService.userRepo.Create
          { ID := ⟨0⟩, Email := email.Value, Username := username.Value,
            FirstName := name.FirstName, LastName := name.LastName, Password := hash,
            IsActive := (match req.IsActive with | some v => v | none => true),
            IsAdmin := (match req.IsAdmin with | some v => v | none => false),
            CreatedAt := 0, UpdatedAt := 0, DeletedAt := ⟨0, false⟩ } db2 =
          ((some e, stored), db3) →
        (usergrpc.CreateUser ext s rnd req w).1 =
          Outcome.returned (none, some (RPCError.status codes.Code.Internal
            ("failed to create user: " ++ ("failed to create user: " ++ e.Error)))))) ∧
    -- `ListUsers` over a plain repository: a failing `List` or `Count`
    (∀ req basicRepo, s.userUseCase.userRepo = RepoHandle.basic basicRepo →
      (∀ users e db1,
        basicRepo.List
          (mulInt (subInt (if (usergrpc.pagination req.Pagination).1 < 1 then 1
              else (usergrpc.pagination req.Pagination).1) 1)
            (if (usergrpc.pagination req.Pagination).2 < 1 then 10
              else (usergrpc.pagination req.Pagination).2))
          (if (usergrpc.pagination req.Pagination).2 < 1 then 10
            else (usergrpc.pagination req.Pagination).2) w.db = ((users, some e), db1) →
        (usergrpc.ListUsers ext s req w).1 =
          Outcome.returned (none, some (RPCError.status codes.Code.Internal
            ("failed to list users: " ++ e.Error)))) ∧
      (∀ users total e db1 db2,
        basicRepo.List
          (mulInt (subInt (if (usergrpc.pagination req.Pagination).1 < 1 then 1
              else (usergrpc.pagination req.Pagination).1) 1)
            (if (usergrpc.pagination req.Pagination).2 < 1 then 10
              else (usergrpc.pagination req.Pagination).2))
          (if (usergrpc.pagination req.Pagination).2 < 1 then 10
            else (usergrpc.pagination req.Pagination).2) w.db = ((users, none), db1) →
        basicRepo.Count db1 = ((total, some e), db2) →
        (usergrpc.ListUsers ext s req w).1 =
          Outcome.returned (none, some (RPCError.status codes.Code.Internal
            ("failed to count users: " ++ e.Error))))) ∧
    -- `ListUsers` over a repository with filters: a failing `ListWithOptions` or
    -- `CountWithFilter`
    (∀ req advRepo, s.userUseCase.userRepo = RepoHandle.withFilters advRepo →
      (∀ users e db1,
        advRepo.ListWithOptions
          { Offset := mulInt (subInt (if (usergrpc.pagination req.Pagination).1 < 1 then 1
                else (usergrpc.pagination req.Pagination).1) 1)
              (if (usergrpc.pagination req.Pagination).2 < 1 then 10
                else (usergrpc.pagination req.Pagination).2)
            Limit := if (usergrpc.pagination req.Pagination).2 < 1 then 10
              else (usergrpc.pagination req.Pagination).2
            Filter := req.Filter.map (fun f =>
              { Email := f.Email, Username := f.Username,
                IsActive := f.IsActive, IsAdmin := f.IsAdmin })
            Sort' := some { Field := "created_at", Order := "desc" } } w.db =
          ((users, some e), db1) →
        (usergrpc.ListUsers ext s req w).1 =
          Outcome.returned (none, some (RPCError.status codes.Code.Internal
            ("failed to list users: " ++ e.Error)))) ∧
      (∀ users total e db1 db2,
        advRepo.ListWithOptions
          { Offset := mulInt (subInt (if (usergrpc.pagination req.Pagination).1 < 1 then 1
                else (usergrpc.pagination req.Pagination).1) 1)
              (if (usergrpc.pagination req.Pagination).2 < 1 then 10
                else (usergrpc.pagination req.Pagination).2)
            Limit := if (usergrpc.pagination req.Pagination).2 < 1 then 10
              else (usergrpc.pagination req.Pagination).2
            Filter := req.Filter.map (fun f =>
              { Email := f.Email, Username := f.Username,
                IsActive := f.IsActive, IsAdmin := f.IsAdmin })
            Sort' := some { Field := "created_at", Order := "desc" } } w.db =
          ((users, none), db1) →
        advRepo.CountWithFilter
          (req.Filter.map (fun f =>
            { Email := f.Email, Username := f.Username,
              IsActive := f.IsActive, IsAdmin := f.IsAdmin })) db1 =
          ((total, some e), db2) →
        (usergrpc.ListUsers ext s req w).1 =
          Outcome.returned (none, some (RPCError.status codes.Code.Internal
            ("failed to count users: " ++ e.Error))))) ∧
    -- `UpdateUser`: a failing `GetByID`, `ExistsByEmail`, `ExistsByUsername` or `Update`, and
    -- a failing `GetByID` when the user is read back
    (∀ req updateDTO,
      req.Id ≠ "" →
      UpdateUserRequestToDTO ext.uuidParse (some req) = (some updateDTO, none) →
      (∀ found e db1,
        s.userUseCase.userService.userRepo.GetByID updateDTO.ID w.db =
          ((found, some e), db1) →
        (usergrpc.UpdateUser ext s req w).1 =
          Outcome.returned (none, some (RPCError.status codes.Code.Internal
            ("failed to update user: " ++ ("failed to get user: " ++ e.Error))))) ∧
      (∀ cur email found e db1 db2,
        s.userUseCase.userService.userRepo.GetByID updateDTO.ID w.db =
          ((some cur, none), db1) →
        (usecase.updatesOf updateDTO).Email ≠ "" →
        (usecase.updatesOf updateDTO).Email ≠ cur.Email →
        NewEmail ext.lib.caseTable (usecase.updatesOf updateDTO).Email = Except.ok email →
        s.userUseCase.userService.userRepo.ExistsByEmail email.Value db1 =
          ((found, some e), db2) →
        (usergrpc.UpdateUser ext s req w).1 =
          Outcome.returned (none, some (RPCError.status codes.Code.Internal
            ("failed to update user: " ++
              ("failed to check email existence: " ++ e.Error))))) ∧
      (∀ cur m1 w1 username found e db1 db2,
        s.userUseCase.userService.userRepo.GetByID updateDTO.ID w.db =
          ((some cur, none), db1) →
        service.mergeEmail ext.lib s.userUseCase.userService.userRepo
          (usecase.updatesOf updateDTO) cur
          ⟨db1, w.calls ++ [RepoCall.GetByID updateDTO.ID]⟩ = (Except.ok m1, w1) →
        (usecase.updatesOf updateDTO).Username ≠ "" →
        (usecase.updatesOf updateDTO).Username ≠ m1.Username →
        NewUsername (usecase.updatesOf updateDTO).Username = Except.ok username →
        s.userUseCase.userService.userRepo.ExistsByUsername username.Value w1.db =
          ((found, some e), db2) →
        (usergrpc.UpdateUser ext s req w).1 =
          Outcome.returned (none, some (RPCError.status codes.Code.Internal
            ("failed to update user: " ++
              ("failed to check username existence: " ++ e.Error))))) ∧
      (∀ cur m1 w1 m2 w2 e db1 db3,
        s.userUseCase.userService.userRepo.GetByID updateDTO.ID w.db =
          ((some cur, none), db1) →
        service.mergeEmail ext.lib s.userUseCase.userService.userRepo
          (usecase.updatesOf updateDTO) cur
          ⟨db1, w.calls ++ [RepoCall.GetByID updateDTO.ID]⟩ = (Except.ok m1, w1) →
        service.mergeUsername s.userUseCase.userService.userRepo
          (usecase.updatesOf updateDTO) m1 w1 = (Except.ok m2, w2) →
        s.userUseCase.userService.userRepo.Update
          (service.mergeNames (usecase.updatesOf updateDTO) m2) w2.db = (some e, db3) →
        (usergrpc.UpdateUser ext s req w).1 =
          Outcome.returned (none, some (RPCError.status codes.Code.Internal
            ("failed to update user: " ++ ("failed to update user: " ++ e.Error))))) ∧
      (∀ w1 found e db2,
        service.UpdateUser ext.lib s.userUseCase.userService.userRepo updateDTO.ID
          (usecase.updatesOf updateDTO) w = (none, w1) →
        s.userUseCase.userRepo.base.GetByID updateDTO.ID w1.db = ((found, some e), db2) →
        (usergrpc.UpdateUser ext s req w).1 =
          Outcome.returned (none, some (RPCError.status codes.Code.Internal
            ("failed to get updated user: " ++ e.Error))))) ∧
    -- `DeleteUser`: a failing `Exists` or `Delete`
    (∀ req userID,
      req.Id ≠ "" → ext.uuidParse req.Id = Except.ok userID →
      (∀ found e db1,
        s.userUseCase.userRepo.base.Exists userID w.db = ((found, some e), db1) →
        (usergrpc.DeleteUser ext s req w).1 =
          Outcome.returned (none, some (RPCError.status codes.Code.Internal
            ("failed to check user existence: " ++ e.Error)))) ∧
      (∀ e db1 db2,
        s.userUseCase.userRepo.base.Exists userID w.db = ((true, none), db1) →
        s.userUseCase.userRepo.base.Delete userID db1 = (some e, db2) →
        (usergrpc.DeleteUser ext s req w).1 =
          Outcome.returned (none, some (RPCError.status codes.Code.Internal
            ("failed to delete user: " ++ e.Error))))) ∧
    -- `ChangePassword`: a failing `GetByID` or `Update`
    (∀ rnd req userID,
      req.UserId ≠ "" → req.OldPassword ≠ "" → req.NewPassword ≠ "" →
      ext.uuidParse req.UserId = Except.ok userID →
      (∀ found e db1,
        s.userUseCase.userService.userRepo.GetByID userID w.db = ((found, some e), db1) →
        (usergrpc.ChangePassword ext s rnd req w).1 =
          Outcome.returned (none, some (RPCError.status codes.Code.Internal
            ("failed to change password: " ++ ("failed to get user: " ++ e.Error))))) ∧
      (∀ cur hash e db1 db2,
        s.userUseCase.userService.userRepo.GetByID userID w.db = ((some cur, none), db1) →
        service.VerifyPassword ext.lib cur.Password req.OldPassword = none →
        service.HashPassword ext.lib rnd req.NewPassword = Except.ok hash →
        s.userUseCase.userService.userRepo.Update { cur with Password := hash } db1 =
          (some e, db2) →
        (usergrpc.ChangePassword ext s rnd req w).1 =
          Outcome.returned (none, some (RPCError.status codes.Code.Internal
            ("failed to change password: " ++
              ("failed to update password: " ++ e.Error)))))) := by
  refine ⟨?_, ?_, ?_, ?_, ?_, ?_, ?_, ?_, ?_, ?_, ?_⟩
  · intro rnd req createDTO userDTO err w1 h1 h2 h3 hM hU
    simp [usergrpc.CreateUser, h1, h2, h3, hM, hU]
  · intro req listDTO err w1 hU
    rcases req with ⟨pg, fl⟩
    cases fl <;> cases listDTO <;>
      (simp only [Option.bind] at hU; simp [usergrpc.ListUsers, hU])
  · intro req updateDTO userDTO err w1 h1 hM hU
    simp [usergrpc.UpdateUser, h1, hM, hU]
  · intro req err w1 h1 hU
    simp [usergrpc.DeleteUser, h1, hU]
  · intro rnd req userID err w1 h1 h2 h3 hP hU
    simp [usergrpc.ChangePassword, h1, h2, h3, hP, hU]
  · intro rnd req email username name hash h1 h2 h3 hE hU hN hH
    refine ⟨?_, ?_, ?_⟩
    · intro found e db1 hX
      simp [usergrpc.CreateUser, h1, h2, h3, CreateUserRequestToDTO, usecase.CreateUser,
        CreateUserDTO.ToEntity, service.CreateUser, hE, hU, hN, hH, World.ExistsByEmail, hX,
        GoError.Error]
    · intro found e db1 db2 hX hY
      simp [usergrpc.CreateUser, h1, h2, h3, CreateUserRequestToDTO, usecase.CreateUser,
        CreateUserDTO.ToEntity, service.CreateUser, hE, hU, hN, hH, World.ExistsByEmail, hX,
        World.ExistsByUsername, hY, GoError.Error]
    · intro e stored db1 db2 db3 hX hY hC
      rcases req with ⟨rE, rU, rP, rF, rL, rA, rD⟩
      cases rA <;> cases rD <;>
        (simp only [] at hC h1 h2 h3 hE hU hN hH
         simp [usergrpc.CreateUser, h1, h2, h3, CreateUserRequestToDTO, usecase.CreateUser,
          CreateUserDTO.ToEntity, service.CreateUser, hE, hU, hN, hH, World.ExistsByEmail, hX,
          World.ExistsByUsername, hY, World.Create, hC, GoError.Error])
  · intro req basicRepo hR
    rcases req with ⟨pg, fl⟩
    constructor
    · intro users e db1 hL
      cases fl <;>
        simp [usergrpc.ListUsers, usecase.ListUsers, hR, World.List, hL, GoError.Error]
    · intro users total e db1 db2 hL hC
      cases fl <;>
        simp [usergrpc.ListUsers, usecase.ListUsers, hR, World.List, hL, World.Count, hC,
          GoError.Error]
  · intro req advRepo hR
    rcases req with ⟨pg, fl⟩
    constructor
    · intro users e db1 hL
      cases fl <;>
        (simp only [Option.map] at hL
         simp [usergrpc.ListUsers, usecase.ListUsers, hR, ListUsersFilterToDTO,
          World.ListWithOptions, hL, GoError.Error])
    · intro users total e db1 db2 hL hC
      cases fl <;>
        (simp only [Option.map] at hL hC
         simp [usergrpc.ListUsers, usecase.ListUsers, hR, ListUsersFilterToDTO,
          World.ListWithOptions, hL, World.CountWithFilter, hC, GoError.Error])
  · intro req updateDTO h1 hM
    refine ⟨?_, ?_, ?_, ?_, ?_⟩
    · intro found e db1 hG
      cases found <;>
        simp [usergrpc.UpdateUser, h1, hM, usecase.UpdateUser, service.UpdateUser,
          World.GetByID, hG, GoError.Error]
    · intro cur email found e db1 db2 hG hne1 hne2 hE hX
      simp [usergrpc.UpdateUser, h1, hM, usecase.UpdateUser, service.UpdateUser,
        World.GetByID, hG, service.mergeEmail, hne1, hne2, hE, World.ExistsByEmail, hX,
        GoError.Error]
    · intro cur m1 w1 username found e db1 db2 hG hME hne1 hne2 hU hX
      simp [usergrpc.UpdateUser, h1, hM, usecase.UpdateUser, service.UpdateUser,
        World.GetByID, hG, hME, service.mergeUsername, hne1, hne2, hU,
        World.ExistsByUsername, hX, GoError.Error]
    · intro cur m1 w1 m2 w2 e db1 db3 hG hME hMU hUp
      simp [usergrpc.UpdateUser, h1, hM, usecase.UpdateUser, service.UpdateUser,
        World.GetByID, hG, hME, hMU, World.Update, hUp, GoError.Error]
    · intro w1 found e db2 hS hG
      cases found <;>
        simp [usergrpc.UpdateUser, h1, hM, usecase.UpdateUser, hS, World.GetByID, hG,
          GoError.Error]
  · intro req userID h1 hP
    constructor
    · intro found e db1 hE
      simp [usergrpc.DeleteUser, h1, usecase.DeleteUser, hP, World.Exists, hE, GoError.Error]
    · intro e db1 db2 hE hD
      simp [usergrpc.DeleteUser, h1, usecase.DeleteUser, hP, World.Exists, hE, World.Delete,
        hD, GoError.Error]
  · intro rnd req userID h1 h2 h3 hP
    constructor
    · intro found e db1 hG
      cases found <;>
        simp [usergrpc.ChangePassword, h1, h2, h3, hP, usecase.ChangePassword,
          service.ChangePassword, World.GetByID, hG, GoError.Error]
    · intro cur hash e db1 db2 hG hV hH hUp
      simp [usergrpc.ChangePassword, h1, h2, h3, hP, usecase.ChangePassword,
        service.ChangePassword, World.GetByID, hG, hV, hH, World.Update, hUp, GoError.Error]

/-- C26, witness: deleting Alice, and creating Dave, while the database cannot be reached; the
message of the status ends with the text of the error of the repository. -/
theorem handlers_send_error_text_witness :
    (usergrpc.DeleteUser standInExternal
      ⟨useCaseOver (offlineRepository "driver: bad connection")⟩ ⟨aliceID, false⟩
      ⟨[alice], []⟩).1 =
      Outcome.returned (none, some (RPCError.status codes.Code.Internal
        ("failed to check user existence: " ++
          (GoError.wrap "failed to get database connection: "
            (GoError.foreign "gorm" "driver: bad connection") "").Error))) ∧
    (usergrpc.CreateUser standInExternal
      ⟨useCaseOver (offlineRepository "driver: bad connection")⟩ 0
      ⟨"dave@example.com", "dave", "s3cretpass", "Dave", "", none, none⟩ ⟨[alice], []⟩).1 =
      Outcome.returned (none, some (RPCError.status codes.Code.Internal
        ("failed to create user: " ++ ("failed to check email existence: " ++
          (GoError.wrap "failed to get database connection: "
            (GoError.foreign "gorm" "driver: bad connection") "").Error)))) :=
  ⟨((handlers_send_error_text standInExternal
      ⟨useCaseOver (offlineRepository "driver: bad connection")⟩
      ⟨[alice], []⟩).2.2.2.2.2.2.2.2.2.1 ⟨aliceID, false⟩ ⟨1⟩ (by decide) (by decide)).1
      false _ [alice] rfl,
   ((handlers_send_error_text standInExternal
      ⟨useCaseOver (offlineRepository "driver: bad connection")⟩
      ⟨[alice], []⟩).2.2.2.2.2.1 0
      ⟨"dave@example.com", "dave", "s3cretpass", "Dave", "", none, none⟩
      ⟨"dave@example.com"⟩ ⟨"dave"⟩ ⟨"Dave", ""⟩ "$2a$10$s3cretpass"
      (by decide) (by decide) (by decide) (by decide) (by decide) (by decide)
      (by decide)).1 false _ [alice] rfl⟩

end HandlerErrorText

section PasswordNotExposed

open entity dto mapper fixtures

/-- C27: two user entities that differ only in `Password` have the same DTO (`dto.FromEntity`)
and the same message (`mapper.UserToProto`): no outward field depends on the stored hash. -/
theorem password_not_exposed (uuidString : UUID → String) (u1 u2 : User)
    (h : { u1 with Password := u2.Password } = u2) :
    FromEntity u1 = FromEntity u2 ∧
      UserToProto uuidString (some u1) = UserToProto uuidString (some u2) := by
  rw [← h]
  exact ⟨rfl, rfl⟩

/-- C27, witness: Alice, and Alice with another hash. -/
theorem password_not_exposed_witness :
    FromEntity alice = FromEntity { alice with Password := "$2a$10$looking-glass" } ∧
      UserToProto standInUUIDString (some alice) =
        UserToProto standInUUIDString (some { alice with Password := "$2a$10$looking-glass" }) :=
  password_not_exposed standInUUIDString alice
    { alice with Password := "$2a$10$looking-glass" } rfl

end PasswordNotExposed

section UpdateMaskTheorems

open entity dto mapper fixtures

/-- The loop over the paths of the mask: a field of the DTO takes the value the request
carries when its path is among the paths and the request carries the field, and keeps its
value otherwise; the ID is kept. -/
theorem foldl_applyPath (req : pb.UpdateUserRequest) (paths : List String)
    (dto : UpdateUserDTO) :
    paths.foldl (applyPath req) dto =
      { ID := dto.ID
        Email := if "email" ∈ paths ∧ req.Email ≠ none then req.Email else dto.Email
        Username :=
          if "username" ∈ paths ∧ req.Username ≠ none then req.Username else dto.Username
        FirstName :=
          if "first_name" ∈ paths ∧ req.FirstName ≠ none then req.FirstName else dto.FirstName
        LastName :=
          if "last_name" ∈ paths ∧ req.LastName ≠ none then req.LastName else dto.LastName
        IsActive :=
          if "is_active" ∈ paths ∧ req.IsActive ≠ none then req.IsActive else dto.IsActive
        IsAdmin :=
          if "is_admin" ∈ paths ∧ req.IsAdmin ≠ none then req.IsAdmin else dto.IsAdmin } := by
  induction paths generalizing dto with
  | nil => simp
  | cons p ps ih =>
    rw [List.foldl_cons, ih]
    rcases req with ⟨rid, rE, rU, rF, rL, rA, rD, rM⟩
    rcases dto with ⟨did, dE, dU, dF, dL, dA, dD⟩
    by_cases h1 : p = "email"
    · subst h1
      cases rE <;> simp [applyPath]
    by_cases h2 : p = "username"
    · subst h2
      cases rU <;> simp [applyPath]
    by_cases h3 : p = "first_name"
    · subst h3
      cases rF <;> simp [applyPath]
    by_cases h4 : p = "last_name"
    · subst h4
      cases rL <;> simp [applyPath]
    by_cases h5 : p = "is_active"
    · subst h5
      cases rA <;> simp [applyPath]
    by_cases h6 : p = "is_admin"
    · subst h6
      cases rD <;> simp [applyPath]
    have e1 : ¬ "email" = p := fun h => h1 h.symm
    have e2 : ¬ "username" = p := fun h => h2 h.symm
    have e3 : ¬ "first_name" = p := fun h => h3 h.symm
    have e4 : ¬ "last_name" = p := fun h => h4 h.symm
    have e5 : ¬ "is_active" = p := fun h => h5 h.symm
    have e6 : ¬ "is_admin" = p := fun h => h6 h.symm
    simp [applyPath, h1, h2, h3, h4, h5, h6, e1, e2, e3, e4, e5, e6]

/-- C28: for a request whose id `uuid.Parse` refuses, `UpdateUserRequestToDTO` returns the
error of `uuid.Parse` and no DTO.  For a request whose id parses: with a field mask, each of
the six fields of the DTO is set exactly when its path is among the paths of the mask and the
request carries the field, and then it is the field of the request, so a field that the mask
does not name stays unset and a path that is none of the six changes nothing; with no mask,
each field of the DTO is the field of the request, set when the request carries it and unset
otherwise.  The ID of the DTO is the parsed id. -/
theorem updateUserRequestToDTO_fields (uuidParse : usecase.UUIDParser)
    (req : pb.UpdateUserRequest) :
    (∀ msg, uuidParse req.Id = Except.error msg →
      UpdateUserRequestToDTO uuidParse (some req) =
        (none, some (GoError.foreign "uuid" msg))) ∧
    (∀ id, uuidParse req.Id = Except.ok id →
      (∀ mask, req.UpdateMask = some mask →
        UpdateUserRequestToDTO uuidParse (some req) =
          (some
            { ID := id
              Email := if "email" ∈ mask.Paths ∧ req.Email ≠ none then req.Email else none
              Username :=
                if "username" ∈ mask.Paths ∧ req.Username ≠ none then req.Username else none
              FirstName :=
                if "first_name" ∈ mask.Paths ∧ req.FirstName ≠ none then req.FirstName
                else none
              LastName :=
                if "last_name" ∈ mask.Paths ∧ req.LastName ≠ none then req.LastName else none
              IsActive :=
                if "is_active" ∈ mask.Paths ∧ req.IsActive ≠ none then req.IsActive else none
              IsAdmin :=
                if "is_admin" ∈ mask.Paths ∧ req.IsAdmin ≠ none then req.IsAdmin else none },
           none)) ∧
      (req.UpdateMask = none →
        UpdateUserRequestToDTO uuidParse (some req) =
          (some
            { ID := id, Email := req.Email, Username := req.Username,
              FirstName := req.FirstName, LastName := req.LastName,
              IsActive := req.IsActive, IsAdmin := req.IsAdmin },
           none))) := by
  constructor
  · intro msg hP
    simp [UpdateUserRequestToDTO, hP]
  · intro id hP
    constructor
    · intro mask hM
      simp only [UpdateUserRequestToDTO, hP, hM, foldl_applyPath]
    · intro hM
      simp [UpdateUserRequestToDTO, hP, hM]

/-- C28, witness: the request carries an email and a first name, and its mask names
`first_name`, `is_admin` and a path that is no field; only the first name is set. -/
theorem updateUserRequestToDTO_fields_witness :
    UpdateUserRequestToDTO standInParseUUID
      (some { Id := aliceID, Email := some "a@example.com", Username := none,
              FirstName := some "Alys", LastName := none, IsActive := none, IsAdmin := none,
              UpdateMask := some ⟨["first_name", "is_admin", "nickname"]⟩ }) =
      (some { ID := ⟨1⟩, Email := none, Username := none, FirstName := some "Alys",
              LastName := none, IsActive := none, IsAdmin := none }, none) :=
  ((updateUserRequestToDTO_fields standInParseUUID
    { Id := aliceID, Email := some "a@example.com", Username := none,
      FirstName := some "Alys", LastName := none, IsActive := none, IsAdmin := none,
      UpdateMask := some ⟨["first_name", "is_admin", "nickname"]⟩ }).2 ⟨1⟩ (by decide)).1
    ⟨["first_name", "is_admin", "nickname"]⟩ rfl

end UpdateMaskTheorems

section AuthenticateUserHandler

open entity repository dto mapper fixtures persistence

variable {σ : Type}

/-- `Authenticate` returns a user and no error, or an error and no user. -/
theorem authenticate_user_or_error (lib : service.Lib) (userRepo : UserRepository σ)
    (identifier password : String) (w : World σ) :
    (∃ user w1, service.Authenticate lib userRepo identifier password w =
        ((some user, none), w1)) ∨
    (∃ err w1, service.Authenticate lib userRepo identifier password w =
        ((none, some err), w1)) := by
  unfold service.Authenticate
  rcases service.findByUsername userRepo identifier
    (service.findByEmail lib userRepo identifier w) with ⟨⟨u, e⟩, w1⟩
  cases u with
  | none =>
    cases e with
    | some err => exact Or.inr ⟨GoError.wrap "failed to find user: " err "", w1, rfl⟩
    | none => exact Or.inr ⟨GoError.sentinel Sentinel.ErrInvalidCredentials, w1, rfl⟩
  | some user =>
    cases e with
    | some err => exact Or.inr ⟨GoError.wrap "failed to find user: " err "", w1, rfl⟩
    | none =>
      cases hV : service.VerifyPassword lib user.Password password with
      | some e2 =>
        exact Or.inr ⟨GoError.sentinel Sentinel.ErrInvalidCredentials, w1, by simp [hV]⟩
      | none =>
        by_cases hA : user.IsActive = true
        · exact Or.inl ⟨user, w1, by simp [hV, hA]⟩
        · exact Or.inr ⟨GoError.errorf "user account is not active", w1, by simp [hV, hA]⟩

/-- C29: for a request with a non-empty identifier and a non-empty password the handler
`AuthenticateUser` returns a response and no RPC error, and it does not panic.  The use case
either succeeds with a user DTO, and then the response has `success = true`, the user and the
message "Authentication successful" and nothing else; or it fails, and then, whatever the
error is, the response is the same: `success = false`, the message "Invalid credentials" and
no user. -/
theorem authenticateUser_handler_outcomes (ext : usergrpc.External)
    (s : usergrpc.UserServiceServer σ) (req : pb.AuthenticateUserRequest) (w : World σ)
    (hI : req.Identifier ≠ "") (hP : req.Password ≠ "") :
    (∃ userDTO w1,
      usecase.AuthenticateUser ext.lib s.userUseCase
        { Identifier := req.Identifier, Password := req.Password } w =
        (Outcome.returned (some userDTO, none), w1) ∧
      usergrpc.AuthenticateUser ext s req w =
        (Outcome.returned (some
          { User := UserDTOToProto ext.uuidString (some userDTO)
            Success := true
            Message := "Authentication successful" }, none), w1)) ∨
    (∃ err w1,
      usecase.AuthenticateUser ext.lib s.userUseCase
        { Identifier := req.Identifier, Password := req.Password } w =
        (Outcome.returned (none, some err), w1) ∧
      usergrpc.AuthenticateUser ext s req w =
        (Outcome.returned (some
          { User := none, Success := false, Message := "Invalid credentials" }, none),
         w1)) := by
  rcases authenticate_user_or_error ext.lib s.userUseCase.userService.userRepo
    req.Identifier req.Password w with ⟨user, w1, h⟩ | ⟨err, w1, h⟩
  · left
    refine ⟨FromEntity user, w1, ?_, ?_⟩
    · simp [usecase.AuthenticateUser, h]
    · simp [usergrpc.AuthenticateUser, hI, hP, usecase.AuthenticateUser, h]
  · right
    refine ⟨GoError.wrap "authentication failed: " err "", w1, ?_, ?_⟩
    · simp [usecase.AuthenticateUser, h]
    · simp [usergrpc.AuthenticateUser, hI, hP, usecase.AuthenticateUser, h]

/-- Four causes of failure give one and the same reply of `AuthenticateUser`: an unknown
user, a wrong password, an account that is not active, and a storage that cannot be reached. -/
theorem authenticateUser_handler_failures_alike :
    (usergrpc.AuthenticateUser standInExternal ⟨useCaseOver inMemoryRepository⟩
      ⟨"ghost", "wonderland"⟩ ⟨[alice, bob], []⟩).1 =
      Outcome.returned (some
        { User := none, Success := false, Message := "Invalid credentials" }, none) ∧
    (usergrpc.AuthenticateUser standInExternal ⟨useCaseOver inMemoryRepository⟩
      ⟨"alice", "wrong-password"⟩ ⟨[alice, bob], []⟩).1 =
      Outcome.returned (some
        { User := none, Success := false, Message := "Invalid credentials" }, none) ∧
    (usergrpc.AuthenticateUser standInExternal ⟨useCaseOver inMemoryRepository⟩
      ⟨"bob", "builder99"⟩ ⟨[alice, bob], []⟩).1 =
      Outcome.returned (some
        { User := none, Success := false, Message := "Invalid credentials" }, none) ∧
    (usergrpc.AuthenticateUser standInExternal
      ⟨useCaseOver (offlineRepository "driver: bad connection")⟩
      ⟨"alice", "wonderland"⟩ ⟨[alice, bob], []⟩).1 =
      Outcome.returned (some
        { User := none, Success := false, Message := "Invalid credentials" }, none) := by
  decide

/-- C29, witness: Alice signs in with her password. -/
theorem authenticateUser_handler_outcomes_witness :
    (∃ userDTO w1,
      usecase.AuthenticateUser standInExternal.lib (useCaseOver inMemoryRepository)
        { Identifier := "alice", Password := "wonderland" } ⟨[alice, bob], []⟩ =
        (Outcome.returned (some userDTO, none), w1) ∧
      usergrpc.AuthenticateUser standInExternal ⟨useCaseOver inMemoryRepository⟩
        ⟨"alice", "wonderland"⟩ ⟨[alice, bob], []⟩ =
        (Outcome.returned (some
          { User := UserDTOToProto standInExternal.uuidString (some userDTO)
            Success := true
            Message := "Authentication successful" }, none), w1)) ∨
    (∃ err w1,
      usecase.AuthenticateUser standInExternal.lib (useCaseOver inMemoryRepository)
        { Identifier := "alice", Password := "wonderland" } ⟨[alice, bob], []⟩ =
        (Outcome.returned (none, some err), w1) ∧
      usergrpc.AuthenticateUser standInExternal ⟨useCaseOver inMemoryRepository⟩
        ⟨"alice", "wonderland"⟩ ⟨[alice, bob], []⟩ =
        (Outcome.returned (some
          { User := none, Success := false, Message := "Invalid credentials" }, none),
         w1)) :=
  authenticateUser_handler_outcomes standInExternal ⟨useCaseOver inMemoryRepository⟩
    ⟨"alice", "wonderland"⟩ ⟨[alice, bob], []⟩ (by decide) (by decide)

end AuthenticateUserHandler

section FullNameTheorems

open entity dto mapper fixtures

/-- C30, the code at the failing input and around it.  `PersonName.FullName` returns the last
name alone when the first is empty, the first alone when the last is empty, and both with a
space between otherwise.  `User.GetFullName` returns the `Username` when both names are empty
and agrees with `PersonName.FullName` when both are non-empty; with exactly one empty name it
keeps the space, before the last name or after the first, and so differs from
`PersonName.FullName`.  Bob, who has a first name only, is "Bob " (with the space) by
`GetFullName`, in the DTO and in the message, and "Bob" by `PersonName.FullName`. -/
theorem getFullName_keeps_space_beside_empty_name :
    (∀ n : PersonName, n.FirstName = "" → n.FullName = n.LastName) ∧
    (∀ n : PersonName, n.FirstName ≠ "" → n.LastName = "" → n.FullName = n.FirstName) ∧
    (∀ n : PersonName, n.FirstName ≠ "" → n.LastName ≠ "" →
      n.FullName = n.FirstName ++ " " ++ n.LastName) ∧
    (∀ u : User, u.FirstName = "" → u.LastName = "" → u.GetFullName = u.Username) ∧
    (∀ u : User, u.FirstName ≠ "" → u.LastName ≠ "" →
      u.GetFullName = PersonName.FullName ⟨u.FirstName, u.LastName⟩) ∧
    (∀ u : User, u.FirstName ≠ "" → u.LastName = "" →
      u.GetFullName = u.FirstName ++ " " ∧
      u.GetFullName ≠ PersonName.FullName ⟨u.FirstName, u.LastName⟩) ∧
    (∀ u : User, u.FirstName = "" → u.LastName ≠ "" →
      u.GetFullName = " " ++ u.LastName ∧
      u.GetFullName ≠ PersonName.FullName ⟨u.FirstName, u.LastName⟩) ∧
    (bob.GetFullName = "Bob " ∧ (FromEntity bob).FullName = "Bob " ∧
      (UserToProto standInUUIDString (some bob)).map (fun m => m.FullName) = some "Bob " ∧
      PersonName.FullName ⟨bob.FirstName, bob.LastName⟩ = "Bob") := by
  refine ⟨?_, ?_, ?_, ?_, ?_, ?_, ?_, by decide⟩
  · intro n h
    simp [PersonName.FullName, h]
  · intro n h1 h2
    simp [PersonName.FullName, h1, h2]
  · intro n h1 h2
    simp [PersonName.FullName, h1, h2]
  · intro u h1 h2
    simp [User.GetFullName, h1, h2]
  · intro u h1 h2
    simp [User.GetFullName, PersonName.FullName, h1, h2]
  · intro u h1 h2
    have hG : u.GetFullName = u.FirstName ++ " " := by
      simp [User.GetFullName, h1, h2]
    refine ⟨hG, ?_⟩
    rw [hG]
    intro hEq
    have hLen := congrArg String.length hEq
    simp [PersonName.FullName, h1, h2, String.length_append] at hLen
    exact absurd hLen (by decide)
  · intro u h1 h2
    have hG : u.GetFullName = " " ++ u.LastName := by
      simp [User.GetFullName, h1, h2]
    refine ⟨hG, ?_⟩
    rw [hG]
    intro hEq
    have hLen := congrArg String.length hEq
    simp [PersonName.FullName, h1, String.length_append] at hLen
    exact absurd hLen (by decide)

end FullNameTheorems
